import Mathlib

/-!
# DICE++ evaluation engine: shallow embedding

Sources embedded here:
* `include/Global.h`               (`Global`)
* `include/climate/DICEClimate.h`  (`DICEClimate`, its recurrences, `observe`
                                    and `reset`)
* `src/DICE.cpp`                   (`DICE::reset`, `DICE::calc_single_utility`,
                                    `DICE::run`, the objective callbacks of
                                    `DICE::optimize`, `ControlInputObserver`,
                                    `CSVOutputObserver` and the column lookup of
                                    `DICE::write_csv_output`)
* `src/main.cpp`                   (`main`)

Reals (`double`) are exact rationals `ℚ`; time indices (`Time`) are `Nat`.
Code that can throw returns `Except Error`; code that touches the memoization
caches passes the model state explicitly.
-/

namespace Dice

/-! ## Errors -/

/-- The error conditions of the engine (spec §7), the `std::runtime_error`
messages raised in `DICE.cpp`, and `outOfBudget`, which is not an error of the
program: it marks a chain of nested accessor calls that is deeper than the
budget the evaluator was given. -/
inductive Error where
  | DivisionByZero
  | OutOfRange
  | DimensionMismatch
  | runtime (msg : String)
  | outOfBudget
deriving DecidableEq, Repr

/-! ## Differentiable scalar (`autodiff::Value<double>`) -/

/-- Modelled from the spec: the type `autodiff::Value` of the header
`autodiff.h`, which is not among the sources. Spec §3: a value together with
a gradient vector with one entry per decision variable. -/
structure AD where
  value : ℚ
  gradient : List ℚ
deriving DecidableEq, Repr

namespace AD

/-- Modelled from the spec: the constructor `Value{variables_num, c}` of the
missing `autodiff.h` (§4.1: a constant, gradient identically zero). -/
def const (n : Nat) (c : ℚ) : AD := ⟨c, List.replicate n 0⟩

/-- Modelled from the spec: `a + b` of the missing `autodiff.h` (§4.1:
value and gradient add elementwise, widths are validated). -/
def add (a b : AD) : Except Error AD :=
  if a.gradient.length = b.gradient.length then
    .ok ⟨a.value + b.value, List.zipWith (fun x y => x + y) a.gradient b.gradient⟩
  else .error .DimensionMismatch

/-- Modelled from the spec: `a - b` of the missing `autodiff.h` (§4.1). -/
def sub (a b : AD) : Except Error AD :=
  if a.gradient.length = b.gradient.length then
    .ok ⟨a.value - b.value, List.zipWith (fun x y => x - y) a.gradient b.gradient⟩
  else .error .DimensionMismatch

/-- Modelled from the spec: `c * a` and `a * c` for a plain real `c`
(missing `autodiff.h`, §4.1). -/
def scale (c : ℚ) (a : AD) : AD := ⟨c * a.value, a.gradient.map (fun g => c * g)⟩

/-- Modelled from the spec: `a + c` for a plain real `c` (missing
`autodiff.h`, §4.1): the gradient is unchanged. -/
def addConst (a : AD) (c : ℚ) : AD := ⟨a.value + c, a.gradient⟩

/-- Modelled from the spec: `a / c` for a plain real `c` (missing
`autodiff.h`, §4.1): fails when the divisor is exactly zero. -/
def divConst (a : AD) (c : ℚ) : Except Error AD :=
  if c = 0 then .error .DivisionByZero
  else .ok ⟨a.value / c, a.gradient.map (fun g => g / c)⟩

/-- Modelled from the spec: `std::log2` on a differentiable scalar (missing
`autodiff.h`, §4.1), for a real function `l` with derivative `dl`. -/
def log2 (l dl : ℚ → ℚ) (a : AD) : AD :=
  ⟨l a.value, a.gradient.map (fun g => dl a.value * g)⟩

end AD

/-! ## Memoized time series (`StepwiseBackwardLookingTimeSeries`) -/

/-- Modelled from the spec: the bound policies `Value`, `LowerBounded<Value>`
and `Bounded<Value>` of the missing header `TimeSeries.h` (§3, bound policy:
identity, lower-bound, two-sided). -/
inductive Bound where
  | identity
  | lower (l : AD)
  | twoSided (l u : AD)
deriving DecidableEq, Repr

/-- Modelled from the spec: the clamp of the missing `TimeSeries.h` (§3,
§4.2): below the lower bound the result is the bound itself, with the
gradient of the bound; two-sided policies then clamp the upper side. -/
def Bound.clamp : Bound → AD → AD
  | .identity, v => v
  | .lower l, v => if v.value < l.value then l else v
  | .twoSided l u, v =>
      let w := if v.value < l.value then l else v
      if u.value < w.value then u else w

/-- Modelled from the spec: `StepwiseBackwardLookingTimeSeries` of the
missing `TimeSeries.h` (§3): a cache with one optional entry per time step
(its length is the length of the series), the seed for index 0, and the
bound policy. -/
structure Series where
  cache : List (Option AD)
  seed : AD
  bound : Bound
deriving DecidableEq, Repr

/-- Modelled from the spec: `StepwiseBackwardLookingTimeSeries::reset` of the
missing `TimeSeries.h` (§4.2): clears the entire cache, not the seed. -/
def Series.reset (s : Series) : Series :=
  { s with cache := s.cache.map (fun _ => none) }

/-- The cached entry at index `t`, if there is one. -/
def Series.cached (s : Series) (t : Nat) : Option AD :=
  match s.cache[t]? with
  | some (some v) => some v
  | _ => none

/-- Storing a computed entry at index `t`. -/
def Series.store (s : Series) (t : Nat) (v : AD) : Series :=
  { s with cache := s.cache.set t (some v) }

/-- Modelled from the spec: a component whose source is missing
(`Emissions.h`, `Damage.h`/`DICEDamage.h`, `Economy.h`), as far as `reset`
is concerned: it owns memoized time series, and its `reset` clears them
(§4.2, §6). -/
abbrev Component := List Series

/-- Modelled from the spec: `reset()` of a component whose source is
missing: every series it owns is reset. -/
def Component.reset (c : Component) : Component := c.map Series.reset

/-! ## `Global.h` -/

/-- The constants of `Global.h`. -/
structure Global where
  dK : ℚ
  elasmu : ℚ
  expcost2 : ℚ
  fosslim : ℚ
  gamma : ℚ
  prstp : ℚ
  scale1 : ℚ
  scale2 : ℚ
  timestep_length : Nat
  start_year : Nat
  timestep_num : Nat
deriving DecidableEq, Repr

/-- `Global::optlrsav`. -/
def Global.optlrsav (g : Global) : ℚ :=
  (g.dK + 0.004) / (g.dK + 0.004 * g.elasmu + g.prstp) * g.gamma

/-! ## `DICEClimate.h`: data -/

/-- The five memoized series of `DICEClimate`. -/
inductive Var where
  | M_atm
  | M_l
  | M_u
  | T_ocean
  | T_atm
deriving DecidableEq, Repr

/-- The members of `DICEClimate`: the settings constants, the cap
`T_atm_upper` (a differentiable constant) and the five series. -/
structure DICEClimate where
  b12 : ℚ
  b23 : ℚ
  c1 : ℚ
  c3 : ℚ
  c4 : ℚ
  fco22x : ℚ
  fex0 : ℚ
  fex1 : ℚ
  M_atm_eq : ℚ
  M_l_eq : ℚ
  M_u_eq : ℚ
  t2xco2 : ℚ
  T_atm_upper : AD
  M_atm_series : Series
  M_l_series : Series
  M_u_series : Series
  T_ocean_series : Series
  T_atm_series : Series
deriving DecidableEq, Repr

namespace DICEClimate

/-- `b11 = 1 - b12`. -/
def b11 (c : DICEClimate) : ℚ := 1 - c.b12
/-- `b21 = b12 * M_atm_eq / M_u_eq`. -/
def b21 (c : DICEClimate) : ℚ := c.b12 * c.M_atm_eq / c.M_u_eq
/-- `b22 = 1 - b21 - b23`. -/
def b22 (c : DICEClimate) : ℚ := 1 - c.b21 - c.b23
/-- `b32 = b23 * M_u_eq / M_l_eq`. -/
def b32 (c : DICEClimate) : ℚ := c.b23 * c.M_u_eq / c.M_l_eq
/-- `b33 = 1 - b32`. -/
def b33 (c : DICEClimate) : ℚ := 1 - c.b32

/-- The series member behind each accessor. -/
def series (c : DICEClimate) : Var → Series
  | .M_atm => c.M_atm_series
  | .M_l => c.M_l_series
  | .M_u => c.M_u_series
  | .T_ocean => c.T_ocean_series
  | .T_atm => c.T_atm_series

/-- Replacing one series member. -/
def setSeries (c : DICEClimate) : Var → Series → DICEClimate
  | .M_atm, s => { c with M_atm_series := s }
  | .M_l, s => { c with M_l_series := s }
  | .M_u, s => { c with M_u_series := s }
  | .T_ocean, s => { c with T_ocean_series := s }
  | .T_atm, s => { c with T_atm_series := s }

/-- `DICEClimate::reset`: resets the five series, in the order of the
source. -/
def reset (c : DICEClimate) : DICEClimate :=
  { c with
    M_atm_series := c.M_atm_series.reset
    M_l_series := c.M_l_series.reset
    M_u_series := c.M_u_series.reset
    T_ocean_series := c.T_ocean_series.reset
    T_atm_series := c.T_atm_series.reset }

end DICEClimate

/-! ## `DICE.h`: the model state -/

/-- Modelled from the spec: the members of the missing `Control.h` that
`DICE.cpp` uses: the gradient width `variables_num` and the decision vector
`s` (spec §3, Decision Vector). -/
structure Control where
  variables_num : Nat
  s : List ℚ
deriving DecidableEq, Repr

/-- The members of `DICE` (`DICE.h`). -/
structure DICE where
  global : Global
  control : Control
  economies : List Component
  climate : DICEClimate
  damage : Component
  emissions : Component
deriving DecidableEq, Repr

/-- `DICE::reset`: emissions, climate, damage, then every economy. -/
def DICE.reset (d : DICE) : DICE :=
  { d with
    emissions := d.emissions.reset
    climate := d.climate.reset
    damage := d.damage.reset
    economies := d.economies.map Component.reset }

/-- A computation over the model state that may throw. -/
abbrev M (α : Type) := DICE → Except Error (α × DICE)

/-- A computation that returns `a` and leaves the state alone. -/
def M.pure {α : Type} (a : α) : M α := fun d => .ok (a, d)

/-- Sequencing: run `m`, then `f` on its result and the state it left; an
exception of `m` propagates. -/
def M.bind {α β : Type} (m : M α) (f : α → M β) : M β := fun d =>
  match m d with
  | .error e => .error e
  | .ok (a, d1) => f a d1

/-- A computation that does not touch the state. -/
def M.lift {α : Type} (r : Except Error α) : M α := fun d =>
  match r with
  | .error e => .error e
  | .ok a => .ok (a, d)

/-! ## Collaborators whose sources are missing -/

/-- Modelled from the spec: the collaborators that the embedded code calls
and whose sources are missing. `log2v`, `dlog2`: the real function behind
`std::log2` and its derivative. `E`: `Emissions::operator()` (missing
`Emissions.h`), `utility`: `Economy::utility` of `economies[0]` (missing
`Economy.h`); both run on the model state and reach the climate module
through the accessor `T_atm` of the abstract `Climate` interface, which they
receive as their first argument (spec §4.2: a recurrence may reference other
series by calling their accessor). -/
structure Ext where
  log2v : ℚ → ℚ
  dlog2 : ℚ → ℚ
  E : (Nat → M AD) → Nat → M AD
  utility : (Nat → M AD) → Nat → M AD

/-! ## `DICEClimate.h`: recurrences -/

/-- `DICEClimate::forcoth`. `year` is computed in `Time` (`size_t`). -/
def forcoth (d : DICE) (t : Nat) : ℚ :=
  let year := (d.global.start_year + d.global.timestep_length * t) % 2 ^ 64
  if year > 2100 then d.climate.fex1
  else d.climate.fex0
    + (d.climate.fex1 - d.climate.fex0) * ((d.global.timestep_length : ℚ) * 0.2 * (t : ℚ)) / 18

/-- `DICEClimate::force`, given the accessor `M_atm`:
`fco22x * std::log2(M_atm(t) / 588) + forcoth(t)`. Constants are read from
the state at entry (they are `const` members). -/
def force (x : Ext) (M_atm : Nat → M AD) (t : Nat) : M AD := fun d =>
  (M.bind (M_atm t) fun m =>
   M.lift (do
    let r ← m.divConst 588
    pure ((AD.scale d.climate.fco22x (AD.log2 x.log2v x.dlog2 r)).addConst (forcoth d t)))) d

/-- The bodies of the lambdas that `M_atm`, `M_l`, `M_u`, `T_ocean` and
`T_atm` hand to their series: the unclamped value at `t` from the previous
value `last` of the same series. `acc` is the accessor of each series.
Operands are evaluated left to right; the lambdas are only invoked for
`t ≥ 1`, where `t - 1` does not wrap around. Constants are read from the
state at entry (they are `const` members). -/
def recurrence (x : Ext) (acc : Var → Nat → M AD) (q : Var) (t : Nat) (last : AD) : M AD :=
  fun d =>
  let c := d.climate
  match q with
  | .M_atm =>
    -- M_atm_last * b11 + M_u(t - 1) * b21 + E(t - 1) * global.timestep_length / 3.666
    (M.bind (acc .M_u (t - 1)) fun mu =>
     M.bind (x.E (acc .T_atm) (t - 1)) fun e =>
     M.lift (do
      let s1 ← (AD.scale c.b11 last).add (AD.scale c.b21 mu)
      let s2 ← (AD.scale (d.global.timestep_length : ℚ) e).divConst 3.666
      s1.add s2)) d
  | .M_l =>
    -- M_l_last * b33 + M_u(t - 1) * b23
    (M.bind (acc .M_u (t - 1)) fun mu =>
     M.lift ((AD.scale c.b33 last).add (AD.scale c.b23 mu))) d
  | .M_u =>
    -- M_atm(t - 1) * b12 + M_u_last * b22 + M_l(t - 1) * b32
    (M.bind (acc .M_atm (t - 1)) fun ma =>
     M.bind (acc .M_l (t - 1)) fun ml =>
     M.lift (do
      let s1 ← (AD.scale c.b12 ma).add (AD.scale c.b22 last)
      s1.add (AD.scale c.b32 ml))) d
  | .T_ocean =>
    -- T_ocean_last + c4 * (T_atm(t - 1) - T_ocean_last)
    (M.bind (acc .T_atm (t - 1)) fun ta =>
     M.lift (do
      let df ← ta.sub last
      last.add (AD.scale c.c4 df))) d
  | .T_atm =>
    -- const Value T_atm_t = T_atm_last + c1 * (force(t) - (fco22x / t2xco2) * T_atm_last
    --                                          - c3 * (T_atm_last - T_ocean(t - 1)));
    -- if (T_atm_t > T_atm_upper) return T_atm_upper; else return T_atm_t;
    (M.bind (force x (acc .M_atm) t) fun f =>
     M.bind (acc .T_ocean (t - 1)) fun toc =>
     M.lift (do
      let s1 ← f.sub (AD.scale (c.fco22x / c.t2xco2) last)
      let df ← last.sub toc
      let s2 ← s1.sub (AD.scale c.c3 df)
      let T_atm_t ← last.add (AD.scale c.c1 s2)
      if T_atm_t.value > c.T_atm_upper.value then pure c.T_atm_upper else pure T_atm_t)) d

/-- The number of nested `get` calls each series may still open. -/
abbrev Budget := Var → Nat

/-- The sum of the five budgets. -/
def Budget.total (b : Budget) : Nat :=
  b .M_atm + b .M_l + b .M_u + b .T_ocean + b .T_atm

/-- One nested `get` call on series `q` is opened. -/
def Budget.spend (b : Budget) (q : Var) : Budget :=
  fun r => if r = q then b r - 1 else b r

/-- Modelled from the spec: the end of a `get(t, f)` that computed the
unclamped value `raw` (missing `TimeSeries.h`, §4.2): the value is clamped
per bound policy, stored in the cache at index `t` and returned. -/
def storeClamped (q : Var) (t : Nat) (raw : AD) : M AD := fun d =>
  let v := (d.climate.series q).bound.clamp raw
  .ok (v, { d with climate := d.climate.setSeries q ((d.climate.series q).store t v) })

/-- Modelled from the spec: `StepwiseBackwardLookingTimeSeries::get(t, f)` of
the missing `TimeSeries.h` (§4.2), applied to the series `q` of
`DICEClimate` with the lambda of the accessor of `q` as `f`; this is the
accessor `M_atm(t)`, `M_l(t)`, `M_u(t)`, `T_ocean(t)`, `T_atm(t)`.
An index outside the series is `OutOfRange`; index 0 is the clamped seed; a
cached entry is returned; otherwise `get(t - 1)` gives the previous value,
the lambda the unclamped one, which is clamped, stored and returned.
Every call spends one unit of the budget of its series. -/
def eval (x : Ext) (b : Budget) (q : Var) (t : Nat) : M AD := fun d =>
  if _hb : b q = 0 then .error .outOfBudget
  else
    if (d.climate.series q).cache.length ≤ t then .error .OutOfRange
    else if t = 0 then .ok ((d.climate.series q).bound.clamp (d.climate.series q).seed, d)
    else
      match (d.climate.series q).cached t with
      | some v => .ok (v, d)
      | none =>
        (M.bind (eval x (b.spend q) q (t - 1)) fun last =>
         M.bind (recurrence x (fun r u => eval x (b.spend q) r u) q t last) fun raw =>
         storeClamped q t raw) d
termination_by b.total
decreasing_by
  all_goals (cases q <;> simp [Budget.total, Budget.spend] <;> omega)

/-- An accessor of `DICEClimate` called from outside the module at index
`t`: every series may open `t + 1` nested `get` calls. -/
def accessor (x : Ext) (q : Var) (t : Nat) : M AD := eval x (fun _ => t + 1) q t

/-- `DICEClimate::M_atm`. -/
def M_atm (x : Ext) (t : Nat) : M AD := accessor x .M_atm t

/-- `DICEClimate::M_l`. -/
def M_l (x : Ext) (t : Nat) : M AD := accessor x .M_l t

/-- `DICEClimate::M_u`. -/
def M_u (x : Ext) (t : Nat) : M AD := accessor x .M_u t

/-- `DICEClimate::T_ocean`. -/
def T_ocean (x : Ext) (t : Nat) : M AD := accessor x .T_ocean t

/-- `DICEClimate::T_atm`, the accessor of the abstract `Climate` interface. -/
def T_atm (x : Ext) (t : Nat) : M AD := accessor x .T_atm t

/-- The call `emissions(t)` of `DICE.cpp` (`Emissions::operator()`, missing
source, reaching the climate through `T_atm`). -/
def emissions (x : Ext) (t : Nat) : M AD := x.E (T_atm x) t

/-- The call `economies[0].utility(t)` of `DICE.cpp` (`Economy::utility`,
missing source, reaching the climate through `T_atm`). -/
def utility (x : Ext) (t : Nat) : M AD := x.utility (T_atm x) t

/-! ## `DICE.cpp`: `calc_single_utility` -/

/-- The loop `for (Time t = 0; t < global.timestep_num; ++t)
utility += economies[0].utility(t);` with `k` iterations left, at index `t`,
with the running sum `acc`. -/
def utility_loop (x : Ext) : Nat → Nat → AD → M AD
  | 0, _, acc => M.pure acc
  | k + 1, t, acc =>
    M.bind (utility x t) fun u =>
    M.bind (M.lift (acc.add u)) fun acc1 =>
    utility_loop x k (t + 1) acc1

/-- `DICE::calc_single_utility`. With `debug` the body runs inside
`try { ... } catch (std::exception& e) { std::cerr << ...; throw; }`. -/
def calc_single_utility (x : Ext) (debug : Bool) : M AD := fun d =>
  let body : Except Error (AD × DICE) :=
    (M.bind (utility_loop x d.global.timestep_num 0 (AD.const d.control.variables_num 0))
      fun u => M.pure ((AD.scale d.global.scale1 u).addConst d.global.scale2)) d
  if debug then
    match body with
    | .error e => .error e
    | .ok r => .ok r
  else body

/-- The results of the calls `economies[0].utility(t)`, `utility(t + 1)`, ...,
`utility(t + k - 1)` made in this order from a model state, and the state
they leave. -/
def utilityTrace (x : Ext) : Nat → Nat → M (List AD)
  | 0, _ => M.pure []
  | k + 1, t =>
    M.bind (utility x t) fun u =>
    M.bind (utilityTrace x k (t + 1)) fun us =>
    M.pure (u :: us)

/-! ## `DICE.cpp`: the objective evaluations of `DICE::optimize` -/

/-- The call `control.s.value().assign(first, last)`: the decision vector
becomes the given sequence. -/
def assign (vars : List ℚ) (d : DICE) : DICE :=
  { d with control := { d.control with s := vars } }

/-- The loop `for (Time t = 0; t < bound; ++t)
cca += (global.timestep_length * emissions(t) / 3.666).value();` with `k`
iterations left, at index `t`. -/
def cca_loop (x : Ext) : Nat → Nat → ℚ → M ℚ
  | 0, _, cca => M.pure cca
  | k + 1, t, cca => fun d =>
    (M.bind (emissions x t) fun e =>
     M.bind (M.lift ((AD.scale (d.global.timestep_length : ℚ) e).divConst 3.666)) fun c =>
     cca_loop x k (t + 1) (cca + c.value)) d

/-- One pass of the `midaco` loop of `DICE::optimize`, up to the call of
`midaco(...)`: objective `f` and constraint `g` (which keeps its previous
value `g0` without the constraint). The candidate array `x` of the loop is
`_cand`; the pass does not read it. `with_constraint` is the file-level
static, and the static `dice` is taken to be this model. -/
def midaco_pass (x : Ext) (debug with_constraint : Bool) (g0 : ℚ) (_cand : List ℚ) :
    M (ℚ × ℚ) := fun d =>
  (M.bind (calc_single_utility x debug) fun u =>
   if with_constraint then
     fun d1 =>
     (M.bind (cca_loop x d1.global.timestep_num 0 90) fun cca =>
      M.pure (-u.value, d1.global.fosslim - cca)) d1
   else M.pure (-u.value, g0)) d.reset

/-- `PagmoProblem::fitness`: the vector `f` (objective, and the constraint
when `with_constraint`). -/
def pagmo_fitness (x : Ext) (debug with_constraint : Bool) (vars : List ℚ) :
    M (List ℚ) := fun d =>
  (M.bind (calc_single_utility x debug) fun u =>
   if with_constraint then
     fun d1 =>
     (M.bind (cca_loop x d1.global.timestep_num 0 90) fun cca =>
      M.pure [-u.value, cca - d1.global.fosslim]) d1
   else M.pure [-u.value]) (assign vars d).reset

/-- The callback handed to `BORG_Problem_create`: `objs` and `consts` (empty
without the constraint). `n` is the file-level static set to
`control.variables_num`. -/
def borg_callback (x : Ext) (debug with_constraint : Bool) (n : Nat) (vars : List ℚ) :
    M (List ℚ × List ℚ) := fun d =>
  (M.bind (calc_single_utility x debug) fun u => fun d1 =>
   (M.bind (cca_loop x d1.global.timestep_num 0 90) fun cca =>
    if with_constraint then M.pure ([-u.value], [max 0 (cca - d1.global.fosslim)])
    else M.pure ([-u.value], [])) d1) (assign (vars.take n) d).reset

/-- The callback handed to `opt.set_max_objective` (nlopt). -/
def nlopt_objective (x : Ext) (debug : Bool) (n : Nat) (xs : List ℚ) : M ℚ := fun d =>
  (M.bind (calc_single_utility x debug) fun u => M.pure u.value) (assign (xs.take n) d).reset

/-- The cumulative quantity `cca` of the callback handed to
`opt.add_inequality_constraint` (nlopt): its loop runs
`for (Time t = 0; t < dice->global.timestep_num - 1; ++t)`, the bound being
computed in `size_t`. -/
def nlopt_cca (x : Ext) (debug : Bool) (n : Nat) (xs : List ℚ) : M ℚ := fun d =>
  (M.bind (calc_single_utility x debug) fun _ => fun d1 =>
   cca_loop x ((d1.global.timestep_num + (2 ^ 64 - 1)) % 2 ^ 64) 0 90 d1)
    (assign (xs.take n) d).reset

/-- The callback handed to `opt.add_inequality_constraint` (nlopt):
`cca - fosslim`. -/
def nlopt_constraint (x : Ext) (debug : Bool) (n : Nat) (xs : List ℚ) : M ℚ :=
  M.bind (nlopt_cca x debug n xs) fun cca => fun d1 => .ok (cca - d1.global.fosslim, d1)

/-- The cumulative quantity `cca` computed inside `PagmoProblem::fitness`
(with the constraint), before `fosslim` is subtracted. -/
def pagmo_cca (x : Ext) (debug : Bool) (vars : List ℚ) : M ℚ := fun d =>
  (M.bind (calc_single_utility x debug) fun _ => fun d1 =>
   cca_loop x d1.global.timestep_num 0 90 d1) (assign vars d).reset

/-! ## `DICE.cpp`: the column lookup of `write_csv_output` -/

/-- The components queried by `write_csv_output`. -/
inductive Comp where
  | economy
  | climate
  | damage
  | control
  | emissions
deriving DecidableEq, Repr

/-- The short-circuit conjunction `a && b` of two `observe` calls. -/
def andAlso {W : Type} (a b : W → Except Error (Bool × W)) : W → Except Error (Bool × W) :=
  fun w =>
  match a w with
  | .error e => .error e
  | .ok (false, w1) => .ok (false, w1)
  | .ok (true, w1) => b w1

/-- The message of the error raised for a column no component handles. -/
def notFound (name : String) : Error := .runtime ("variable '" ++ name ++ "' not found")

/-- The body of the inner loop of `DICE::write_csv_output` for the column
`name` at time step `t` (after the separator). `W` is everything the calls
can change (model state and output file), `emit` is `file << number`, and
`obs c name t` is `observe(observer)` of component `c` with `observer.var =
name`, `observer.t = t` (the components' sources are missing or use the
missing macro `OBSERVE_VAR`). -/
def write_csv_cell {W : Type} (obs : Comp → String → Nat → W → Except Error (Bool × W))
    (emit : Nat → W → W) (g : Global) (name : String) (t : Nat) : W → Except Error W :=
  fun w =>
  if name = "t" then .ok (emit t w)
  else if name = "year" then .ok (emit (g.start_year + t * g.timestep_length) w)
  else
    match andAlso (andAlso (andAlso (andAlso (obs .economy name t) (obs .climate name t))
        (obs .damage name t)) (obs .control name t)) (obs .emissions name t) w with
    | .error e => .error e
    | .ok (true, _) => .error (notFound name)
    | .ok (false, w1) => .ok w1

/-- The lookup in the words of the specification: the components are
queried in the given order, the search stops at the first one that returns
`false` (handled), and "not found" is raised when all return `true`. -/
def searchComponents {W : Type} (obs : Comp → String → Nat → W → Except Error (Bool × W))
    (name : String) (t : Nat) : List Comp → W → Except Error W
  | [], _ => .error (notFound name)
  | c :: cs, w =>
    match obs c name t w with
    | .error e => .error e
    | .ok (false, w1) => .ok w1
    | .ok (true, w1) => searchComponents obs name t cs w1

/-- All components of the list, queried in order on the evolving state,
return `true` (not mine). -/
def allContinue {W : Type} (obs : Comp → String → Nat → W → Except Error (Bool × W))
    (name : String) (t : Nat) : List Comp → W → Prop
  | [], _ => True
  | c :: cs, w => ∃ w1, obs c name t w = .ok (true, w1) ∧ allContinue obs name t cs w1

/-! ## Construction and a small configuration -/

/-- Modelled from the spec: the constructor `Variable{variables_num, i, v}`
of the missing `autodiff.h` (§3: a variable seeded with a one-hot
gradient). -/
def AD.variable (n i : Nat) (v : ℚ) : AD :=
  ⟨v, (List.range n).map (fun j => if j = i then 1 else 0)⟩

/-- The settings read by the member initializers of `DICEClimate`. -/
structure ClimateSettings where
  b12 : ℚ
  b23 : ℚ
  c1 : ℚ
  c3 : ℚ
  c4 : ℚ
  fco22x : ℚ
  fex0 : ℚ
  fex1 : ℚ
  M_atm_eq : ℚ
  M_l_eq : ℚ
  M_u_eq : ℚ
  t2xco2 : ℚ
  T_atm_upper : ℚ
  M_atm0 : ℚ
  M_atm_lower : ℚ
  M_l0 : ℚ
  M_l_lower : ℚ
  M_u0 : ℚ
  M_u_lower : ℚ
  T_ocean0 : ℚ
  T_ocean_lower : ℚ
  T_ocean_upper : ℚ
  T_atm0 : ℚ

/-- The member initializers of `DICEClimate`: every series has
`global.timestep_num` entries, seeds and bounds are constants of width
`control.variables_num`; `M_atm`, `M_l`, `M_u` are `LowerBounded`, `T_ocean`
is `Bounded`, `T_atm` is a plain `Value` series. -/
def DICEClimate.create (st : ClimateSettings) (g : Global) (ctl : Control) : DICEClimate :=
  let n := ctl.variables_num
  let blank : List (Option AD) := List.replicate g.timestep_num none
  { b12 := st.b12, b23 := st.b23, c1 := st.c1, c3 := st.c3, c4 := st.c4
    fco22x := st.fco22x, fex0 := st.fex0, fex1 := st.fex1
    M_atm_eq := st.M_atm_eq, M_l_eq := st.M_l_eq, M_u_eq := st.M_u_eq
    t2xco2 := st.t2xco2
    T_atm_upper := AD.const n st.T_atm_upper
    M_atm_series := ⟨blank, AD.const n st.M_atm0, .lower (AD.const n st.M_atm_lower)⟩
    M_l_series := ⟨blank, AD.const n st.M_l0, .lower (AD.const n st.M_l_lower)⟩
    M_u_series := ⟨blank, AD.const n st.M_u0, .lower (AD.const n st.M_u_lower)⟩
    T_ocean_series := ⟨blank, AD.const n st.T_ocean0,
      .twoSided (AD.const n st.T_ocean_lower) (AD.const n st.T_ocean_upper)⟩
    T_atm_series := ⟨blank, AD.const n st.T_atm0, .identity⟩ }

/-- A configuration with two time steps, used to instantiate the theorems. -/
def exGlobal : Global :=
  { dK := 1 / 10, elasmu := 3 / 2, expcost2 := 13 / 5, fosslim := 6000, gamma := 3 / 10
    prstp := 3 / 200, scale1 := 2, scale2 := 5
    timestep_length := 5, start_year := 2010, timestep_num := 2 }

/-- Climate settings of the small configuration; the lower bound of `M_atm`
lies above what its recurrence yields at step 1. -/
def exSettings : ClimateSettings :=
  { b12 := 1 / 10, b23 := 1 / 100, c1 := 1 / 10, c3 := 1 / 10, c4 := 1 / 40
    fco22x := 4, fex0 := 1 / 2, fex1 := 1, M_atm_eq := 600, M_l_eq := 1800, M_u_eq := 300
    t2xco2 := 3, T_atm_upper := 40
    M_atm0 := 800, M_atm_lower := 1000, M_l0 := 1700, M_l_lower := 1000
    M_u0 := 400, M_u_lower := 100
    T_ocean0 := 0, T_ocean_lower := -1, T_ocean_upper := 20, T_atm0 := 1 }

/-- The decision vector of the small configuration. -/
def exControl : Control := { variables_num := 2, s := [1 / 2, 1 / 4] }

/-- The model state of the small configuration right after construction. -/
def exDICE : DICE :=
  { global := exGlobal, control := exControl, economies := [[]]
    climate := DICEClimate.create exSettings exGlobal exControl
    damage := [], emissions := [] }

/-- Collaborators of the small configuration: the utility of step `t` is the
decision variable `s[t]` itself, emissions are the constant `3.666`, and
the stand-in for `log2` is `v - 1` (exact at 1 and 2). They change no
state. -/
def exExt : Ext :=
  { log2v := fun v => v - 1
    dlog2 := fun _ => 1
    E := fun _ _ d => .ok (AD.const d.control.variables_num 3.666, d)
    utility := fun _ t d =>
      .ok (AD.variable d.control.variables_num t (d.control.s.getD t 0), d) }

/-- Collaborators whose utility fails at step 1 (a division by zero), and
succeeds as in `exExt` elsewhere. -/
def exExtFail : Ext :=
  { exExt with
    utility := fun k t d => if t = 1 then .error .DivisionByZero else exExt.utility k t d }

/-- Components for a lookup example: the output is the list of written
cells; only the climate component knows the column `T_atm`. -/
def exObs (c : Comp) (name : String) (t : Nat) (w : List String) :
    Except Error (Bool × List String) :=
  if c = .climate ∧ name = "T_atm" then .ok (false, w ++ ["T_atm@" ++ toString t])
  else .ok (true, w)

/-- The lower bound that the member initializers of `DICEClimate` give to
each `LowerBounded` series (`M_atm_lower`, `M_l_lower`, `M_u_lower`). -/
def ClimateSettings.lower (st : ClimateSettings) : Var → Option ℚ
  | .M_atm => some st.M_atm_lower
  | .M_l => some st.M_l_lower
  | .M_u => some st.M_u_lower
  | .T_ocean => none
  | .T_atm => none

/-! ## Predicates on computations -/

/-- Two model states differ at most in the contents of memoization caches:
clearing every cache makes them equal. -/
def SameUpToCaches (d d' : DICE) : Prop := d'.reset = d.reset

/-- The computation `m` changes the contents of memoization caches only. -/
def CachesOnly {α : Type} (m : M α) : Prop :=
  ∀ d a d', m d = .ok (a, d') → SameUpToCaches d d'

/-- The collaborators whose sources are missing change the contents of
memoization caches only, provided the accessor they are handed does (they
are evaluated inside a pass, during which the decision vector and the
constants are read-only, spec §3). -/
def Ext.CachesOnly (x : Ext) : Prop :=
  (∀ k : Nat → M AD, (∀ u, Dice.CachesOnly (k u)) → ∀ t, Dice.CachesOnly (x.E k t)) ∧
  (∀ k : Nat → M AD, (∀ u, Dice.CachesOnly (k u)) → ∀ t, Dice.CachesOnly (x.utility k t))

/-- The computation `m` never exceeds the budget of nested `get` calls it
runs under. -/
def NoOverrun {α : Type} (m : M α) : Prop := ∀ d, m d ≠ .error .outOfBudget

/-- The assumption on emissions: `E(s)` terminates and reads climate
quantities only at indices `≤ s`. It completes within budget whenever the
accessor it is handed does so at every index `≤ s`, and its result depends on
that accessor at indices `≤ s` only. -/
def Ext.Causal (x : Ext) : Prop :=
  (∀ (k : Nat → M AD) (s : Nat), (∀ u, u ≤ s → NoOverrun (k u)) → NoOverrun (x.E k s)) ∧
  (∀ (k k' : Nat → M AD) (s : Nat), (∀ u, u ≤ s → k u = k' u) → x.E k s = x.E k' s)

/-- The references the recurrence of series `q` at index `t` may make to the
accessor of series `r` at index `u`: any series at `t - 1`; `M_atm(t)` from
`T_atm(t)` (through `force(t)`); and, from `M_atm(t)`, what emissions
`E(t - 1)` read of `T_atm`, at indices `≤ t - 1`. -/
def Reads (q : Var) (t : Nat) (r : Var) (u : Nat) : Prop :=
  u = t - 1 ∨ (q = .T_atm ∧ r = .M_atm ∧ u = t) ∨ (q = .M_atm ∧ r = .T_atm ∧ u ≤ t - 1)

/-- A budget that covers a call of the accessor of `q` at index `t`: `t + 1`
calls on `q` itself, `t` on every series, and `t + 1` on `M_atm` when `q`
is `T_atm`. -/
def Enough (b : Budget) (q : Var) (t : Nat) : Prop :=
  t + 1 ≤ b q ∧ (∀ r, t ≤ b r) ∧ (q = .T_atm → t + 1 ≤ b .M_atm)

/-! ## `DICE.cpp`: `ControlInputObserver` of `DICE::initialize` -/

/-- The operations of `csv::Parser` (header `csv-parser.h`, not among the
sources) that `ControlInputObserver::observe` uses, on a parser state `P`.
`read` is `parser.read<Value>()`; its failure stands for the
`csv::parser_exception` that `observe` rethrows as a `std::runtime_error`. -/
structure CsvParser (P : Type) where
  next_row : P → P
  next_col : P → P
  read : P → Except Error ℚ

/-- A node of `settings["control"]`: `format`, `filename`, `column`. -/
structure ControlInput where
  format : String
  filename : String
  column : Nat
deriving DecidableEq, Repr

/-- The loop `for (auto d = v.begin(); d != v.end(); ++d)` of
`ControlInputObserver::observe`: for every entry of `v`, `col` calls of
`next_col`, then `*d = parser.read<Value>()`, then `next_row`. -/
def readColumn {P : Type} (ps : CsvParser P) (col : Nat) : List ℚ → P → Except Error (List ℚ)
  | [], _ => .ok []
  | _ :: rest, p =>
    match ps.read (ps.next_col^[col] p) with
    | .error e => .error e
    | .ok a =>
      match readColumn ps col rest (ps.next_row (ps.next_col^[col] p)) with
      | .error e => .error e
      | .ok r => .ok (a :: r)

/-- `ControlInputObserver::observe(name, v)`: the returned flag and the
series `v` afterwards. `input_node` is `settings["control"]`, `openFile`
opens the file of that name with a parser at its start (`none`: the stream
could not be opened). -/
def ControlInputObserver.observe {P : Type} (ps : CsvParser P)
    (input_node : String → Option ControlInput) (openFile : String → Option P)
    (name : String) (v : List ℚ) : Except Error (Bool × List ℚ) :=
  match input_node name with
  | some node =>
    if node.format = "csv" then
      match openFile node.filename with
      | none => .error (.runtime ("could not open '" ++ node.filename ++ "'"))
      | some p =>
        -- parser.next_row();  // Skip header row
        match readColumn ps node.column v (ps.next_row p) with
        | .error e => .error e
        | .ok v1 => .ok (true, v1)
    else .error (.runtime ("unknown format '" ++ node.format ++ "'"))
  | none => .ok (true, v)

/-- A CSV file as a grid of cells, row 0 being the header row; a cell holds
a number or (`none`) something that does not read as one. The cursor of a
parser is at a row and a column of the grid. -/
structure GridCursor where
  cells : List (List (Option ℚ))
  row : Nat
  col : Nat
deriving DecidableEq, Repr

/-- The cell of a grid at a row and a column, when it holds a number. -/
def cellAt (cells : List (List (Option ℚ))) (row col : Nat) : Option ℚ :=
  match cells[row]? with
  | some r =>
    match r[col]? with
    | some (some a) => some a
    | _ => none
  | none => none

/-- The parser on a grid: `next_row` moves to the start of the next row,
`next_col` to the next cell, `read` yields the number in the current cell and
fails when there is none. -/
def gridParser : CsvParser GridCursor :=
  { next_row := fun p => { p with row := p.row + 1, col := 0 }
    next_col := fun p => { p with col := p.col + 1 }
    read := fun p =>
      match cellAt p.cells p.row p.col with
      | some a => .ok a
      | none => .error (.runtime ("no number (line " ++ toString p.row ++ " col "
          ++ toString p.col ++ ")")) }

/-- Opening a file of a file system of grids. -/
def openGrid (files : String → Option (List (List (Option ℚ)))) (filename : String) :
    Option GridCursor :=
  match files filename with
  | some g => some ⟨g, 0, 0⟩
  | none => none

/-- A control input that replaces the series `s` by column 1 of `s.csv`. -/
def exInput (name : String) : Option ControlInput :=
  if name = "s" then some ⟨"csv", "s.csv", 1⟩
  else if name = "mu" then some ⟨"netcdf", "mu.nc", 0⟩
  else none

/-- The file system of the input example: `s.csv` with a header and two data
rows. -/
def exFiles (filename : String) : Option (List (List (Option ℚ))) :=
  if filename = "s.csv" then some [[none, none], [some 2010, some (3 / 10)],
    [some 2015, some (1 / 5)]]
  else none

/-! ## `DICE.cpp`: `DICE::run` -/

/-- An entry of `optimization["iterations"]`: the `library` that
`DICE::optimize` dispatches on and the count `repeat` (default 1). -/
structure IterationNode where
  library : String
  repeatCount : Nat
deriving DecidableEq, Repr

/-- The call `std::fill(std::begin(control.s.value()),
std::end(control.s.value()), global.optlrsav)` of `DICE::run`. -/
def fill_optlrsav (d : DICE) : DICE :=
  { d with control := { d.control with s := d.control.s.map (fun _ => d.global.optlrsav) } }

/-- The inner loop of `DICE::run` for one iteration node, with `k` repeats
left: the initial vector is taken from the first `n_opt` entries of
`control.s`, `optimize` runs, then `reset()` and `calc_single_utility()`;
the result lists the utilities printed. `optimize` is `DICE::optimize`, whose
solvers are external. -/
def run_repeat (x : Ext) (debug : Bool) (optimize : IterationNode → List ℚ → M Unit)
    (node : IterationNode) (n_opt : Nat) : Nat → M (List ℚ)
  | 0 => M.pure []
  | k + 1 => fun d =>
    (M.bind (optimize node (d.control.s.take n_opt)) fun _ =>
     M.bind (fun d1 => calc_single_utility x debug d1.reset) fun u =>
     M.bind (run_repeat x debug optimize node n_opt k) fun us =>
     M.pure (u.value :: us)) d

/-- The outer loop of `DICE::run` over `optimization["iterations"]`. -/
def run_iterations (x : Ext) (debug : Bool) (optimize : IterationNode → List ℚ → M Unit)
    (n_opt : Nat) : List IterationNode → M (List ℚ)
  | [] => M.pure []
  | node :: rest =>
    M.bind (run_repeat x debug optimize node n_opt node.repeatCount) fun us =>
    M.bind (run_iterations x debug optimize n_opt rest) fun vs =>
    M.pure (us ++ vs)

/-- `DICE::run`. `iterations` is `optimization["iterations"]` when present,
`s_fix_steps` the setting of that name (default 0); the number of optimized
variables `timestep_num - s_fix_steps` is computed in `size_t`. The result
lists the utilities printed. -/
def run (x : Ext) (debug : Bool) (optimize : IterationNode → List ℚ → M Unit)
    (iterations : Option (List IterationNode)) (s_fix_steps : Nat) : M (List ℚ) := fun d =>
  if d.economies.length = 0 then .error (.runtime "no economies given")
  else if d.economies.length = 1 then
    match iterations with
    | some nodes =>
      run_iterations x debug optimize
        ((d.global.timestep_num + 2 ^ 64 - s_fix_steps) % 2 ^ 64) nodes (fill_optlrsav d)
    | none => M.bind (calc_single_utility x debug) (fun _ => M.pure []) d
  else .error (.runtime "multiple regions not supported yet")

/-! ## Introspection: `Observer`, `OBSERVE_VAR`, `DICEClimate::observe` -/

/-- Modelled from the spec: the interface `Observer` of the missing header
`Observer.h` (§4.3), with output `W`: `want(name)` says whether the name is
wanted, whether as a whole series, and at which time step; `observe` takes a
scalar or a whole series and returns the continuation flag. -/
structure Observer (W : Type) where
  want : String → Bool × Bool × Nat
  observe_point : String → AD → W → Bool × W
  observe_series : String → List ℚ → W → Bool × W

/-- `CSVOutputObserver` of `DICE::write_csv_output` with its members `t` and
`var`; the output is the list of numbers written to the file. -/
def CSVOutputObserver (t : Nat) (var : String) : Observer (List ℚ) :=
  { want := fun name => (name == var, false, t)
    observe_point := fun _ v file => (false, file ++ [v.value])
    observe_series := fun name v file =>
      if name = var then (false, file ++ [v.getD t 0]) else (true, file) }

/-- The values of an accessor at the time steps `t`, ..., `t + k - 1`. -/
def collectValues (acc : Nat → M AD) : Nat → Nat → M (List ℚ)
  | 0, _ => M.pure []
  | k + 1, t =>
    M.bind (acc t) fun v =>
    M.bind (collectValues acc k (t + 1)) fun vs =>
    M.pure (v.value :: vs)

/-- Modelled from the spec: the macro `OBSERVE_VAR(v)` of the missing
`Observer.h` (§4.3), followed by the rest of `observe`: when the observer
wants the name, it is handed the scalar `v(t)` of the time step it asks for,
or the whole series, and `observe` returns `false` (handled, stop) when the
observer does; otherwise the rest runs. -/
def OBSERVE_VAR {W : Type} (ob : Observer W) (name : String) (acc : Nat → M AD)
    (rest : DICE → W → Except Error (Bool × DICE × W)) :
    DICE → W → Except Error (Bool × DICE × W) := fun d w =>
  match ob.want name with
  | (false, _, _) => rest d w
  | (true, false, t) =>
    match acc t d with
    | .error e => .error e
    | .ok (v, d1) =>
      match ob.observe_point name v w with
      | (false, w1) => .ok (false, d1, w1)
      | (true, w1) => rest d1 w1
  | (true, true, _) =>
    match collectValues acc d.global.timestep_num 0 d with
    | .error e => .error e
    | .ok (vs, d1) =>
      match ob.observe_series name vs w with
      | (false, w1) => .ok (false, d1, w1)
      | (true, w1) => rest d1 w1

/-- `DICEClimate::force` called from outside the module. -/
def forceTop (x : Ext) (t : Nat) : M AD := force x (M_atm x) t

/-- Modelled from the spec: how the plain real `DICEClimate::forcoth(t)`
reaches an observer through `OBSERVE_VAR` of the missing `Observer.h`: as a
constant scalar (§4.1, §4.3). -/
def forcothTop (t : Nat) : M AD := fun d =>
  .ok (AD.const d.control.variables_num (forcoth d t), d)

/-- `DICEClimate::observe`: the eight `OBSERVE_VAR` lines (`T_atm` is listed
twice), then `return true`. -/
def DICEClimate.observe {W : Type} (x : Ext) (ob : Observer W) :
    DICE → W → Except Error (Bool × DICE × W) :=
  OBSERVE_VAR ob "M_atm" (M_atm x) <|
  OBSERVE_VAR ob "M_l" (M_l x) <|
  OBSERVE_VAR ob "M_u" (M_u x) <|
  OBSERVE_VAR ob "T_ocean" (T_ocean x) <|
  OBSERVE_VAR ob "T_atm" (T_atm x) <|
  OBSERVE_VAR ob "force" (forceTop x) <|
  OBSERVE_VAR ob "forcoth" forcothTop <|
  OBSERVE_VAR ob "T_atm" (T_atm x) <|
  fun d w => .ok (true, d, w)

/-- The accessor of `DICEClimate` of a given name, for the names that
`DICEClimate::observe` lists. -/
def climateAccessor (x : Ext) (name : String) : Option (Nat → M AD) :=
  if name = "M_atm" then some (M_atm x)
  else if name = "M_l" then some (M_l x)
  else if name = "M_u" then some (M_u x)
  else if name = "T_ocean" then some (T_ocean x)
  else if name = "T_atm" then some (T_atm x)
  else if name = "force" then some (forceTop x)
  else if name = "forcoth" then some forcothTop
  else none

/-! ## `main.cpp` -/

/-- What `main` did besides returning: printed the usage text, the version
or the git diff, or loaded settings and ran the model. -/
inductive MainEffect where
  | usage
  | version
  | diff
  | model
deriving DecidableEq, Repr

/-- The test `arg.length() > 1 && arg[0] == '-'` of `main`. -/
def isOption (arg : String) : Bool :=
  match arg.data with
  | c :: _ :: _ => c == '-'
  | _ => false

/-- The function `main` of `main.cpp`: exit code and effect. `argv` includes
the program name, `has_diff` is `dicepp::has_diff` (header `version.h`, not
among the sources), and `session arg` is the `else` branch of the `try`
block: load the settings (from standard input for `-`), then `initialize`,
`run`, `output`; its failure is an exception caught as `std::exception`. -/
def main (has_diff : Bool) (session : String → Except Error Unit) (argv : List String) :
    Nat × MainEffect :=
  match argv with
  | [_, arg] =>
    if isOption arg then
      if arg = "--version" ∨ arg = "-v" then (0, .version)
      else if has_diff ∧ (arg = "--diff" ∨ arg = "-d") then (0, .diff)
      else if arg = "--help" ∨ arg = "-h" then (0, .usage)
      else (1, .usage)
    else
      match session arg with
      | .ok _ => (0, .model)
      | .error _ => (255, .model)
  | _ => (1, .usage)

/-! ## Further configurations -/

/-- The small configuration with the atmospheric concentration started at
its configured equilibrium, `M_atm0 = M_atm_eq = 600`. -/
def exDICEeq : DICE :=
  { exDICE with
    climate := DICEClimate.create { exSettings with M_atm0 := 600, M_atm_lower := 100 }
      exGlobal exControl }

/-- The small configuration started in the year 2000. -/
def exDICE2000 : DICE :=
  { exDICE with global := { exGlobal with start_year := 2000 } }

/-- The unclamped value of the `T_atm` recurrence in the words of the
specification: `T_atm_last + c1 * (force(t) - (fco22x / t2xco2) * T_atm_last
- c3 * (T_atm_last - T_ocean(t - 1)))`, from the values `f` of `force(t)` and
`toc` of `T_ocean(t - 1)`. -/
def T_atm_raw (c : DICEClimate) (last f toc : AD) : Except Error AD := do
  let s1 ← f.sub (AD.scale (c.fco22x / c.t2xco2) last)
  let df ← last.sub toc
  let s2 ← s1.sub (AD.scale c.c3 df)
  last.add (AD.scale c.c1 s2)

/-- The small configuration after `M_atm(1)` was computed: its value, the
lower bound 1000, is cached. -/
def exDICEa : DICE :=
  { exDICE with
    climate := exDICE.climate.setSeries .M_atm
      ((exDICE.climate.series .M_atm).store 1 (AD.const 2 1000)) }

/-- The small configuration after `T_atm(1)` was computed. -/
def exDICEb : DICE :=
  { exDICEa with
    climate := exDICEa.climate.setSeries .T_atm
      ((exDICEa.climate.series .T_atm).store 1 ⟨104933 / 88200, [0, 0]⟩) }

/-- The small configuration with a seed `T_atm0 = 50` above the cap
`T_atm_upper = 40`. -/
def exDICEhot : DICE :=
  { exDICE with
    climate := DICEClimate.create { exSettings with T_atm0 := 50 } exGlobal exControl }

/-! ## The cap on the atmospheric temperature -/

/-- The series of `T_atm` has no bound policy, and every entry cached for it
at an index `≥ 1` respects the cap `T_atm_upper`. -/
def CapInv (d : DICE) : Prop :=
  (d.climate.series .T_atm).bound = .identity ∧
  ∀ u v, 1 ≤ u → (d.climate.series .T_atm).cached u = some v →
    v.value ≤ d.climate.T_atm_upper.value

/-- The computation `m` keeps the cap, the bound policy of `T_atm` and the
property that the cached entries of `T_atm` respect the cap. -/
def KeepsCap {α : Type} (m : M α) : Prop :=
  ∀ d a d', CapInv d → m d = .ok (a, d') →
    CapInv d' ∧ d'.climate.T_atm_upper = d.climate.T_atm_upper

/-- Emissions write to the cache of `T_atm` only through the accessor they
are handed. -/
def Ext.KeepsCap (x : Ext) : Prop :=
  ∀ k : Nat → M AD, (∀ u, Dice.KeepsCap (k u)) → ∀ t, Dice.KeepsCap (x.E k t)

/-! ## The carbon cycle at its equilibrium -/

/-- Collaborators as `exExt`, with emissions identically zero. -/
def exExtZero : Ext :=
  { exExt with E := fun _ _ d => .ok (AD.const d.control.variables_num 0, d) }

/-- The small configuration with the three carbon reservoirs started at
their configured equilibrium: `M_atm0 = M_atm_eq = 600`, `M_u0 = M_u_eq = 300`,
`M_l0 = M_l_eq = 1800`, every lower bound below its seed. -/
def exDICEfix : DICE :=
  { exDICE with
    climate := DICEClimate.create
      { exSettings with M_atm0 := 600, M_atm_lower := 100, M_u0 := 300, M_l0 := 1800 }
      exGlobal exControl }

end Dice

/-! # Properties -/

namespace Dice

/-! ## Sequencing -/

theorem bind_of_ok {α β : Type} (m : M α) (f : α → M β) (d d1 : DICE) (a : α)
    (h : m d = .ok (a, d1)) : M.bind m f d = f a d1 := by
  simp [M.bind, h]

theorem bind_of_error {α β : Type} (m : M α) (f : α → M β) (d : DICE) (e : Error)
    (h : m d = .error e) : M.bind m f d = .error e := by
  simp [M.bind, h]

theorem bind_eq_ok {α β : Type} (m : M α) (f : α → M β) (d d2 : DICE) (b : β)
    (h : M.bind m f d = .ok (b, d2)) :
    ∃ a d1, m d = .ok (a, d1) ∧ f a d1 = .ok (b, d2) := by
  unfold M.bind at h
  cases hm : m d with
  | error e => simp [hm] at h
  | ok p =>
    obtain ⟨a, d1⟩ := p
    simp only [hm] at h
    exact ⟨a, d1, rfl, h⟩

theorem lift_eq_ok {α : Type} (r : Except Error α) (d d1 : DICE) (a : α)
    (h : M.lift r d = .ok (a, d1)) : r = .ok a ∧ d1 = d := by
  unfold M.lift at h
  cases r with
  | error e => simp at h
  | ok v =>
    simp only [Except.ok.injEq, Prod.mk.injEq] at h
    exact ⟨by rw [h.1], h.2.symm⟩

/-! ## Lemmas on differentiable scalars -/

theorem ad_add_ok (a b : AD) (h : a.gradient.length = b.gradient.length) :
    a.add b = .ok ⟨a.value + b.value, List.zipWith (fun x y => x + y) a.gradient b.gradient⟩ := by
  simp [AD.add, h]

theorem getD_zipWith_add (l1 l2 : List ℚ) (h : l1.length = l2.length) (i : Nat) :
    (List.zipWith (fun x y => x + y) l1 l2).getD i 0 = l1.getD i 0 + l2.getD i 0 := by
  induction l1 generalizing l2 i with
  | nil =>
    cases l2 with
    | nil => simp
    | cons b l2 => simp at h
  | cons a l1 ih =>
    cases l2 with
    | nil => simp at h
    | cons b l2 =>
      cases i with
      | zero => simp
      | succ i =>
        simp only [List.length_cons, Nat.add_right_cancel_iff] at h
        simpa using ih l2 h i

theorem getD_map_mul (c : ℚ) (l : List ℚ) (i : Nat) :
    (l.map (fun g => c * g)).getD i 0 = c * l.getD i 0 := by
  induction l generalizing i with
  | nil => simp
  | cons a l ih =>
    cases i with
    | zero => simp
    | succ i => simpa using ih i

theorem getD_replicate_zero (n i : Nat) : (List.replicate n (0 : ℚ)).getD i 0 = 0 := by
  induction n generalizing i with
  | zero => simp
  | succ n ih =>
    cases i with
    | zero => simp [List.replicate]
    | succ i => simp [List.replicate]

/-! ## `calc_single_utility` -/

/-- The loop of `calc_single_utility` adds the values and the gradients of
the utilities of its trace to the running sum. -/
theorem utility_loop_spec (x : Ext) (n : Nat) :
    ∀ (k t : Nat) (acc : AD) (d d' : DICE) (us : List AD),
      utilityTrace x k t d = .ok (us, d') →
      (∀ u ∈ us, u.gradient.length = n) →
      acc.gradient.length = n →
      ∃ r, utility_loop x k t acc d = .ok (r, d') ∧
        r.value = acc.value + (us.map AD.value).sum ∧
        r.gradient.length = n ∧
        ∀ i, r.gradient.getD i 0
          = acc.gradient.getD i 0 + (us.map (fun u => u.gradient.getD i 0)).sum := by
  intro k
  induction k with
  | zero =>
    intro t acc d d' us h _ hacc
    simp only [utilityTrace, M.pure, Except.ok.injEq, Prod.mk.injEq] at h
    obtain ⟨rfl, rfl⟩ := h
    exact ⟨acc, rfl, by simp, hacc, by simp⟩
  | succ k ih =>
    intro t acc d d' us h hw hacc
    simp only [utilityTrace] at h
    obtain ⟨u, d1, hu, h⟩ := bind_eq_ok _ _ _ _ _ h
    obtain ⟨us1, d2, ht, h⟩ := bind_eq_ok _ _ _ _ _ h
    simp only [M.pure, Except.ok.injEq, Prod.mk.injEq] at h
    obtain ⟨rfl, rfl⟩ := h
    have hu_w : u.gradient.length = n := hw u (by simp)
    have hlen : acc.gradient.length = u.gradient.length := by rw [hacc, hu_w]
    have hacc1 : (List.zipWith (fun x y => x + y) acc.gradient u.gradient).length = n := by
      simp [hacc, hu_w]
    obtain ⟨r, hr, hv, hl, hg⟩ :=
      ih (t + 1) ⟨acc.value + u.value,
        List.zipWith (fun x y => x + y) acc.gradient u.gradient⟩ d1 d2 us1 ht
        (fun v hv => hw v (by simp [hv])) hacc1
    refine ⟨r, ?_, ?_, hl, ?_⟩
    · simp only [utility_loop]
      rw [bind_of_ok _ _ _ _ _ hu]
      simp only [M.bind, M.lift, ad_add_ok acc u hlen]
      exact hr
    · rw [hv]; simp; ring
    · intro i
      rw [hg i]
      simp only [getD_zipWith_add _ _ hlen, List.map_cons, List.sum_cons]
      ring

/-- Claim C1. In every model state from which the calls
`economies[0].utility(0)`, ..., `utility(timestep_num - 1)` all succeed (with
results `us` of the gradient width `variables_num` of the model),
`calc_single_utility` returns the scalar with value
`scale1 * (sum of the values) + scale2` and, for every `i < variables_num`,
gradient component `scale1 * (sum of the i-th gradient components)`;
`scale2` does not enter the gradient. -/
theorem calc_single_utility_value_gradient (x : Ext) (debug : Bool) (d d' : DICE)
    (us : List AD)
    (hrun : utilityTrace x d.global.timestep_num 0 d = .ok (us, d'))
    (hwidth : ∀ u ∈ us, u.gradient.length = d.control.variables_num) :
    ∃ r, calc_single_utility x debug d = .ok (r, d') ∧
      r.value = d.global.scale1 * (us.map AD.value).sum + d.global.scale2 ∧
      r.gradient.length = d.control.variables_num ∧
      ∀ i, i < d.control.variables_num →
        r.gradient.getD i 0
          = d.global.scale1 * (us.map (fun u => u.gradient.getD i 0)).sum := by
  obtain ⟨r, hr, hv, hl, hg⟩ :=
    utility_loop_spec x d.control.variables_num d.global.timestep_num 0
      (AD.const d.control.variables_num 0) d d' us hrun hwidth (by simp [AD.const])
  refine ⟨(AD.scale d.global.scale1 r).addConst d.global.scale2, ?_, ?_, ?_, ?_⟩
  · cases debug <;> simp [calc_single_utility, M.bind, M.pure, hr]
  · simp [AD.addConst, AD.scale, hv, AD.const]
  · simp [AD.addConst, AD.scale, hl]
  · intro i _
    simp only [AD.addConst, AD.scale, getD_map_mul, hg i, AD.const, getD_replicate_zero,
      zero_add]

/-- The trace of utilities of the small configuration. -/
theorem exDICE_utilityTrace :
    utilityTrace exExt exDICE.global.timestep_num 0 exDICE
      = .ok ([AD.variable 2 0 (1 / 2), AD.variable 2 1 (1 / 4)], exDICE) := by
  rfl

/-- Claim C1 at the small configuration. -/
theorem calc_single_utility_value_gradient_witness :
    utilityTrace exExt exDICE.global.timestep_num 0 exDICE
        = .ok ([AD.variable 2 0 (1 / 2), AD.variable 2 1 (1 / 4)], exDICE) ∧
    (∀ u ∈ [AD.variable 2 0 (1 / 2), AD.variable 2 1 (1 / 4)],
        u.gradient.length = exDICE.control.variables_num) ∧
    ∃ r, calc_single_utility exExt false exDICE = .ok (r, exDICE) ∧
      r.value = exDICE.global.scale1
          * ([AD.variable 2 0 (1 / 2), AD.variable 2 1 (1 / 4)].map AD.value).sum
          + exDICE.global.scale2 ∧
      r.gradient.length = exDICE.control.variables_num ∧
      ∀ i, i < exDICE.control.variables_num →
        r.gradient.getD i 0
          = exDICE.global.scale1
            * ([AD.variable 2 0 (1 / 2), AD.variable 2 1 (1 / 4)].map
                (fun u => u.gradient.getD i 0)).sum :=
  ⟨exDICE_utilityTrace,
   by simp [AD.variable, exDICE, exControl],
   calc_single_utility_value_gradient exExt false exDICE exDICE _ exDICE_utilityTrace
     (by simp [AD.variable, exDICE, exControl])⟩

end Dice

namespace Dice

/-! ## `reset` -/

theorem series_reset_reset (s : Series) : s.reset.reset = s.reset := by
  simp [Series.reset]

theorem component_reset_reset (c : Component) : Component.reset (Component.reset c) = Component.reset c := by
  simp [Component.reset, series_reset_reset]

theorem climate_reset_reset (c : DICEClimate) : c.reset.reset = c.reset := by
  simp [DICEClimate.reset, series_reset_reset]

theorem dice_reset_reset (d : DICE) : d.reset.reset = d.reset := by
  simp [DICE.reset, component_reset_reset, climate_reset_reset]

theorem map_none_set (l : List (Option AD)) (t : Nat) (v : Option AD) :
    (l.set t v).map (fun _ => (none : Option AD)) = l.map (fun _ => none) := by
  induction l generalizing t with
  | nil => simp
  | cons a l ih =>
    cases t with
    | zero => simp
    | succ t => simp [ih]

theorem series_reset_store (s : Series) (t : Nat) (v : AD) : (s.store t v).reset = s.reset := by
  simp [Series.reset, Series.store, map_none_set]

theorem climate_reset_setSeries_store (c : DICEClimate) (q : Var) (t : Nat) (v : AD) :
    (c.setSeries q ((c.series q).store t v)).reset = c.reset := by
  cases q <;> simp [DICEClimate.setSeries, DICEClimate.series, DICEClimate.reset,
    series_reset_store]

/-! ## Computations that change caches only -/

theorem sameUpToCaches_refl (d : DICE) : SameUpToCaches d d := rfl

theorem sameUpToCaches_trans {d d1 d2 : DICE} (h1 : SameUpToCaches d d1)
    (h2 : SameUpToCaches d1 d2) : SameUpToCaches d d2 := by
  unfold SameUpToCaches at *
  rw [h2, h1]

theorem cachesOnly_pure {α : Type} (a : α) : CachesOnly (M.pure a) := by
  intro d b d' h
  simp only [M.pure, Except.ok.injEq, Prod.mk.injEq] at h
  rw [h.2]
  exact sameUpToCaches_refl _

theorem cachesOnly_lift {α : Type} (r : Except Error α) : CachesOnly (M.lift r) := by
  intro d b d' h
  rw [(lift_eq_ok r d d' b h).2]
  exact sameUpToCaches_refl _

theorem cachesOnly_bind {α β : Type} {m : M α} {f : α → M β} (hm : CachesOnly m)
    (hf : ∀ a, CachesOnly (f a)) : CachesOnly (M.bind m f) := by
  intro d b d2 h
  obtain ⟨a, d1, h1, h2⟩ := bind_eq_ok m f d d2 b h
  exact sameUpToCaches_trans (hm d a d1 h1) (hf a d1 b d2 h2)

/-- A computation that first reads the state. -/
theorem cachesOnly_read {α : Type} {m : DICE → M α} (h : ∀ d0, CachesOnly (m d0)) :
    CachesOnly (fun d => m d d) := by
  intro d a d' hd
  exact h d d a d' hd

theorem storeClamped_cachesOnly (q : Var) (t : Nat) (raw : AD) :
    CachesOnly (storeClamped q t raw) := by
  intro d a d' h
  simp only [storeClamped, Except.ok.injEq, Prod.mk.injEq] at h
  rw [← h.2]
  simp [SameUpToCaches, DICE.reset, climate_reset_setSeries_store]

theorem force_cachesOnly (x : Ext) (k : Nat → M AD) (hk : ∀ u, CachesOnly (k u)) (t : Nat) :
    CachesOnly (force x k t) := by
  intro d a d' h
  simp only [force] at h
  exact cachesOnly_bind (hk t) (fun _ => cachesOnly_lift _) d a d' h

theorem recurrence_cachesOnly (x : Ext)
    (hE : ∀ k : Nat → M AD, (∀ u, CachesOnly (k u)) → ∀ t, CachesOnly (x.E k t))
    (acc : Var → Nat → M AD) (hacc : ∀ r u, CachesOnly (acc r u))
    (q : Var) (t : Nat) (last : AD) : CachesOnly (recurrence x acc q t last) := by
  intro d a d' h
  cases q <;> simp only [recurrence] at h
  · exact cachesOnly_bind (hacc _ _) (fun _ =>
      cachesOnly_bind (hE _ (hacc _) _) (fun _ => cachesOnly_lift _)) d a d' h
  · exact cachesOnly_bind (hacc _ _) (fun _ => cachesOnly_lift _) d a d' h
  · exact cachesOnly_bind (hacc _ _) (fun _ =>
      cachesOnly_bind (hacc _ _) (fun _ => cachesOnly_lift _)) d a d' h
  · exact cachesOnly_bind (hacc _ _) (fun _ => cachesOnly_lift _) d a d' h
  · exact cachesOnly_bind (force_cachesOnly x _ (hacc _) _)
      (fun _ => cachesOnly_bind (hacc _ _) (fun _ => cachesOnly_lift _)) d a d' h

theorem spend_total_lt (b : Budget) (q : Var) (h : ¬ b q = 0) :
    (b.spend q).total < b.total := by
  cases q <;> simp [Budget.total, Budget.spend] <;> omega

theorem eval_cachesOnly (x : Ext)
    (hE : ∀ k : Nat → M AD, (∀ u, CachesOnly (k u)) → ∀ t, CachesOnly (x.E k t)) :
    ∀ (n : Nat) (b : Budget), b.total = n → ∀ q t, CachesOnly (eval x b q t) := by
  intro n
  induction n using Nat.strong_induction_on with
  | _ n ih =>
    intro b hb q t d a d' h
    rw [eval] at h
    by_cases hq : b q = 0
    · simp [hq] at h
    · simp only [hq, ↓reduceDIte] at h
      by_cases hlen : (d.climate.series q).cache.length ≤ t
      · simp [hlen] at h
      · simp only [hlen, ↓reduceIte] at h
        by_cases ht : t = 0
        · simp only [ht, ↓reduceIte, Except.ok.injEq, Prod.mk.injEq] at h
          rw [h.2]
          exact sameUpToCaches_refl _
        · simp only [ht, ↓reduceIte] at h
          cases hc : (d.climate.series q).cached t with
          | some v =>
            simp only [hc, Except.ok.injEq, Prod.mk.injEq] at h
            rw [h.2]
            exact sameUpToCaches_refl _
          | none =>
            simp only [hc] at h
            have hlt := spend_total_lt b q hq
            rw [hb] at hlt
            have ihb : ∀ r u, CachesOnly (eval x (b.spend q) r u) :=
              fun r u => ih _ hlt (b.spend q) rfl r u
            exact cachesOnly_bind (ihb q (t - 1)) (fun last =>
              cachesOnly_bind (recurrence_cachesOnly x hE _ ihb q t last)
                (fun raw => storeClamped_cachesOnly q t raw)) d a d' h

theorem utility_loop_cachesOnly (x : Ext) (hx : x.CachesOnly) :
    ∀ (k t : Nat) (acc : AD), CachesOnly (utility_loop x k t acc) := by
  intro k
  induction k with
  | zero => intro t acc; exact cachesOnly_pure acc
  | succ k ih =>
    intro t acc
    simp only [utility_loop]
    refine cachesOnly_bind ?_ (fun u => cachesOnly_bind (cachesOnly_lift _) (fun a => ih _ a))
    exact hx.2 _ (fun u => eval_cachesOnly x hx.1 _ _ rfl _ _) t

theorem calc_single_utility_cachesOnly (x : Ext) (hx : x.CachesOnly) (debug : Bool) :
    CachesOnly (calc_single_utility x debug) := by
  intro d a d' h
  have hbody : (M.bind (utility_loop x d.global.timestep_num 0
      (AD.const d.control.variables_num 0))
      fun u => M.pure ((AD.scale d.global.scale1 u).addConst d.global.scale2)) d
        = .ok (a, d') := by
    cases debug
    · simpa [calc_single_utility] using h
    · simp only [calc_single_utility, ↓reduceIte] at h
      split at h
      · simp at h
      · rename_i r hr
        rw [hr, h]
  exact cachesOnly_bind (utility_loop_cachesOnly x hx _ _ _) (fun u => cachesOnly_pure _)
    d a d' hbody

end Dice

namespace Dice

/-! ## Evaluation passes -/

/-- Claim C3. The sequence `reset(); r1 := calc_single_utility(); reset();
r2 := calc_single_utility()` yields `r2 = r1` (value and every gradient
component), for collaborators that change memoization caches only; and the
same result is obtained from every state that differs from the first one in
cache contents only: the result of a pass depends on the decision vector and
the constants, not on earlier passes. -/
theorem evaluation_pass_deterministic (x : Ext) (hx : x.CachesOnly) (debug : Bool)
    (d d1 : DICE) (r1 : AD)
    (h1 : calc_single_utility x debug d.reset = .ok (r1, d1)) :
    calc_single_utility x debug d1.reset = .ok (r1, d1) ∧
    ∀ d', SameUpToCaches d d' → calc_single_utility x debug d'.reset = .ok (r1, d1) := by
  have hframe : d1.reset = d.reset.reset :=
    calc_single_utility_cachesOnly x hx debug d.reset r1 d1 h1
  rw [dice_reset_reset] at hframe
  refine ⟨by rw [hframe]; exact h1, ?_⟩
  intro d' hd'
  unfold SameUpToCaches at hd'
  rw [hd']
  exact h1

theorem exExt_cachesOnly : exExt.CachesOnly := by
  constructor
  · intro k _ t d a d' h
    simp only [exExt, Except.ok.injEq, Prod.mk.injEq] at h
    rw [h.2]
    exact sameUpToCaches_refl _
  · intro k _ t d a d' h
    simp only [exExt, Except.ok.injEq, Prod.mk.injEq] at h
    rw [h.2]
    exact sameUpToCaches_refl _

theorem exDICE_reset : exDICE.reset = exDICE := by
  rfl

/-- The utility of the small configuration: `2 * (1/2 + 1/4) + 5`, with
gradient `(2, 2)`. -/
theorem exDICE_calc_single_utility :
    calc_single_utility exExt false exDICE.reset = .ok (⟨13 / 2, [2, 2]⟩, exDICE) := by
  rw [exDICE_reset]
  simp [calc_single_utility, utility_loop, utility, M.bind, M.pure, M.lift, exExt, exDICE,
    exGlobal, exControl, AD.add, AD.const, AD.variable, AD.scale, AD.addConst, List.range,
    List.range.loop]
  norm_num

/-- Claim C3 at the small configuration. -/
theorem evaluation_pass_deterministic_witness :
    exExt.CachesOnly ∧
    calc_single_utility exExt false exDICE.reset = .ok (⟨13 / 2, [2, 2]⟩, exDICE) ∧
    (calc_single_utility exExt false exDICE.reset = .ok (⟨13 / 2, [2, 2]⟩, exDICE) ∧
      ∀ d', SameUpToCaches exDICE d' →
        calc_single_utility exExt false d'.reset = .ok (⟨13 / 2, [2, 2]⟩, exDICE)) :=
  ⟨exExt_cachesOnly, exDICE_calc_single_utility,
   evaluation_pass_deterministic exExt exExt_cachesOnly false exDICE exDICE _
     exDICE_calc_single_utility⟩

/-- Claim C5. `reset()` is idempotent: the state after `reset(); reset()` is
the state after one `reset()`, hence `calc_single_utility()` after two resets
returns what it returns after one. -/
theorem reset_idempotent (x : Ext) (debug : Bool) (d : DICE) :
    d.reset.reset = d.reset ∧
    calc_single_utility x debug d.reset.reset = calc_single_utility x debug d.reset := by
  refine ⟨dice_reset_reset d, ?_⟩
  rw [dice_reset_reset]

/-! ## Error propagation -/

theorem utility_loop_error (x : Ext) (n : Nat) (e : Error) :
    ∀ (k t0 : Nat) (acc : AD) (d d1 : DICE) (us : List AD) (m : Nat),
      utilityTrace x k t0 d = .ok (us, d1) →
      (∀ u ∈ us, u.gradient.length = n) →
      acc.gradient.length = n →
      utility x (t0 + k) d1 = .error e →
      utility_loop x (k + 1 + m) t0 acc d = .error e := by
  intro k
  induction k with
  | zero =>
    intro t0 acc d d1 us m h _ _ hfail
    simp only [utilityTrace, M.pure, Except.ok.injEq, Prod.mk.injEq] at h
    obtain ⟨_, rfl⟩ := h
    have : 0 + 1 + m = m + 1 := by omega
    rw [this]
    simp only [utility_loop]
    exact bind_of_error _ _ _ _ (by simpa using hfail)
  | succ k ih =>
    intro t0 acc d d1 us m h hw hacc hfail
    simp only [utilityTrace] at h
    obtain ⟨u, d0, hu, h⟩ := bind_eq_ok _ _ _ _ _ h
    obtain ⟨us1, d2, ht, h⟩ := bind_eq_ok _ _ _ _ _ h
    simp only [M.pure, Except.ok.injEq, Prod.mk.injEq] at h
    obtain ⟨rfl, rfl⟩ := h
    have hu_w : u.gradient.length = n := hw u (by simp)
    have hlen : acc.gradient.length = u.gradient.length := by rw [hacc, hu_w]
    have hacc1 : (List.zipWith (fun x y => x + y) acc.gradient u.gradient).length = n := by
      simp [hacc, hu_w]
    have hk : k + 1 + 1 + m = (k + 1 + m) + 1 := by omega
    rw [hk]
    simp only [utility_loop]
    rw [bind_of_ok _ _ _ _ _ hu]
    simp only [M.bind, M.lift, ad_add_ok acc u hlen]
    refine ih (t0 + 1) _ d0 d2 us1 m ht (fun v hv => hw v (by simp [hv])) hacc1 ?_
    have : t0 + 1 + k = t0 + (k + 1) := by omega
    rw [this]
    exact hfail

/-- Claim C7. If `economies[0].utility(t)` fails with error `e` at the
smallest failing `t < timestep_num` (the calls at `0 .. t-1` succeed, with
results of the gradient width of the model), `calc_single_utility` fails
with exactly `e`, returning no value, with and without the `DEBUG`
catch-and-rethrow wrapper. -/
theorem calc_single_utility_propagates (x : Ext) (debug : Bool) (d d1 : DICE) (t : Nat)
    (us : List AD) (e : Error)
    (ht : t < d.global.timestep_num)
    (hpre : utilityTrace x t 0 d = .ok (us, d1))
    (hwidth : ∀ u ∈ us, u.gradient.length = d.control.variables_num)
    (hfail : utility x t d1 = .error e) :
    calc_single_utility x debug d = .error e := by
  obtain ⟨m, hm⟩ : ∃ m, d.global.timestep_num = t + 1 + m := ⟨d.global.timestep_num - (t + 1), by omega⟩
  have hloop := utility_loop_error x d.control.variables_num e t 0
    (AD.const d.control.variables_num 0) d d1 us m hpre hwidth (by simp [AD.const])
    (by simpa using hfail)
  cases debug <;> simp [calc_single_utility, M.bind, hm, hloop]

/-- Claim C7 at the small configuration with a utility that fails at
step 1. -/
theorem calc_single_utility_propagates_witness :
    1 < exDICE.global.timestep_num ∧
    utilityTrace exExtFail 1 0 exDICE = .ok ([AD.variable 2 0 (1 / 2)], exDICE) ∧
    (∀ u ∈ [AD.variable 2 0 (1 / 2)], u.gradient.length = exDICE.control.variables_num) ∧
    utility exExtFail 1 exDICE = .error .DivisionByZero ∧
    calc_single_utility exExtFail true exDICE = .error .DivisionByZero :=
  ⟨by decide, rfl, by simp [AD.variable, exDICE, exControl], rfl,
   calc_single_utility_propagates exExtFail true exDICE exDICE 1 _ _ (by decide) rfl
     (by simp [AD.variable, exDICE, exControl]) rfl⟩

end Dice

namespace Dice

/-! ## Objective evaluations of the optimizer backends -/

theorem exExt_emissions (t : Nat) (d : DICE) :
    emissions exExt t d = .ok (AD.const d.control.variables_num 3.666, d) := rfl

/-- With emissions `3.666` at every step, one step of the loop adds
`timestep_length` to `cca`. -/
theorem exExt_cca_step (k t : Nat) (cca : ℚ) (d : DICE) :
    cca_loop exExt (k + 1) t cca d
      = cca_loop exExt k (t + 1) (cca + d.global.timestep_length) d := by
  simp only [cca_loop]
  rw [bind_of_ok _ _ _ _ _ (exExt_emissions t d)]
  have h : (AD.scale (d.global.timestep_length : ℚ)
      (AD.const d.control.variables_num 3.666)).divConst 3.666
      = .ok ⟨d.global.timestep_length, List.replicate d.control.variables_num 0⟩ := by
    simp [AD.divConst, AD.scale, AD.const]
    norm_num
  simp only [h, M.bind, M.lift]

theorem exDICE_cca (s : List ℚ) :
    cca_loop exExt (assign s exDICE).global.timestep_num 0 90 (assign s exDICE)
      = .ok (100, assign s exDICE) := by
  have h2 : (assign s exDICE).global.timestep_num = 1 + 1 := rfl
  have h5 : (assign s exDICE).global.timestep_length = 5 := rfl
  rw [h2, exExt_cca_step, exExt_cca_step, h5]
  simp only [cca_loop, M.pure]
  norm_num

/-- Claim C2, evaluated on the code. With decision vector `(1/2, 1/4)` in the
model and the candidate `(1, 1)`: the `midaco` pass reports `-13/2`, the
negated utility of the vector left in the model, and leaves that vector in
place, for this and for every other candidate; `PagmoProblem::fitness`, the
`borg` callback and the `nlopt` callback bind the candidate first and report
the utility `9` of the candidate (negated for the minimizers). -/
theorem midaco_pass_ignores_candidate :
    midaco_pass exExt false false 0 [1, 1] exDICE = .ok ((-(13 / 2), 0), exDICE) ∧
    (∀ cand, midaco_pass exExt false false 0 cand exDICE
        = midaco_pass exExt false false 0 [1, 1] exDICE) ∧
    pagmo_fitness exExt false false [1, 1] exDICE = .ok ([-9], assign [1, 1] exDICE) ∧
    nlopt_objective exExt false 2 [1, 1] exDICE = .ok (9, assign [1, 1] exDICE) ∧
    borg_callback exExt false false 2 [1, 1] exDICE
      = .ok (([-9], []), assign [1, 1] exDICE) := by
  have hmid : midaco_pass exExt false false 0 [1, 1] exDICE
      = .ok ((-(13 / 2), 0), exDICE) := by
    simp only [midaco_pass]
    rw [bind_of_ok _ _ _ _ _ exDICE_calc_single_utility]
    simp [M.pure]
  have hcalc : calc_single_utility exExt false (assign [1, 1] exDICE).reset
      = .ok (⟨9, [2, 2]⟩, assign [1, 1] exDICE) := by
    have hr : (assign [1, 1] exDICE).reset = assign [1, 1] exDICE := rfl
    rw [hr]
    simp [calc_single_utility, utility_loop, utility, M.bind, M.pure, M.lift, exExt, exDICE,
      exGlobal, exControl, AD.add, AD.const, AD.variable, AD.scale, AD.addConst, List.range,
      List.range.loop, assign]
    norm_num
  have ht : List.take 2 [(1 : ℚ), 1] = [1, 1] := rfl
  refine ⟨hmid, fun cand => rfl, ?_, ?_, ?_⟩
  · simp only [pagmo_fitness]
    rw [bind_of_ok _ _ _ _ _ hcalc]
    simp [M.pure]
  · simp only [nlopt_objective]
    rw [ht, bind_of_ok _ _ _ _ _ hcalc]
    simp [M.pure]
  · simp only [borg_callback]
    rw [ht, bind_of_ok _ _ _ _ _ hcalc, bind_of_ok _ _ _ _ _ (exDICE_cca [1, 1])]
    simp [M.pure]

/-- Claim C6, evaluated on the code. With two time steps of length 5 and
emissions `3.666` at every step, `PagmoProblem::fitness` sums both steps,
`cca = 90 + 5 + 5 = 100`, while the `nlopt` constraint callback, whose loop
stops at `timestep_num - 1`, sums the first step only, `cca = 95`. -/
theorem nlopt_cca_skips_last_step :
    pagmo_cca exExt false [1 / 2, 1 / 4] exDICE = .ok (100, exDICE) ∧
    nlopt_cca exExt false 2 [1 / 2, 1 / 4] exDICE = .ok (95, exDICE) := by
  have hr : (assign [1 / 2, 1 / 4] exDICE).reset = exDICE.reset := rfl
  have ht : List.take 2 [(1 / 2 : ℚ), 1 / 4] = [1 / 2, 1 / 4] := rfl
  have ha : assign [1 / 2, 1 / 4] exDICE = exDICE := rfl
  constructor
  · simp only [pagmo_cca]
    rw [hr, bind_of_ok _ _ _ _ _ exDICE_calc_single_utility]
    have h := exDICE_cca [1 / 2, 1 / 4]
    rw [ha] at h
    exact h
  · simp only [nlopt_cca]
    rw [ht, hr, bind_of_ok _ _ _ _ _ exDICE_calc_single_utility]
    have hb : (exDICE.global.timestep_num + (2 ^ 64 - 1)) % 2 ^ 64 = 0 + 1 := by decide
    have h5 : exDICE.global.timestep_length = 5 := rfl
    rw [hb, exExt_cca_step, h5]
    simp only [cca_loop, M.pure]
    norm_num

end Dice
namespace Dice

/-! ## Caches after `reset` -/

theorem series_reset_cached (s : Series) (t : Nat) : s.reset.cached t = none := by
  unfold Series.cached Series.reset
  split
  · next v hv =>
    simp only [List.getElem?_map] at hv
    cases h : s.cache[t]? with
    | none => simp [h] at hv
    | some w => simp [h] at hv
  · rfl

theorem climate_reset_series (c : DICEClimate) (q : Var) :
    c.reset.series q = (c.series q).reset := by
  cases q <;> rfl

/-- The accessor on a cache miss at `t ≥ 1` inside the series: the previous
value by `get(t - 1)`, the lambda of the series, clamp and store. -/
theorem eval_of_miss (x : Ext) (b : Budget) (q : Var) (t : Nat) (d : DICE)
    (hb : b q ≠ 0) (ht : 1 ≤ t) (hlen : t < (d.climate.series q).cache.length)
    (hc : (d.climate.series q).cached t = none) :
    eval x b q t d
      = (M.bind (eval x (b.spend q) q (t - 1)) fun last =>
         M.bind (recurrence x (fun r u => eval x (b.spend q) r u) q t last) fun raw =>
         storeClamped q t raw) d := by
  rw [eval]
  have h1 : ¬ (d.climate.series q).cache.length ≤ t := by omega
  have h2 : ¬ t = 0 := by omega
  simp only [hb, ↓reduceDIte, h1, ↓reduceIte, h2, hc]

/-- Claim C4. After `DICE::reset()` none of the five series of the climate
module holds a cached value, and for every `t ≥ 1` inside the series the next
call of the accessor of any of them recomputes the value: previous value by
`get(t - 1)`, then the recurrence of the series, clamped and stored. `d` is
any state, in particular one whose decision vector was just replaced. -/
theorem reset_clears_climate_caches (x : Ext) (b : Budget) (q : Var) (t : Nat) (d : DICE)
    (hb : b q ≠ 0) (ht : 1 ≤ t) (hlen : t < (d.climate.series q).cache.length) :
    (∀ r u, (d.reset.climate.series r).cached u = none) ∧
    eval x b q t d.reset
      = (M.bind (eval x (b.spend q) q (t - 1)) fun last =>
         M.bind (recurrence x (fun r u => eval x (b.spend q) r u) q t last) fun raw =>
         storeClamped q t raw) d.reset := by
  have hnone : ∀ r u, (d.reset.climate.series r).cached u = none := by
    intro r u
    show (d.climate.reset.series r).cached u = none
    rw [climate_reset_series]
    exact series_reset_cached _ u
  refine ⟨hnone, eval_of_miss x b q t d.reset hb ht ?_ (hnone q t)⟩
  show t < (d.climate.reset.series q).cache.length
  rw [climate_reset_series]
  simpa [Series.reset] using hlen

/-- Claim C4 at the small configuration, for `M_atm(1)`. -/
theorem reset_clears_climate_caches_witness :
    (fun _ => 2 : Budget) .M_atm ≠ 0 ∧ 1 ≤ 1 ∧
    1 < (exDICE.climate.series .M_atm).cache.length ∧
    ((∀ r u, (exDICE.reset.climate.series r).cached u = none) ∧
      eval exExt (fun _ => 2) .M_atm 1 exDICE.reset
        = (M.bind (eval exExt (Budget.spend (fun _ => 2) .M_atm) .M_atm (1 - 1)) fun last =>
           M.bind (recurrence exExt
              (fun r u => eval exExt (Budget.spend (fun _ => 2) .M_atm) r u) .M_atm 1 last)
             fun raw => storeClamped .M_atm 1 raw) exDICE.reset) :=
  ⟨by decide, by decide, by decide,
   reset_clears_climate_caches exExt (fun _ => 2) .M_atm 1 exDICE (by decide) (by decide)
     (by decide)⟩

end Dice

namespace Dice

/-! ## Column lookup of `write_csv_output` -/

theorem searchComponents_notFound_iff {W : Type}
    (obs : Comp → String → Nat → W → Except Error (Bool × W)) (name : String) (t : Nat)
    (hno : ∀ c w, obs c name t w ≠ .error (notFound name)) :
    ∀ (cs : List Comp) (w : W),
      searchComponents obs name t cs w = .error (notFound name) ↔ allContinue obs name t cs w := by
  intro cs
  induction cs with
  | nil => intro w; simp [searchComponents, allContinue]
  | cons c cs ih =>
    intro w
    simp only [searchComponents, allContinue]
    cases h : obs c name t w with
    | error e =>
      have hne : e ≠ notFound name := fun he => hno c w (by rw [h, he])
      simp [hne]
    | ok p =>
      obtain ⟨flag, w1⟩ := p
      cases flag with
      | false => simp
      | true => simpa using ih w1

theorem write_csv_cell_eq_search {W : Type}
    (obs : Comp → String → Nat → W → Except Error (Bool × W)) (emit : Nat → W → W)
    (g : Global) (name : String) (t : Nat) (w : W)
    (h1 : name ≠ "t") (h2 : name ≠ "year") :
    write_csv_cell obs emit g name t w
      = searchComponents obs name t
          [.economy, .climate, .damage, .control, .emissions] w := by
  simp only [write_csv_cell, h1, h2, ↓reduceIte, searchComponents, andAlso]
  cases ha : obs .economy name t w with
  | error e => rfl
  | ok pa =>
    obtain ⟨fa, wa⟩ := pa
    cases fa with
    | false => rfl
    | true =>
      simp only []
      cases hb : obs .climate name t wa with
      | error e => rfl
      | ok pb =>
        obtain ⟨fb, wb⟩ := pb
        cases fb with
        | false => rfl
        | true =>
          simp only []
          cases hc : obs .damage name t wb with
          | error e => rfl
          | ok pc =>
            obtain ⟨fc, wc⟩ := pc
            cases fc with
            | false => rfl
            | true =>
              simp only []
              cases hd : obs .control name t wc with
              | error e => rfl
              | ok pd =>
                obtain ⟨fd, wd⟩ := pd
                cases fd with
                | false => rfl
                | true =>
                  simp only []
                  cases he : obs .emissions name t wd with
                  | error e => rfl
                  | ok pe =>
                    obtain ⟨fe, we⟩ := pe
                    cases fe <;> rfl

/-- Claim C10. For a column name other than `t` and `year`, the lookup of
`write_csv_output` queries economy, climate, damage, control, emissions in
this order and stops at the first component that returns `false`; and (for
components that do not themselves raise that very error) it raises
"variable 'name' not found" if and only if all five return `true`. -/
theorem write_csv_cell_lookup {W : Type}
    (obs : Comp → String → Nat → W → Except Error (Bool × W)) (emit : Nat → W → W)
    (g : Global) (name : String) (t : Nat) (w : W)
    (h1 : name ≠ "t") (h2 : name ≠ "year")
    (hno : ∀ c w', obs c name t w' ≠ .error (notFound name)) :
    write_csv_cell obs emit g name t w
      = searchComponents obs name t
          [.economy, .climate, .damage, .control, .emissions] w ∧
    (write_csv_cell obs emit g name t w = .error (notFound name) ↔
      allContinue obs name t [.economy, .climate, .damage, .control, .emissions] w) := by
  refine ⟨write_csv_cell_eq_search obs emit g name t w h1 h2, ?_⟩
  rw [write_csv_cell_eq_search obs emit g name t w h1 h2]
  exact searchComponents_notFound_iff obs name t hno _ w

theorem exObs_no_notFound (name : String) (t : Nat) (c : Comp) (w : List String) :
    exObs c name t w ≠ .error (notFound name) := by
  unfold exObs
  split <;> simp

/-- Claim C10 for the column `T_atm` of the lookup example. -/
theorem write_csv_cell_lookup_witness :
    "T_atm" ≠ "t" ∧ "T_atm" ≠ "year" ∧
    (∀ c w', exObs c "T_atm" 3 w' ≠ .error (notFound "T_atm")) ∧
    (write_csv_cell exObs (fun n w => w ++ [toString n]) exGlobal "T_atm" 3 []
      = searchComponents exObs "T_atm" 3
          [.economy, .climate, .damage, .control, .emissions] [] ∧
    (write_csv_cell exObs (fun n w => w ++ [toString n]) exGlobal "T_atm" 3 []
        = .error (notFound "T_atm") ↔
      allContinue exObs "T_atm" 3
        [.economy, .climate, .damage, .control, .emissions] [])) :=
  ⟨by decide, by decide, exObs_no_notFound "T_atm" 3,
   write_csv_cell_lookup exObs (fun n w => w ++ [toString n]) exGlobal "T_atm" 3 []
     (by decide) (by decide) (exObs_no_notFound "T_atm" 3)⟩

end Dice

namespace Dice

/-! ## Termination of the climate recurrences -/

theorem noOverrun_pure {α : Type} (a : α) : NoOverrun (M.pure a) := by
  intro d h
  simp [M.pure] at h

theorem noOverrun_bind {α β : Type} {m : M α} {f : α → M β} (hm : NoOverrun m)
    (hf : ∀ a, NoOverrun (f a)) : NoOverrun (M.bind m f) := by
  intro d h
  unfold M.bind at h
  cases hmd : m d with
  | error e =>
    simp only [hmd, Except.error.injEq] at h
    exact hm d (by rw [hmd, h])
  | ok p =>
    obtain ⟨a, d1⟩ := p
    simp only [hmd] at h
    exact hf a d1 h

theorem noOverrun_lift {α : Type} (r : Except Error α) (hr : r ≠ .error .outOfBudget) :
    NoOverrun (M.lift r) := by
  intro d h
  unfold M.lift at h
  cases r with
  | error e =>
    simp only [Except.error.injEq] at h
    exact hr (by rw [h])
  | ok a => simp at h

theorem except_bind_ne {α β : Type} (r : Except Error α) (f : α → Except Error β)
    (hr : r ≠ .error .outOfBudget) (hf : ∀ a, f a ≠ .error .outOfBudget) :
    (r >>= f) ≠ .error .outOfBudget := by
  cases r with
  | error e =>
    intro h
    apply hr
    simpa [bind, Except.bind] using h
  | ok a => exact hf a

theorem ad_add_ne (a b : AD) : a.add b ≠ .error .outOfBudget := by
  unfold AD.add
  split <;> simp

theorem ad_sub_ne (a b : AD) : a.sub b ≠ .error .outOfBudget := by
  unfold AD.sub
  split <;> simp

theorem ad_divConst_ne (a : AD) (c : ℚ) : a.divConst c ≠ .error .outOfBudget := by
  unfold AD.divConst
  split <;> simp

theorem except_pure_ne {α : Type} (a : α) :
    (pure a : Except Error α) ≠ .error .outOfBudget := by
  simp [pure, Except.pure]

theorem force_noOverrun (x : Ext) (k : Nat → M AD) (t : Nat) (hk : NoOverrun (k t)) :
    NoOverrun (force x k t) := by
  intro d
  simp only [force]
  exact noOverrun_bind hk (fun m => noOverrun_lift _
    (except_bind_ne _ _ (ad_divConst_ne _ _) (fun _ => except_pure_ne _))) d

theorem recurrence_noOverrun (x : Ext) (hx : x.Causal) (acc : Var → Nat → M AD)
    (q : Var) (t : Nat) (last : AD)
    (hacc : ∀ r u, Reads q t r u → NoOverrun (acc r u)) :
    NoOverrun (recurrence x acc q t last) := by
  have hprev : ∀ r, NoOverrun (acc r (t - 1)) := fun r => hacc r (t - 1) (Or.inl rfl)
  intro d
  cases q <;> simp only [recurrence]
  · refine noOverrun_bind (hprev _) (fun _ => noOverrun_bind ?_ (fun _ => noOverrun_lift _ ?_)) d
    · exact hx.1 _ _ (fun u hu => hacc .T_atm u (Or.inr (Or.inr ⟨rfl, rfl, hu⟩)))
    · exact except_bind_ne _ _ (ad_add_ne _ _) (fun _ =>
        except_bind_ne _ _ (ad_divConst_ne _ _) (fun _ => ad_add_ne _ _))
  · exact noOverrun_bind (hprev _) (fun _ => noOverrun_lift _ (ad_add_ne _ _)) d
  · exact noOverrun_bind (hprev _) (fun _ => noOverrun_bind (hprev _) (fun _ =>
      noOverrun_lift _ (except_bind_ne _ _ (ad_add_ne _ _) (fun _ => ad_add_ne _ _)))) d
  · exact noOverrun_bind (hprev _) (fun _ => noOverrun_lift _
      (except_bind_ne _ _ (ad_sub_ne _ _) (fun _ => ad_add_ne _ _))) d
  · refine noOverrun_bind (force_noOverrun x _ t
        (hacc .M_atm t (Or.inr (Or.inl ⟨rfl, rfl, rfl⟩))))
      (fun _ => noOverrun_bind (hprev _) (fun _ => noOverrun_lift _ ?_)) d
    refine except_bind_ne _ _ (ad_sub_ne _ _) (fun _ =>
      except_bind_ne _ _ (ad_sub_ne _ _) (fun _ =>
        except_bind_ne _ _ (ad_sub_ne _ _) (fun _ =>
          except_bind_ne _ _ (ad_add_ne _ _) (fun _ => ?_))))
    split <;> exact except_pure_ne _

theorem storeClamped_noOverrun (q : Var) (t : Nat) (raw : AD) :
    NoOverrun (storeClamped q t raw) := by
  intro d h
  simp [storeClamped] at h

theorem enough_prev (b : Budget) (q : Var) (t : Nat) (h : Enough b q t) (ht : 1 ≤ t) :
    Enough (b.spend q) q (t - 1) := by
  obtain ⟨h1, h2, h3⟩ := h
  have hM := h2 .M_atm
  refine ⟨?_, ?_, ?_⟩
  · simp only [Budget.spend, ↓reduceIte]; omega
  · intro r
    have := h2 r
    simp only [Budget.spend]
    split <;> omega
  · intro hq
    have := h3 hq
    subst hq
    simp only [Budget.spend]
    split <;> omega

theorem enough_reads (b : Budget) (q : Var) (t : Nat) (h : Enough b q t) (ht : 1 ≤ t)
    (r : Var) (u : Nat) (hr : Reads q t r u) : Enough (b.spend q) r u := by
  obtain ⟨h1, h2, h3⟩ := h
  have hall : ∀ r', t - 1 ≤ (b.spend q) r' ∧ (r' ≠ q → t ≤ (b.spend q) r') ∧
      t ≤ (b.spend q) q := by
    intro r'
    have := h2 r'
    simp only [Budget.spend, ↓reduceIte]
    refine ⟨by split <;> omega, fun hne => by simp [hne]; omega, by omega⟩
  have hge : ∀ r', t ≤ (b.spend q) r' ∨ r' = q := by
    intro r'
    by_cases hq : r' = q
    · exact Or.inr hq
    · exact Or.inl ((hall r').2.1 hq)
  have hself := (hall q).2.2
  rcases hr with hu | ⟨hq, hr, hu⟩ | ⟨hq, hr, hu⟩
  · subst hu
    refine ⟨?_, fun r' => (hall r').1, ?_⟩
    · rcases hge r with h | h
      · omega
      · subst h; omega
    · intro _
      rcases hge .M_atm with h | h
      · omega
      · rw [h]; omega
  · subst hq; subst hr; subst hu
    have hM := h3 rfl
    have hspM : (b.spend .T_atm) .M_atm = b .M_atm := by simp [Budget.spend]
    refine ⟨by rw [hspM]; exact hM, ?_, fun h => by cases h⟩
    intro r'
    rcases hge r' with h | h
    · exact h
    · rw [h]; exact hself
  · subst hq; subst hr
    have hT : t ≤ (b.spend .M_atm) .T_atm := (hall .T_atm).2.1 (by decide)
    refine ⟨by omega, ?_, fun _ => by omega⟩
    intro r'
    have := (hall r').1
    omega

theorem eval_noOverrun (x : Ext) (hx : x.Causal) :
    ∀ (n : Nat) (b : Budget), b.total = n → ∀ q t, Enough b q t → NoOverrun (eval x b q t) := by
  intro n
  induction n using Nat.strong_induction_on with
  | _ n ih =>
    intro b hb q t hen d
    rw [eval]
    have hq : ¬ b q = 0 := by have := hen.1; omega
    simp only [hq, ↓reduceDIte]
    split
    · simp
    · split
      · simp
      · rename_i ht
        split
        · simp
        · have hlt := spend_total_lt b q hq
          rw [hb] at hlt
          have ht1 : 1 ≤ t := by omega
          refine noOverrun_bind (ih _ hlt (b.spend q) rfl q (t - 1) (enough_prev b q t hen ht1))
            (fun last => noOverrun_bind ?_ (fun raw => storeClamped_noOverrun q t raw)) d
          exact recurrence_noOverrun x hx _ q t last
            (fun r u hr => ih _ hlt (b.spend q) rfl r u (enough_reads b q t hen ht1 r u hr))

theorem enough_top (q : Var) (t : Nat) : Enough (fun _ => t + 1) q t :=
  ⟨le_refl _, fun _ => Nat.le_succ t, fun _ => le_refl _⟩

end Dice

namespace Dice

theorem force_congr (x : Ext) (k k' : Nat → M AD) (t : Nat) (h : k t = k' t) :
    force x k t = force x k' t := by
  funext d
  simp only [force, h]

theorem recurrence_reads (x : Ext) (hx : x.Causal) (acc acc' : Var → Nat → M AD)
    (q : Var) (t : Nat) (last : AD) (hagree : ∀ r u, Reads q t r u → acc r u = acc' r u) :
    recurrence x acc q t last = recurrence x acc' q t last := by
  have hprev : ∀ r, acc r (t - 1) = acc' r (t - 1) := fun r => hagree r (t - 1) (Or.inl rfl)
  funext d
  cases q <;> simp only [recurrence, hprev]
  · have hE : x.E (acc .T_atm) (t - 1) = x.E (acc' .T_atm) (t - 1) :=
      hx.2 _ _ _ (fun u hu => hagree .T_atm u (Or.inr (Or.inr ⟨rfl, rfl, hu⟩)))
    rw [hE]
  · rw [force_congr x (acc .M_atm) (acc' .M_atm) t
      (hagree .M_atm t (Or.inr (Or.inl ⟨rfl, rfl, rfl⟩)))]

/-- Claim C9. For emissions that terminate and read climate quantities only
at indices `≤ s`: the recurrence of each series at `t` is determined by the
accessors at index `t - 1`, by `M_atm(t)` in the case of `T_atm(t)` (through
`force(t)`), and by what `E(t - 1)` reads of `T_atm` at indices `≤ t - 1`; for
`t ≥ 1` none of these indices exceeds `t`, and only the reference of
`T_atm(t)` to `M_atm(t)` is at `t` itself; and every accessor (and `force`)
called at any `t` completes with at most `t + 1` nested `get` calls per
series. -/
theorem climate_recurrences_terminate (x : Ext) (hx : x.Causal) :
    (∀ (acc acc' : Var → Nat → M AD) (q : Var) (t : Nat) (last : AD),
      (∀ r u, Reads q t r u → acc r u = acc' r u) →
      recurrence x acc q t last = recurrence x acc' q t last) ∧
    (∀ (q r : Var) (t u : Nat), 1 ≤ t → Reads q t r u →
      u ≤ t ∧ (u = t → q = .T_atm ∧ r = .M_atm)) ∧
    (∀ (q : Var) (t : Nat) (d : DICE), accessor x q t d ≠ .error .outOfBudget) ∧
    (∀ (t : Nat) (d : DICE), force x (accessor x .M_atm) t d ≠ .error .outOfBudget) := by
  have hacc : ∀ q t, NoOverrun (accessor x q t) :=
    fun q t => eval_noOverrun x hx _ _ rfl q t (enough_top q t)
  refine ⟨fun acc acc' q t last h => recurrence_reads x hx acc acc' q t last h, ?_, hacc,
    fun t => force_noOverrun x _ t (hacc .M_atm t)⟩
  intro q r t u ht hr
  rcases hr with hu | ⟨hq, hr, hu⟩ | ⟨_, _, hu⟩
  · exact ⟨by omega, fun h => by omega⟩
  · exact ⟨by omega, fun _ => ⟨hq, hr⟩⟩
  · exact ⟨by omega, fun h => by omega⟩

theorem exExt_causal : exExt.Causal := by
  constructor
  · intro k s _ d h
    simp [exExt] at h
  · intro k k' s _
    rfl

/-- Claim C9 for the collaborators of the small configuration. -/
theorem climate_recurrences_terminate_witness :
    exExt.Causal ∧
    ((∀ (acc acc' : Var → Nat → M AD) (q : Var) (t : Nat) (last : AD),
      (∀ r u, Reads q t r u → acc r u = acc' r u) →
      recurrence exExt acc q t last = recurrence exExt acc' q t last) ∧
    (∀ (q r : Var) (t u : Nat), 1 ≤ t → Reads q t r u →
      u ≤ t ∧ (u = t → q = .T_atm ∧ r = .M_atm)) ∧
    (∀ (q : Var) (t : Nat) (d : DICE), accessor exExt q t d ≠ .error .outOfBudget) ∧
    (∀ (t : Nat) (d : DICE), force exExt (accessor exExt .M_atm) t d ≠ .error .outOfBudget)) :=
  ⟨exExt_causal, climate_recurrences_terminate exExt exExt_causal⟩

/-! ## Clamping at the lower bound -/

theorem sameUpToCaches_fields (d d' : DICE) (h : SameUpToCaches d d') (q : Var) :
    (d'.climate.series q).bound = (d.climate.series q).bound ∧ d'.control = d.control ∧
      d'.global = d.global := by
  unfold SameUpToCaches at h
  refine ⟨?_, ?_, ?_⟩
  · have hb := congrArg (fun s => (s.climate.series q).bound) h
    simp only [DICE.reset, climate_reset_series, Series.reset] at hb
    exact hb
  · exact congrArg (fun s => s.control) h
  · exact congrArg (fun s => s.global) h

theorem create_lower_bound (st : ClimateSettings) (g : Global) (ctl : Control) (q : Var)
    (lo : ℚ) (hlo : st.lower q = some lo) :
    ((DICEClimate.create st g ctl).series q).bound
      = .lower (AD.const ctl.variables_num lo) := by
  cases q <;> simp only [ClimateSettings.lower, Option.some.injEq] at hlo
  all_goals first
    | (subst hlo; rfl)
    | cases hlo

/-- Claim C8. For a lower-bounded series `q` of the climate module (`M_atm`,
`M_l`, `M_u`, with the bound `lo` its initializer installs) and `t ≥ 1`
inside the series, not yet cached: if the recurrence of the series yields an
unclamped value below `lo`, the accessor at `t` returns the bound constant:
value exactly `lo`, gradient zero in every component. Emissions are assumed
to change cache contents only. -/
theorem lower_bounded_clamp (x : Ext) (hx : x.CachesOnly) (st : ClimateSettings)
    (b : Budget) (q : Var) (t : Nat) (lo : ℚ) (d d1 d2 : DICE) (last raw : AD)
    (hlo : st.lower q = some lo)
    (hcfg : (d.climate.series q).bound
      = ((DICEClimate.create st d.global d.control).series q).bound)
    (hb : b q ≠ 0) (ht : 1 ≤ t) (hlen : t < (d.climate.series q).cache.length)
    (hc : (d.climate.series q).cached t = none)
    (hprev : eval x (b.spend q) q (t - 1) d = .ok (last, d1))
    (hrec : recurrence x (fun r u => eval x (b.spend q) r u) q t last d1 = .ok (raw, d2))
    (hlow : raw.value < lo) :
    ∃ r d3, eval x b q t d = .ok (r, d3) ∧ r.value = lo ∧
      r.gradient = List.replicate d.control.variables_num 0 := by
  have hev : ∀ r u, CachesOnly (eval x (b.spend q) r u) :=
    fun r u => eval_cachesOnly x hx.1 _ _ rfl r u
  have h1 : SameUpToCaches d d1 := hev q (t - 1) d last d1 hprev
  have h2 : SameUpToCaches d1 d2 :=
    recurrence_cachesOnly x hx.1 _ hev q t last d1 raw d2 hrec
  obtain ⟨hbound, hctl, _⟩ := sameUpToCaches_fields d d2 (sameUpToCaches_trans h1 h2) q
  have hb2 : (d2.climate.series q).bound = .lower (AD.const d.control.variables_num lo) := by
    rw [hbound, hcfg, create_lower_bound st d.global d.control q lo hlo]
  have hfinal : eval x b q t d = storeClamped q t raw d2 := by
    rw [eval_of_miss x b q t d hb ht hlen hc, bind_of_ok _ _ _ _ _ hprev,
      bind_of_ok _ _ _ _ _ hrec]
  have hv : raw.value < (AD.const d.control.variables_num lo).value := hlow
  rw [hfinal]
  simp only [storeClamped, hb2, Bound.clamp, hv, ↓reduceIte]
  exact ⟨_, _, rfl, rfl, rfl⟩

end Dice

namespace Dice

/-- The accessor at index 0 returns the clamped seed. -/
theorem eval_zero (x : Ext) (b : Budget) (q : Var) (d : DICE) (hb : b q ≠ 0)
    (hlen : 0 < (d.climate.series q).cache.length) :
    eval x b q 0 d = .ok ((d.climate.series q).bound.clamp (d.climate.series q).seed, d) := by
  rw [eval]
  have h1 : ¬ (d.climate.series q).cache.length ≤ 0 := by omega
  simp only [hb, ↓reduceDIte, h1, ↓reduceIte]

theorem exDICE_M_atm_zero :
    eval exExt (Budget.spend (fun _ => 2) .M_atm) .M_atm (1 - 1) exDICE
      = .ok (AD.const 2 1000, exDICE) := by
  have h := eval_zero exExt (Budget.spend (fun _ => 2) .M_atm) .M_atm exDICE (by decide)
    (by decide)
  have hc : ((exDICE.climate.series .M_atm).bound.clamp (exDICE.climate.series .M_atm).seed)
      = AD.const 2 1000 := by
    simp [exDICE, DICEClimate.create, DICEClimate.series, exSettings, exControl, Bound.clamp,
      AD.const]
    norm_num
  rw [hc] at h
  exact h

theorem exDICE_M_u_zero :
    eval exExt (Budget.spend (fun _ => 2) .M_atm) .M_u (1 - 1) exDICE
      = .ok (AD.const 2 400, exDICE) := by
  have h := eval_zero exExt (Budget.spend (fun _ => 2) .M_atm) .M_u exDICE (by decide)
    (by decide)
  have hc : ((exDICE.climate.series .M_u).bound.clamp (exDICE.climate.series .M_u).seed)
      = AD.const 2 400 := by
    simp [exDICE, DICEClimate.create, DICEClimate.series, exSettings, exControl, Bound.clamp,
      AD.const]
    norm_num
  rw [hc] at h
  exact h

/-- The recurrence of `M_atm` at step 1 of the small configuration:
`1000 * 0.9 + 400 * 0.2 + 3.666 * 5 / 3.666 = 985`. -/
theorem exDICE_M_atm_recurrence :
    recurrence exExt (fun r u => eval exExt (Budget.spend (fun _ => 2) .M_atm) r u) .M_atm 1
      (AD.const 2 1000) exDICE = .ok (⟨985, [0, 0]⟩, exDICE) := by
  simp only [recurrence]
  rw [bind_of_ok _ _ _ _ _ exDICE_M_u_zero]
  have hE : exExt.E (fun u => eval exExt (Budget.spend (fun _ => 2) .M_atm) .T_atm u) (1 - 1)
      exDICE = .ok (AD.const 2 3.666, exDICE) := rfl
  rw [bind_of_ok _ _ _ _ _ hE]
  simp [M.lift, AD.add, AD.scale, AD.divConst, AD.const, bind, Except.bind, exDICE,
    DICEClimate.create, DICEClimate.b11, DICEClimate.b21, exSettings, exGlobal, exControl]
  norm_num

/-- Claim C8 at the small configuration: `M_atm(1)` is clamped to its lower
bound `1000`. -/
theorem lower_bounded_clamp_witness :
    exExt.CachesOnly ∧ exSettings.lower .M_atm = some 1000 ∧
    (exDICE.climate.series .M_atm).bound
      = ((DICEClimate.create exSettings exDICE.global exDICE.control).series .M_atm).bound ∧
    (fun _ => 2 : Budget) .M_atm ≠ 0 ∧ 1 ≤ 1 ∧
    1 < (exDICE.climate.series .M_atm).cache.length ∧
    (exDICE.climate.series .M_atm).cached 1 = none ∧
    eval exExt (Budget.spend (fun _ => 2) .M_atm) .M_atm (1 - 1) exDICE
      = .ok (AD.const 2 1000, exDICE) ∧
    recurrence exExt (fun r u => eval exExt (Budget.spend (fun _ => 2) .M_atm) r u) .M_atm 1
      (AD.const 2 1000) exDICE = .ok (⟨985, [0, 0]⟩, exDICE) ∧
    (⟨985, [0, 0]⟩ : AD).value < 1000 ∧
    ∃ r d3, eval exExt (fun _ => 2) .M_atm 1 exDICE = .ok (r, d3) ∧ r.value = 1000 ∧
      r.gradient = List.replicate exDICE.control.variables_num 0 :=
  ⟨exExt_cachesOnly, rfl, rfl, by decide, by decide, by decide, rfl, exDICE_M_atm_zero,
   exDICE_M_atm_recurrence, by norm_num,
   lower_bounded_clamp exExt exExt_cachesOnly exSettings (fun _ => 2) .M_atm 1 1000
     exDICE exDICE exDICE (AD.const 2 1000) ⟨985, [0, 0]⟩ rfl rfl (by decide) (by decide)
     (by decide) rfl exDICE_M_atm_zero exDICE_M_atm_recurrence (by norm_num)⟩

end Dice

namespace Dice

/-! ## Control input -/

theorem grid_iterate_next_col (n : Nat) (p : GridCursor) :
    gridParser.next_col^[n] p = { p with col := p.col + n } := by
  induction n generalizing p with
  | zero => rfl
  | succ n ih =>
    rw [Function.iterate_succ_apply, ih]
    simp only [gridParser]
    congr 1
    omega

/-- On a grid whose rows `r + 1`, `r + 2`, ... hold the numbers `val 0`,
`val 1`, ... in column `col`, the loop started at the beginning of row
`r + 1` reads exactly these numbers. -/
theorem readColumn_grid (cells : List (List (Option ℚ))) (col : Nat) :
    ∀ (v : List ℚ) (r : Nat) (val : Nat → ℚ),
      (∀ i, i < v.length → cellAt cells (r + i) col = some (val i)) →
      readColumn gridParser col v ⟨cells, r, 0⟩ = .ok ((List.range v.length).map val) := by
  intro v
  induction v with
  | nil => intro r val _; rfl
  | cons a rest ih =>
    intro r val h
    have h0 : cellAt cells r col = some (val 0) := by simpa using h 0 (by simp)
    have hrest := ih (r + 1) (fun i => val (i + 1)) (fun i hi => by
      have := h (i + 1) (by simp; omega)
      rw [← this]
      congr 1
      omega)
    have hread : gridParser.read ⟨cells, r, 0 + col⟩ = .ok (val 0) := by
      simp only [gridParser, Nat.zero_add, h0]
    have hnext : gridParser.next_row ⟨cells, r, 0 + col⟩ = ⟨cells, r + 1, 0⟩ := rfl
    simp only [readColumn, grid_iterate_next_col, hread, hnext, hrest]
    simp [List.range_succ_eq_map]

/-- Claim C11. `ControlInputObserver::observe(name, v)`, the CSV file being
read as a grid of cells with a header row: if the settings contain `name`
with format `csv` and the data rows `0 .. length(v) - 1` of the file hold the
numbers `val i` in column `column`, then afterwards `v[i] = val i` for every
`i < length(v)` and the length of `v` is unchanged; if the settings do not
contain `name`, `v` is left unchanged; if the format is not `csv`, an
"unknown format" error is raised; and whenever the call does not fail it
returns `true`. -/
theorem controlInputObserver_observe (input_node : String → Option ControlInput)
    (files : String → Option (List (List (Option ℚ)))) (name : String) (v : List ℚ) :
    (∀ (node : ControlInput) (g : List (List (Option ℚ))) (val : Nat → ℚ),
      input_node name = some node → node.format = "csv" →
      files node.filename = some g →
      (∀ i, i < v.length → cellAt g (i + 1) node.column = some (val i)) →
      ∃ v1, ControlInputObserver.observe gridParser input_node (openGrid files) name v
          = .ok (true, v1) ∧ v1.length = v.length ∧
        ∀ i, i < v.length → v1[i]? = some (val i)) ∧
    (input_node name = none →
      ControlInputObserver.observe gridParser input_node (openGrid files) name v
        = .ok (true, v)) ∧
    (∀ node : ControlInput, input_node name = some node → node.format ≠ "csv" →
      ControlInputObserver.observe gridParser input_node (openGrid files) name v
        = .error (.runtime ("unknown format '" ++ node.format ++ "'"))) ∧
    (∀ (flag : Bool) (v1 : List ℚ),
      ControlInputObserver.observe gridParser input_node (openGrid files) name v
        = .ok (flag, v1) → flag = true) := by
  refine ⟨?_, ?_, ?_, ?_⟩
  · intro node g val hnode hfmt hfile hcells
    have hread := readColumn_grid g node.column v 1 val (fun i hi => by
      rw [Nat.add_comm]; exact hcells i hi)
    refine ⟨(List.range v.length).map val, ?_, by simp, ?_⟩
    · have hnext : gridParser.next_row ⟨g, 0, 0⟩ = ⟨g, 1, 0⟩ := rfl
      simp only [ControlInputObserver.observe, hnode, hfmt, ↓reduceIte, openGrid, hfile,
        hnext, hread]
    · intro i hi
      simp [hi]
  · intro hnone
    simp only [ControlInputObserver.observe, hnone]
  · intro node hnode hfmt
    simp only [ControlInputObserver.observe, hnode, hfmt, ↓reduceIte]
  · intro flag v1 h
    unfold ControlInputObserver.observe at h
    split at h
    · split at h
      · split at h
        · simp at h
        · split at h
          · simp at h
          · simp only [Except.ok.injEq, Prod.mk.injEq] at h
            exact h.1.symm
      · simp at h
    · simp only [Except.ok.injEq, Prod.mk.injEq] at h
      exact h.1.symm

theorem exFiles_cells (i : Nat) (hi : i < 2) :
    cellAt [[none, none], [some 2010, some (3 / 10)], [some 2015, some (1 / 5)]] (i + 1) 1
      = some (if i = 0 then 3 / 10 else 1 / 5) := by
  interval_cases i <;> simp [cellAt]

/-- Claim C11 at the input example: the series `s` is replaced by column 1 of
`s.csv`, a name without an entry leaves the series alone, and the entry `mu`
with format `netcdf` is refused. -/
theorem controlInputObserver_observe_witness :
    exInput "s" = some ⟨"csv", "s.csv", 1⟩ ∧
    exFiles "s.csv" = some [[none, none], [some 2010, some (3 / 10)],
      [some 2015, some (1 / 5)]] ∧
    (∃ v1, ControlInputObserver.observe gridParser exInput (openGrid exFiles) "s"
          [1 / 2, 1 / 4] = .ok (true, v1) ∧ v1.length = [(1 / 2 : ℚ), 1 / 4].length ∧
        ∀ i, i < [(1 / 2 : ℚ), 1 / 4].length →
          v1[i]? = some (if i = 0 then 3 / 10 else 1 / 5)) ∧
    exInput "K" = none ∧
    ControlInputObserver.observe gridParser exInput (openGrid exFiles) "K" [1 / 2, 1 / 4]
      = .ok (true, [1 / 2, 1 / 4]) ∧
    exInput "mu" = some ⟨"netcdf", "mu.nc", 0⟩ ∧
    ControlInputObserver.observe gridParser exInput (openGrid exFiles) "mu" [1 / 2, 1 / 4]
      = .error (.runtime ("unknown format '" ++ "netcdf" ++ "'")) :=
  ⟨by decide, by simp [exFiles],
   (controlInputObserver_observe exInput exFiles "s" [1 / 2, 1 / 4]).1
     ⟨"csv", "s.csv", 1⟩ _ (fun i => if i = 0 then 3 / 10 else 1 / 5)
     (by decide) rfl (by simp [exFiles]) exFiles_cells,
   by decide,
   (controlInputObserver_observe exInput exFiles "K" [1 / 2, 1 / 4]).2.1 (by decide),
   by decide,
   (controlInputObserver_observe exInput exFiles "mu" [1 / 2, 1 / 4]).2.2.1
     ⟨"netcdf", "mu.nc", 0⟩ (by decide) (by decide)⟩

end Dice

namespace Dice

/-! ## `DICE::run` and an injected decision vector -/

theorem exGlobal_optlrsav : exGlobal.optlrsav = 156 / 605 := by
  simp [Global.optlrsav, exGlobal]
  norm_num

theorem fill_optlrsav_exDICE :
    (fill_optlrsav exDICE).control.s = [156 / 605, 156 / 605] := by
  have h : exDICE.global.optlrsav = 156 / 605 := exGlobal_optlrsav
  have hs : exDICE.control.s = [1 / 2, 1 / 4] := rfl
  simp only [fill_optlrsav, h, hs, List.map_cons, List.map_nil]

/-- Claim C12, refuted on the code. With the injected decision vector
`(1/2, 1/4)`, two time steps and `s_fix_steps = 1`, `DICE::run` with
configured iterations enters `optimize` (and with it every evaluation) in a
state whose `control.s` is `(156/605, 156/605)`, the value of `optlrsav` in
every entry: the entry at index `1 ≥ timestep_num - 1` is not the injected
`1/4`. -/
theorem run_overwrites_injected_series :
    exDICE.control.s = [1 / 2, 1 / 4] ∧
    (fill_optlrsav exDICE).control.s = [156 / 605, 156 / 605] ∧
    (∀ optimize : IterationNode → List ℚ → M Unit,
      run exExt false optimize (some [⟨"nlopt", 1⟩]) 1 exDICE
        = run_iterations exExt false optimize 1 [⟨"nlopt", 1⟩] (fill_optlrsav exDICE)) ∧
    ¬ (∀ i, 2 - 1 ≤ i → i < 2 →
        (fill_optlrsav exDICE).control.s[i]? = exDICE.control.s[i]?) := by
  refine ⟨rfl, fill_optlrsav_exDICE, fun optimize => rfl, ?_⟩
  intro h
  have h1 := h 1 (by decide) (by decide)
  rw [fill_optlrsav_exDICE] at h1
  have h2 : exDICE.control.s = [1 / 2, 1 / 4] := rfl
  rw [h2] at h1
  simp at h1
  norm_num at h1

theorem fill_optlrsav_getElem (d : DICE) (i : Nat) (hi : i < d.control.s.length) :
    (fill_optlrsav d).control.s[i]? = some d.global.optlrsav := by
  simp only [fill_optlrsav, List.getElem?_map, List.getElem?_eq_getElem hi, Option.map_some']

/-- Claim C12 as amended. With one economy: when optimization iterations are
configured, `DICE::run` first sets every entry of `control.s` to `optlrsav`
and only then enters the first `optimize`, with the first
`timestep_num - s_fix_steps` entries as initial vector, so every entry
`control.s[i]`, also for `i ≥ timestep_num - s_fix_steps`, is `optlrsav` and
not an injected value; when no iterations are configured, `run` evaluates
`calc_single_utility` on the state as it is, injected series included. -/
theorem run_fills_before_optimize (x : Ext) (debug : Bool)
    (optimize : IterationNode → List ℚ → M Unit) (node : IterationNode)
    (rest : List IterationNode) (r k : Nat) (d : DICE)
    (hone : d.economies.length = 1) (hrep : node.repeatCount = r + 1) :
    (∀ i, i < d.control.s.length → (fill_optlrsav d).control.s[i]? = some d.global.optlrsav) ∧
    (fill_optlrsav d).control.s.length = d.control.s.length ∧
    run x debug optimize (some (node :: rest)) k d
      = (M.bind (optimize node ((fill_optlrsav d).control.s.take
            ((d.global.timestep_num + 2 ^ 64 - k) % 2 ^ 64))) fun _ =>
         M.bind (fun d1 => calc_single_utility x debug d1.reset) fun u =>
         M.bind (run_repeat x debug optimize node
            ((d.global.timestep_num + 2 ^ 64 - k) % 2 ^ 64) r) fun us =>
         M.bind (run_iterations x debug optimize
            ((d.global.timestep_num + 2 ^ 64 - k) % 2 ^ 64) rest) fun vs =>
         M.pure ((u.value :: us) ++ vs)) (fill_optlrsav d) ∧
    run x debug optimize none k d
      = M.bind (calc_single_utility x debug) (fun _ => M.pure []) d := by
  refine ⟨fun i hi => fill_optlrsav_getElem d i hi, by simp [fill_optlrsav], ?_, ?_⟩
  · simp only [run, hone, one_ne_zero, ↓reduceIte, run_iterations, hrep, run_repeat]
    simp only [M.bind, M.pure]
    cases optimize node (List.take ((d.global.timestep_num + 2 ^ 64 - k) % 2 ^ 64)
        (fill_optlrsav d).control.s) (fill_optlrsav d) with
    | error e => rfl
    | ok p =>
      obtain ⟨_, d1⟩ := p
      simp only []
      cases calc_single_utility x debug d1.reset with
      | error e => rfl
      | ok p2 =>
        obtain ⟨u, d2⟩ := p2
        simp only []
        cases run_repeat x debug optimize node
            ((d.global.timestep_num + 2 ^ 64 - k) % 2 ^ 64) r d2 with
        | error e => rfl
        | ok p3 =>
          obtain ⟨us, d3⟩ := p3
          rfl
  · simp only [run, hone, one_ne_zero, ↓reduceIte]

/-- Claim C12 as amended, at the small configuration with `s_fix_steps = 1`. -/
theorem run_fills_before_optimize_witness :
    exDICE.economies.length = 1 ∧ (⟨"nlopt", 1⟩ : IterationNode).repeatCount = 0 + 1 ∧
    ((∀ i, i < exDICE.control.s.length →
        (fill_optlrsav exDICE).control.s[i]? = some exDICE.global.optlrsav) ∧
    (fill_optlrsav exDICE).control.s.length = exDICE.control.s.length ∧
    run exExt false (fun _ _ => M.pure ()) (some (⟨"nlopt", 1⟩ :: [])) 1 exDICE
      = (M.bind ((fun _ _ => M.pure ()) (⟨"nlopt", 1⟩ : IterationNode)
            ((fill_optlrsav exDICE).control.s.take
              ((exDICE.global.timestep_num + 2 ^ 64 - 1) % 2 ^ 64))) fun _ =>
         M.bind (fun d1 => calc_single_utility exExt false d1.reset) fun u =>
         M.bind (run_repeat exExt false (fun _ _ => M.pure ()) ⟨"nlopt", 1⟩
            ((exDICE.global.timestep_num + 2 ^ 64 - 1) % 2 ^ 64) 0) fun us =>
         M.bind (run_iterations exExt false (fun _ _ => M.pure ())
            ((exDICE.global.timestep_num + 2 ^ 64 - 1) % 2 ^ 64) []) fun vs =>
         M.pure ((u.value :: us) ++ vs)) (fill_optlrsav exDICE) ∧
    run exExt false (fun _ _ => M.pure ()) none 1 exDICE
      = M.bind (calc_single_utility exExt false) (fun _ => M.pure []) exDICE) :=
  ⟨rfl, rfl,
   run_fills_before_optimize exExt false (fun _ _ => M.pure ()) ⟨"nlopt", 1⟩ [] 0 1 exDICE
     rfl rfl⟩

end Dice

namespace Dice

/-! ## Introspection of the climate component -/

/-- An `OBSERVE_VAR` line for another name than the one the CSV observer
asks for passes on to the rest of `observe`. -/
theorem observe_var_skip (t : Nat) (var name : String) (acc : Nat → M AD)
    (rest : DICE → List ℚ → Except Error (Bool × DICE × List ℚ)) (h : name ≠ var) :
    OBSERVE_VAR (CSVOutputObserver t var) name acc rest = rest := by
  funext d w
  have hb : (name == var) = false := by simpa using h
  simp only [OBSERVE_VAR, CSVOutputObserver, hb]

/-- An `OBSERVE_VAR` line for the name the CSV observer asks for hands it the
scalar of time step `t` and returns `false`. -/
theorem observe_var_hit (t : Nat) (var : String) (acc : Nat → M AD)
    (rest : DICE → List ℚ → Except Error (Bool × DICE × List ℚ)) (d d1 : DICE) (v : AD)
    (w : List ℚ) (h : acc t d = .ok (v, d1)) :
    OBSERVE_VAR (CSVOutputObserver t var) var acc rest d w = .ok (false, d1, w ++ [v.value]) := by
  have hb : (var == var) = true := by simp
  simp only [OBSERVE_VAR, CSVOutputObserver, hb, h]

/-- Claim C13. For each name that `DICEClimate::observe` lists (`M_atm`,
`M_l`, `M_u`, `T_ocean`, `T_atm`, `force`, `forcoth`) and every `t` at which
the accessor of that name returns, the single-point query of the CSV observer
for the name at `t` is handled by `DICEClimate::observe`: it returns `false`
and delivers the value of the accessor at `t`; for every other name it
returns `true`, delivers nothing and changes nothing. -/
theorem climate_observe_complete (x : Ext) (name : String) (t : Nat) (d : DICE)
    (w : List ℚ) :
    (∀ (acc : Nat → M AD) (v : AD) (d1 : DICE), climateAccessor x name = some acc →
      acc t d = .ok (v, d1) →
      DICEClimate.observe x (CSVOutputObserver t name) d w
        = .ok (false, d1, w ++ [v.value])) ∧
    (climateAccessor x name = none →
      DICEClimate.observe x (CSVOutputObserver t name) d w = .ok (true, d, w)) ∧
    (climateAccessor x name = none ↔
      name ∉ ["M_atm", "M_l", "M_u", "T_ocean", "T_atm", "force", "forcoth"]) := by
  by_cases h1 : name = "M_atm"
  · subst h1
    refine ⟨?_, by simp [climateAccessor], by simp [climateAccessor]⟩
    intro acc v d1 hacc hv
    simp only [climateAccessor, ↓reduceIte, Option.some.injEq] at hacc
    subst hacc
    exact observe_var_hit t _ _ _ d d1 v w hv
  by_cases h2 : name = "M_l"
  · subst h2
    refine ⟨?_, by simp [climateAccessor], by simp [climateAccessor]⟩
    intro acc v d1 hacc hv
    simp only [climateAccessor, String.reduceEq, ↓reduceIte, Option.some.injEq] at hacc
    subst hacc
    simp only [DICEClimate.observe]
    rw [observe_var_skip t _ "M_atm" _ _ (by decide)]
    exact observe_var_hit t _ _ _ d d1 v w hv
  by_cases h3 : name = "M_u"
  · subst h3
    refine ⟨?_, by simp [climateAccessor], by simp [climateAccessor]⟩
    intro acc v d1 hacc hv
    simp only [climateAccessor, String.reduceEq, ↓reduceIte, Option.some.injEq] at hacc
    subst hacc
    simp only [DICEClimate.observe]
    rw [observe_var_skip t _ "M_atm" _ _ (by decide), observe_var_skip t _ "M_l" _ _ (by decide)]
    exact observe_var_hit t _ _ _ d d1 v w hv
  by_cases h4 : name = "T_ocean"
  · subst h4
    refine ⟨?_, by simp [climateAccessor], by simp [climateAccessor]⟩
    intro acc v d1 hacc hv
    simp only [climateAccessor, String.reduceEq, ↓reduceIte, Option.some.injEq] at hacc
    subst hacc
    simp only [DICEClimate.observe]
    rw [observe_var_skip t _ "M_atm" _ _ (by decide), observe_var_skip t _ "M_l" _ _ (by decide),
      observe_var_skip t _ "M_u" _ _ (by decide)]
    exact observe_var_hit t _ _ _ d d1 v w hv
  by_cases h5 : name = "T_atm"
  · subst h5
    refine ⟨?_, by simp [climateAccessor], by simp [climateAccessor]⟩
    intro acc v d1 hacc hv
    simp only [climateAccessor, String.reduceEq, ↓reduceIte, Option.some.injEq] at hacc
    subst hacc
    simp only [DICEClimate.observe]
    rw [observe_var_skip t _ "M_atm" _ _ (by decide), observe_var_skip t _ "M_l" _ _ (by decide),
      observe_var_skip t _ "M_u" _ _ (by decide), observe_var_skip t _ "T_ocean" _ _ (by decide)]
    exact observe_var_hit t _ _ _ d d1 v w hv
  by_cases h6 : name = "force"
  · subst h6
    refine ⟨?_, by simp [climateAccessor], by simp [climateAccessor]⟩
    intro acc v d1 hacc hv
    simp only [climateAccessor, String.reduceEq, ↓reduceIte, Option.some.injEq] at hacc
    subst hacc
    simp only [DICEClimate.observe]
    rw [observe_var_skip t _ "M_atm" _ _ (by decide), observe_var_skip t _ "M_l" _ _ (by decide),
      observe_var_skip t _ "M_u" _ _ (by decide), observe_var_skip t _ "T_ocean" _ _ (by decide),
      observe_var_skip t _ "T_atm" _ _ (by decide)]
    exact observe_var_hit t _ _ _ d d1 v w hv
  by_cases h7 : name = "forcoth"
  · subst h7
    refine ⟨?_, by simp [climateAccessor], by simp [climateAccessor]⟩
    intro acc v d1 hacc hv
    simp only [climateAccessor, String.reduceEq, ↓reduceIte, Option.some.injEq] at hacc
    subst hacc
    simp only [DICEClimate.observe]
    rw [observe_var_skip t _ "M_atm" _ _ (by decide), observe_var_skip t _ "M_l" _ _ (by decide),
      observe_var_skip t _ "M_u" _ _ (by decide), observe_var_skip t _ "T_ocean" _ _ (by decide),
      observe_var_skip t _ "T_atm" _ _ (by decide), observe_var_skip t _ "force" _ _ (by decide)]
    exact observe_var_hit t _ _ _ d d1 v w hv
  · have hnone : climateAccessor x name = none := by
      simp [climateAccessor, h1, h2, h3, h4, h5, h6, h7]
    refine ⟨fun acc v d1 hacc _ => (by rw [hnone] at hacc; cases hacc), fun _ => ?_, ?_⟩
    · simp only [DICEClimate.observe]
      rw [observe_var_skip t name "M_atm" _ _ (Ne.symm h1),
        observe_var_skip t name "M_l" _ _ (Ne.symm h2),
        observe_var_skip t name "M_u" _ _ (Ne.symm h3),
        observe_var_skip t name "T_ocean" _ _ (Ne.symm h4),
        observe_var_skip t name "T_atm" _ _ (Ne.symm h5),
        observe_var_skip t name "force" _ _ (Ne.symm h6),
        observe_var_skip t name "forcoth" _ _ (Ne.symm h7),
        observe_var_skip t name "T_atm" _ _ (Ne.symm h5)]
    · simp [hnone, h1, h2, h3, h4, h5, h6, h7]

end Dice

namespace Dice

/-- Claim C13 at the small configuration: `T_atm` at step 0 is delivered, the
name `K` is not one of the climate component. -/
theorem climate_observe_complete_witness :
    climateAccessor exExt "T_atm" = some (T_atm exExt) ∧
    T_atm exExt 0 exDICE = .ok (AD.const 2 1, exDICE) ∧
    DICEClimate.observe exExt (CSVOutputObserver 0 "T_atm") exDICE []
      = .ok (false, exDICE, [] ++ [(AD.const 2 1).value]) ∧
    climateAccessor exExt "K" = none ∧
    DICEClimate.observe exExt (CSVOutputObserver 0 "K") exDICE [] = .ok (true, exDICE, []) :=
  ⟨by simp [climateAccessor],
   eval_zero exExt (fun _ => 0 + 1) .T_atm exDICE (by decide) (by decide),
   (climate_observe_complete exExt "T_atm" 0 exDICE []).1 (T_atm exExt) (AD.const 2 1) exDICE
     (by simp [climateAccessor])
     (eval_zero exExt (fun _ => 0 + 1) .T_atm exDICE (by decide) (by decide)),
   by simp [climateAccessor],
   (climate_observe_complete exExt "K" 0 exDICE []).2.1 (by simp [climateAccessor])⟩

/-! ## Radiative forcing -/

/-- The value of `force(t)`: `fco22x * log2(M_atm(t) / 588) + forcoth(t)`. -/
theorem force_value (x : Ext) (k : Nat → M AD) (t : Nat) (d d1 : DICE) (m : AD)
    (hk : k t d = .ok (m, d1)) :
    ∃ f, force x k t d = .ok (f, d1) ∧
      f.value = d.climate.fco22x * x.log2v (m.value / 588) + forcoth d t := by
  have h588 : m.divConst 588 = .ok ⟨m.value / 588, m.gradient.map (fun g => g / 588)⟩ := by
    simp [AD.divConst]
  refine ⟨(AD.scale d.climate.fco22x (AD.log2 x.log2v x.dlog2
      ⟨m.value / 588, m.gradient.map (fun g => g / 588)⟩)).addConst (forcoth d t), ?_, ?_⟩
  · simp only [force]
    rw [bind_of_ok _ _ _ _ _ hk]
    simp only [h588, M.lift, bind, Except.bind, pure, Except.pure]
  · simp [AD.addConst, AD.scale, AD.log2]

theorem exDICEeq_M_atm_zero : M_atm exExt 0 exDICEeq = .ok (AD.const 2 600, exDICEeq) := by
  have h := eval_zero exExt (fun _ => 0 + 1) .M_atm exDICEeq (by decide) (by decide)
  have hc : ((exDICEeq.climate.series .M_atm).bound.clamp (exDICEeq.climate.series .M_atm).seed)
      = AD.const 2 600 := by
    simp [exDICEeq, DICEClimate.create, DICEClimate.series, exSettings, exControl, Bound.clamp,
      AD.const]
    norm_num
  rw [hc] at h
  exact h

/-- Claim C14, evaluated on the code. In the configuration with
`M_atm_eq = 600` and `M_atm(0) = 600`, the atmosphere at its configured
equilibrium, `force(0)` is `57/98` and not `forcoth(0) = 1/2`: the CO2 part
is `fco22x * log2(600 / 588)`, taken against the literal 588 (here with the
stand-in `v - 1` for `log2`, which like `log2` vanishes at 1 only). -/
theorem force_uses_literal_588 :
    exDICEeq.climate.M_atm_eq = 600 ∧
    M_atm exExt 0 exDICEeq = .ok (AD.const 2 600, exDICEeq) ∧
    forcoth exDICEeq 0 = 1 / 2 ∧
    ∃ f, forceTop exExt 0 exDICEeq = .ok (f, exDICEeq) ∧ f.value = 57 / 98 ∧
      f.value ≠ forcoth exDICEeq 0 := by
  have hforc : forcoth exDICEeq 0 = 1 / 2 := by
    simp [forcoth, exDICEeq, exDICE, exGlobal, DICEClimate.create, exSettings]
  obtain ⟨f, hf, hv⟩ := force_value exExt (M_atm exExt) 0 exDICEeq exDICEeq _ exDICEeq_M_atm_zero
  have hval : f.value = 57 / 98 := by
    rw [hv, hforc]
    simp [exDICEeq, DICEClimate.create, exSettings, exExt, AD.const]
    norm_num
  refine ⟨rfl, exDICEeq_M_atm_zero, hforc, f, hf, hval, ?_⟩
  rw [hval, hforc]
  norm_num

/-- Claim C15, evaluated on the code. Started in 2000 with steps of 5 years,
step 2 is the year 2010 and step 20 the year 2100, yet `forcoth(2) = 5/9` and
`forcoth(20) = 19/18`, not `fex0 = 1/2` and `fex1 = 1`: the interpolation
counts steps from the start year. Started in 2010 the values are `fex0` at
step 0 (2010) and `fex1` at step 18 (2100); after 2100 the value is `fex1`
in both. -/
theorem forcoth_counts_from_start_year :
    (exDICE2000.global.start_year + exDICE2000.global.timestep_length * 2 = 2010 ∧
      forcoth exDICE2000 2 = 5 / 9 ∧ exDICE2000.climate.fex0 = 1 / 2) ∧
    (exDICE2000.global.start_year + exDICE2000.global.timestep_length * 20 = 2100 ∧
      forcoth exDICE2000 20 = 19 / 18 ∧ exDICE2000.climate.fex1 = 1) ∧
    (forcoth exDICE 0 = exDICE.climate.fex0 ∧ forcoth exDICE 18 = exDICE.climate.fex1) ∧
    (forcoth exDICE2000 21 = exDICE2000.climate.fex1 ∧
      forcoth exDICE 19 = exDICE.climate.fex1) := by
  refine ⟨⟨rfl, ?_, ?_⟩, ⟨rfl, ?_, ?_⟩, ⟨?_, ?_⟩, ⟨?_, ?_⟩⟩
  all_goals
    simp [forcoth, exDICE2000, exDICE, exGlobal, DICEClimate.create, exSettings]
  all_goals norm_num

end Dice

namespace Dice

/-! ## Exit code of `main` -/

/-- Claim C16. The exit code of `main` is 1 when `argc != 2`; for a single
argument of length `> 1` starting with `-` it is 0 for `--version`, `-v`,
`--help`, `-h` (and for `--diff`, `-d` when `has_diff` holds) and 1 for every
other such argument, and in these cases no settings are loaded and no model
is run; for any other argument, the single character `-` included, the model
is initialized, run and output, and the exit code is 0 if no exception is
thrown and 255 if one is. So the exit code depends on the argument list and
on whether the model run throws, only. -/
theorem main_exit_code (has_diff : Bool) (session : String → Except Error Unit) :
    (∀ argv : List String, argv.length ≠ 2 →
      main has_diff session argv = (1, .usage)) ∧
    (∀ prog arg : String, isOption arg = true →
      (arg = "--version" ∨ arg = "-v" ∨ arg = "--help" ∨ arg = "-h" ∨
        (has_diff = true ∧ (arg = "--diff" ∨ arg = "-d"))) →
      (main has_diff session [prog, arg]).1 = 0 ∧
      (main has_diff session [prog, arg]).2 ≠ .model) ∧
    (∀ prog arg : String, isOption arg = true →
      ¬ (arg = "--version" ∨ arg = "-v" ∨ arg = "--help" ∨ arg = "-h" ∨
        (has_diff = true ∧ (arg = "--diff" ∨ arg = "-d"))) →
      main has_diff session [prog, arg] = (1, .usage)) ∧
    (∀ prog arg : String, isOption arg = false →
      (∀ u, session arg = .ok u → main has_diff session [prog, arg] = (0, .model)) ∧
      (∀ e, session arg = .error e → main has_diff session [prog, arg] = (255, .model))) ∧
    isOption "-" = false ∧
    (∀ (session' : String → Except Error Unit) (argv : List String),
      (∀ a, (session a).toBool = (session' a).toBool) →
      (main has_diff session argv).1 = (main has_diff session' argv).1) := by
  refine ⟨?_, ?_, ?_, ?_, by decide, ?_⟩
  · intro argv h
    match argv, h with
    | [], _ => rfl
    | [_], _ => rfl
    | [_, _], h => exact absurd rfl h
    | _ :: _ :: _ :: _, _ => rfl
  · intro prog arg hopt h
    simp only [main, hopt, ↓reduceIte]
    rcases h with h | h | h | h | ⟨hd, h⟩
    · simp [h]
    · simp [h]
    · subst h; cases has_diff <;> simp
    · subst h; cases has_diff <;> simp
    · by_cases hv : arg = "--version" ∨ arg = "-v"
      · simp [hv]
      · simp [hv, hd, h]
  · intro prog arg hopt h
    simp only [not_or, not_and] at h
    obtain ⟨h1, h2, h3, h4, h5⟩ := h
    simp only [main, hopt, ↓reduceIte, h1, h2, h3, h4, or_self]
    by_cases hd : has_diff = true
    · have := h5 hd
      simp [this]
    · simp [hd]
  · intro prog arg hopt
    constructor
    · intro u hu
      simp [main, hopt, hu]
    · intro e he
      simp [main, hopt, he]
  · intro session' argv h
    match argv with
    | [] => rfl
    | [_] => rfl
    | _ :: _ :: _ :: _ => rfl
    | [_, arg] =>
      simp only [main]
      split
      · rfl
      · have ha := h arg
        cases hs : session arg with
        | ok u =>
          cases hs' : session' arg with
          | ok u' => rfl
          | error e' => simp [hs, hs', Except.toBool] at ha
        | error e =>
          cases hs' : session' arg with
          | ok u' => simp [hs, hs', Except.toBool] at ha
          | error e' => rfl

/-- Claim C16 on concrete command lines. -/
theorem main_exit_code_witness :
    main true (fun _ => .error .OutOfRange) ["dice"] = (1, .usage) ∧
    ((main true (fun _ => .error .OutOfRange) ["dice", "--diff"]).1 = 0 ∧
      (main true (fun _ => .error .OutOfRange) ["dice", "--diff"]).2 ≠ .model) ∧
    main false (fun _ => .error .OutOfRange) ["dice", "--diff"] = (1, .usage) ∧
    main false (fun _ => .ok ()) ["dice", "-"] = (0, .model) ∧
    main false (fun _ => .error .OutOfRange) ["dice", "settings.yml"] = (255, .model) :=
  ⟨(main_exit_code true (fun _ => .error .OutOfRange)).1 ["dice"] (by decide),
   (main_exit_code true (fun _ => .error .OutOfRange)).2.1 "dice" "--diff" (by decide)
     (by decide),
   (main_exit_code false (fun _ => .error .OutOfRange)).2.2.1 "dice" "--diff" (by decide)
     (by decide),
   ((main_exit_code false (fun _ => .ok ())).2.2.2.1 "dice" "-" (by decide)).1 () rfl,
   ((main_exit_code false (fun _ => .error .OutOfRange)).2.2.2.1 "dice" "settings.yml"
     (by decide)).2 .OutOfRange rfl⟩

end Dice

namespace Dice

/-! ## What `reset` leaves alone -/

/-- Claim C17. `DICE::reset()` changes memoization caches only: the decision
vector `control.s` (with `variables_num`), the `Global` constants, the
constants of the climate module and, for each of its five series, the seed,
the bound and the length are the same after `reset()` as before. -/
theorem reset_changes_caches_only (d : DICE) :
    d.reset.control = d.control ∧ d.reset.global = d.global ∧
    (∀ q, (d.reset.climate.series q).seed = (d.climate.series q).seed ∧
      (d.reset.climate.series q).bound = (d.climate.series q).bound ∧
      (d.reset.climate.series q).cache.length = (d.climate.series q).cache.length) ∧
    (d.reset.climate.b12 = d.climate.b12 ∧ d.reset.climate.b23 = d.climate.b23 ∧
      d.reset.climate.c1 = d.climate.c1 ∧ d.reset.climate.c3 = d.climate.c3 ∧
      d.reset.climate.c4 = d.climate.c4 ∧ d.reset.climate.fco22x = d.climate.fco22x ∧
      d.reset.climate.fex0 = d.climate.fex0 ∧ d.reset.climate.fex1 = d.climate.fex1 ∧
      d.reset.climate.M_atm_eq = d.climate.M_atm_eq ∧
      d.reset.climate.M_l_eq = d.climate.M_l_eq ∧
      d.reset.climate.M_u_eq = d.climate.M_u_eq ∧
      d.reset.climate.t2xco2 = d.climate.t2xco2 ∧
      d.reset.climate.T_atm_upper = d.climate.T_atm_upper) := by
  refine ⟨rfl, rfl, ?_, rfl, rfl, rfl, rfl, rfl, rfl, rfl, rfl, rfl, rfl, rfl, rfl, rfl⟩
  intro q
  have h : d.reset.climate.series q = (d.climate.series q).reset := climate_reset_series _ q
  rw [h]
  exact ⟨rfl, rfl, by simp [Series.reset]⟩

/-! ## Constraint values of the backends -/

theorem assign_self (d : DICE) : assign d.control.s d = d := by
  cases d
  rfl

/-- Claim C19. When the three backends evaluate the same state (decision
vector `vars`), with utility `u` and cumulative quantity `cca`: the
constraint value of `PagmoProblem::fitness` is `cca - fosslim`, that of the
`midaco` pass is `fosslim - cca`, its negation, and that of the `borg`
callback is `max(0, cca - fosslim)`; hence the violation of `borg` is 0 iff
`cca ≤ fosslim` iff the value of `pagmo` is `≤ 0` iff the value of `midaco`
is `≥ 0`. -/
theorem constraint_values_agree (x : Ext) (debug : Bool) (n : Nat) (g0 : ℚ) (vars : List ℚ)
    (d d1 d2 : DICE) (u : AD) (cca : ℚ)
    (hs : d.control.s = vars) (hn : vars.take n = vars)
    (hcalc : calc_single_utility x debug d.reset = .ok (u, d1))
    (hcca : cca_loop x d1.global.timestep_num 0 90 d1 = .ok (cca, d2)) :
    pagmo_fitness x debug true vars d = .ok ([-u.value, cca - d1.global.fosslim], d2) ∧
    midaco_pass x debug true g0 vars d = .ok ((-u.value, d1.global.fosslim - cca), d2) ∧
    borg_callback x debug true n vars d
      = .ok (([-u.value], [max 0 (cca - d1.global.fosslim)]), d2) ∧
    d1.global.fosslim - cca = -(cca - d1.global.fosslim) ∧
    (max 0 (cca - d1.global.fosslim) = 0 ↔ cca ≤ d1.global.fosslim) ∧
    (cca ≤ d1.global.fosslim ↔ cca - d1.global.fosslim ≤ 0) ∧
    (cca - d1.global.fosslim ≤ 0 ↔ 0 ≤ d1.global.fosslim - cca) := by
  have ha : assign vars d = d := by rw [← hs]; exact assign_self d
  refine ⟨?_, ?_, ?_, by ring, ?_, ?_, ?_⟩
  · simp only [pagmo_fitness, ha]
    rw [bind_of_ok _ _ _ _ _ hcalc]
    simp only [↓reduceIte]
    rw [bind_of_ok _ _ _ _ _ hcca]
    rfl
  · simp only [midaco_pass]
    rw [bind_of_ok _ _ _ _ _ hcalc]
    simp only [↓reduceIte]
    rw [bind_of_ok _ _ _ _ _ hcca]
    rfl
  · simp only [borg_callback, hn, ha]
    rw [bind_of_ok _ _ _ _ _ hcalc, bind_of_ok _ _ _ _ _ hcca]
    rfl
  · rw [max_eq_left_iff]
    constructor <;> intro h <;> linarith
  · constructor <;> intro h <;> linarith
  · constructor <;> intro h <;> linarith

/-- Claim C19 at the small configuration: `cca = 100`, `fosslim = 6000`. -/
theorem constraint_values_agree_witness :
    exDICE.control.s = [1 / 2, 1 / 4] ∧ List.take 2 [(1 / 2 : ℚ), 1 / 4] = [1 / 2, 1 / 4] ∧
    calc_single_utility exExt false exDICE.reset = .ok (⟨13 / 2, [2, 2]⟩, exDICE) ∧
    cca_loop exExt exDICE.global.timestep_num 0 90 exDICE = .ok (100, exDICE) ∧
    (pagmo_fitness exExt false true [1 / 2, 1 / 4] exDICE
      = .ok ([-(⟨13 / 2, [2, 2]⟩ : AD).value, 100 - exDICE.global.fosslim], exDICE) ∧
    midaco_pass exExt false true 0 [1 / 2, 1 / 4] exDICE
      = .ok ((-(⟨13 / 2, [2, 2]⟩ : AD).value, exDICE.global.fosslim - 100), exDICE) ∧
    borg_callback exExt false true 2 [1 / 2, 1 / 4] exDICE
      = .ok (([-(⟨13 / 2, [2, 2]⟩ : AD).value], [max 0 (100 - exDICE.global.fosslim)]),
          exDICE) ∧
    exDICE.global.fosslim - 100 = -(100 - exDICE.global.fosslim) ∧
    (max 0 (100 - exDICE.global.fosslim) = 0 ↔ 100 ≤ exDICE.global.fosslim) ∧
    (100 ≤ exDICE.global.fosslim ↔ 100 - exDICE.global.fosslim ≤ 0) ∧
    (100 - exDICE.global.fosslim ≤ 0 ↔ 0 ≤ exDICE.global.fosslim - 100)) :=
  ⟨rfl, rfl, exDICE_calc_single_utility, exDICE_cca [1 / 2, 1 / 4],
   constraint_values_agree exExt false 2 0 [1 / 2, 1 / 4] exDICE exDICE exDICE _ 100 rfl rfl
     exDICE_calc_single_utility (exDICE_cca [1 / 2, 1 / 4])⟩

end Dice

namespace Dice

/-! ## The first step of the small configuration -/

theorem exM_atm_zero (b : Budget) (hb : b .M_atm ≠ 0) :
    eval exExt b .M_atm 0 exDICE = .ok (AD.const 2 1000, exDICE) := by
  have h := eval_zero exExt b .M_atm exDICE hb (by decide)
  have hc : ((exDICE.climate.series .M_atm).bound.clamp (exDICE.climate.series .M_atm).seed)
      = AD.const 2 1000 := by
    simp [exDICE, DICEClimate.create, DICEClimate.series, exSettings, exControl, Bound.clamp,
      AD.const]
    norm_num
  rw [hc] at h
  exact h

theorem exM_u_zero (b : Budget) (hb : b .M_u ≠ 0) :
    eval exExt b .M_u 0 exDICE = .ok (AD.const 2 400, exDICE) := by
  have h := eval_zero exExt b .M_u exDICE hb (by decide)
  have hc : ((exDICE.climate.series .M_u).bound.clamp (exDICE.climate.series .M_u).seed)
      = AD.const 2 400 := by
    simp [exDICE, DICEClimate.create, DICEClimate.series, exSettings, exControl, Bound.clamp,
      AD.const]
    norm_num
  rw [hc] at h
  exact h

theorem exM_atm_rec (b : Budget) (hb : b .M_u ≠ 0) :
    recurrence exExt (fun r u => eval exExt b r u) .M_atm 1 (AD.const 2 1000) exDICE
      = .ok (⟨985, [0, 0]⟩, exDICE) := by
  simp only [recurrence]
  rw [bind_of_ok _ _ _ _ _ (exM_u_zero b hb)]
  have hE : exExt.E (fun u => eval exExt b .T_atm u) (1 - 1) exDICE
      = .ok (AD.const 2 3.666, exDICE) := rfl
  rw [bind_of_ok _ _ _ _ _ hE]
  simp [M.lift, AD.add, AD.scale, AD.divConst, AD.const, bind, Except.bind, exDICE,
    DICEClimate.create, DICEClimate.b11, DICEClimate.b21, exSettings, exGlobal, exControl]
  norm_num

theorem exM_atm_store :
    storeClamped .M_atm 1 ⟨985, [0, 0]⟩ exDICE = .ok (AD.const 2 1000, exDICEa) := by
  have hb : (exDICE.climate.series .M_atm).bound = .lower (AD.const 2 1000) := rfl
  have hlt : (985 : ℚ) < (AD.const 2 1000).value := by simp [AD.const]; norm_num
  simp only [storeClamped, hb, Bound.clamp, hlt, ↓reduceIte]
  rfl

theorem exM_atm_one (b : Budget) (hb1 : b .M_atm ≠ 0) (hb2 : (b.spend .M_atm) .M_atm ≠ 0)
    (hb3 : (b.spend .M_atm) .M_u ≠ 0) :
    eval exExt b .M_atm 1 exDICE = .ok (AD.const 2 1000, exDICEa) := by
  rw [eval_of_miss exExt b .M_atm 1 exDICE hb1 (by decide) (by decide) rfl]
  rw [bind_of_ok _ _ _ _ _ (exM_atm_zero (b.spend .M_atm) hb2)]
  rw [bind_of_ok _ _ _ _ _ (exM_atm_rec (b.spend .M_atm) hb3)]
  exact exM_atm_store

theorem exForce_one (b : Budget) (hb1 : b .M_atm ≠ 0) (hb2 : (b.spend .M_atm) .M_atm ≠ 0)
    (hb3 : (b.spend .M_atm) .M_u ≠ 0) :
    force exExt (fun u => eval exExt b .M_atm u) 1 exDICE
      = .ok (⟨5875 / 1764, [0, 0]⟩, exDICEa) := by
  simp only [force]
  rw [bind_of_ok _ _ _ _ _ (exM_atm_one b hb1 hb2 hb3)]
  simp [M.lift, AD.divConst, AD.scale, AD.log2, AD.addConst, AD.const, bind, Except.bind, pure,
    Except.pure, forcoth, exDICE, DICEClimate.create, exSettings, exGlobal, exExt]
  norm_num

theorem exT_ocean_zero (b : Budget) (hb : b .T_ocean ≠ 0) :
    eval exExt b .T_ocean 0 exDICEa = .ok (AD.const 2 0, exDICEa) := by
  have h := eval_zero exExt b .T_ocean exDICEa hb (by decide)
  have hc : ((exDICEa.climate.series .T_ocean).bound.clamp
      (exDICEa.climate.series .T_ocean).seed) = AD.const 2 0 := by
    simp [exDICEa, exDICE, DICEClimate.create, DICEClimate.series, DICEClimate.setSeries,
      exSettings, exControl, Bound.clamp, AD.const]
    norm_num
  rw [hc] at h
  exact h

theorem exT_atm_raw :
    T_atm_raw exDICE.climate (AD.const 2 1) ⟨5875 / 1764, [0, 0]⟩ (AD.const 2 0)
      = .ok ⟨104933 / 88200, [0, 0]⟩ := by
  simp [T_atm_raw, AD.sub, AD.add, AD.scale, AD.const, bind, Except.bind, exDICE,
    DICEClimate.create, exSettings]
  norm_num

theorem exT_atm_rec (b : Budget) (hb1 : b .M_atm ≠ 0) (hb2 : (b.spend .M_atm) .M_atm ≠ 0)
    (hb3 : (b.spend .M_atm) .M_u ≠ 0) (hb4 : b .T_ocean ≠ 0) :
    recurrence exExt (fun r u => eval exExt b r u) .T_atm 1 (AD.const 2 1) exDICE
      = .ok (⟨104933 / 88200, [0, 0]⟩, exDICEa) := by
  simp only [recurrence]
  rw [bind_of_ok _ _ _ _ _ (exForce_one b hb1 hb2 hb3)]
  rw [bind_of_ok _ _ _ _ _ (exT_ocean_zero b hb4)]
  simp [M.lift, AD.sub, AD.add, AD.scale, AD.const, bind, Except.bind, pure, Except.pure,
    exDICE, DICEClimate.create, exSettings, exControl]
  norm_num

theorem exT_atm_one : T_atm exExt 1 exDICE = .ok (⟨104933 / 88200, [0, 0]⟩, exDICEb) := by
  show eval exExt (fun _ => 1 + 1) .T_atm 1 exDICE = _
  rw [eval_of_miss exExt _ .T_atm 1 exDICE (by decide) (by decide) (by decide) rfl]
  have h0 : eval exExt (Budget.spend (fun _ => 1 + 1) .T_atm) .T_atm (1 - 1) exDICE
      = .ok (AD.const 2 1, exDICE) :=
    eval_zero exExt _ .T_atm exDICE (by decide) (by decide)
  rw [bind_of_ok _ _ _ _ _ h0]
  rw [bind_of_ok _ _ _ _ _ (exT_atm_rec _ (by decide) (by decide) (by decide) (by decide))]
  rfl

end Dice

namespace Dice

/-! ## The `T_atm` recurrence and its cap -/

theorem ad_sub_value (a b r : AD) (h : a.sub b = .ok r) : r.value = a.value - b.value := by
  unfold AD.sub at h
  split at h
  · simp only [Except.ok.injEq] at h
    rw [← h]
  · simp at h

theorem ad_add_value (a b r : AD) (h : a.add b = .ok r) : r.value = a.value + b.value := by
  unfold AD.add at h
  split at h
  · simp only [Except.ok.injEq] at h
    rw [← h]
  · simp at h

theorem except_bind_eq_ok {α β : Type} (r : Except Error α) (f : α → Except Error β) (b : β)
    (h : (r >>= f) = .ok b) : ∃ a, r = .ok a ∧ f a = .ok b := by
  cases r with
  | error e => simp [bind, Except.bind] at h
  | ok a => exact ⟨a, rfl, h⟩

theorem T_atm_raw_value (c : DICEClimate) (last f toc raw : AD)
    (h : T_atm_raw c last f toc = .ok raw) :
    raw.value = last.value + c.c1 * (f.value - (c.fco22x / c.t2xco2) * last.value
      - c.c3 * (last.value - toc.value)) := by
  unfold T_atm_raw at h
  obtain ⟨s1, h1, h⟩ := except_bind_eq_ok _ _ _ h
  obtain ⟨df, h2, h⟩ := except_bind_eq_ok _ _ _ h
  obtain ⟨s2, h3, h⟩ := except_bind_eq_ok _ _ _ h
  rw [ad_add_value _ _ _ h]
  simp only [AD.scale, ad_sub_value _ _ _ h3, ad_sub_value _ _ _ h1, ad_sub_value _ _ _ h2]

/-- Claim C18. With `raw = T_atm_last + c1 * (force(t) - (fco22x / t2xco2) *
T_atm_last - c3 * (T_atm_last - T_ocean(t - 1)))`, the `T_atm` recurrence
returns `raw` (value and gradient) when `raw.value ≤ T_atm_upper.value` and
the constant `T_atm_upper` otherwise; the decision compares values only; and
`T_atm_upper`, as its member initializer builds it, has the configured upper
bound as value and a gradient that is zero in every component. -/
theorem T_atm_recurrence_cap (x : Ext) (acc : Var → Nat → M AD) (t : Nat)
    (last f toc raw : AD) (d d1 d2 : DICE)
    (hf : force x (acc .M_atm) t d = .ok (f, d1))
    (hto : acc .T_ocean (t - 1) d1 = .ok (toc, d2))
    (hraw : T_atm_raw d.climate last f toc = .ok raw) :
    recurrence x acc .T_atm t last d
      = .ok (if raw.value ≤ d.climate.T_atm_upper.value then raw else d.climate.T_atm_upper,
          d2) ∧
    raw.value = last.value + d.climate.c1 * (f.value
      - (d.climate.fco22x / d.climate.t2xco2) * last.value
      - d.climate.c3 * (last.value - toc.value)) ∧
    (∀ (st : ClimateSettings) (g : Global) (ctl : Control),
      d.climate.T_atm_upper = (DICEClimate.create st g ctl).T_atm_upper →
      d.climate.T_atm_upper.value = st.T_atm_upper ∧
      d.climate.T_atm_upper.gradient = List.replicate ctl.variables_num 0) := by
  refine ⟨?_, T_atm_raw_value _ _ _ _ _ hraw, ?_⟩
  · simp only [recurrence]
    rw [bind_of_ok _ _ _ _ _ hf, bind_of_ok _ _ _ _ _ hto]
    unfold T_atm_raw at hraw
    obtain ⟨s1, h1, hraw⟩ := except_bind_eq_ok _ _ _ hraw
    obtain ⟨df, h2, hraw⟩ := except_bind_eq_ok _ _ _ hraw
    obtain ⟨s2, h3, hraw⟩ := except_bind_eq_ok _ _ _ hraw
    simp only [M.lift, h1, h2, h3, hraw, bind, Except.bind, pure, Except.pure]
    by_cases hle : raw.value ≤ d.climate.T_atm_upper.value
    · have hgt : ¬ raw.value > d.climate.T_atm_upper.value := not_lt.mpr hle
      simp only [hgt, hle, ↓reduceIte]
    · have hgt : raw.value > d.climate.T_atm_upper.value := not_le.mp hle
      simp only [hgt, hle, ↓reduceIte]
  · intro st g ctl h
    rw [h]
    exact ⟨rfl, rfl⟩

/-- Claim C18 at step 1 of the small configuration: `raw` is `104933/88200`,
below the cap 40, and is returned. -/
theorem T_atm_recurrence_cap_witness :
    force exExt (fun u => eval exExt (fun _ => 2) .M_atm u) 1 exDICE
      = .ok (⟨5875 / 1764, [0, 0]⟩, exDICEa) ∧
    eval exExt (fun _ => 2) .T_ocean (1 - 1) exDICEa = .ok (AD.const 2 0, exDICEa) ∧
    T_atm_raw exDICE.climate (AD.const 2 1) ⟨5875 / 1764, [0, 0]⟩ (AD.const 2 0)
      = .ok ⟨104933 / 88200, [0, 0]⟩ ∧
    (recurrence exExt (fun r u => eval exExt (fun _ => 2) r u) .T_atm 1 (AD.const 2 1) exDICE
      = .ok (if (⟨104933 / 88200, [0, 0]⟩ : AD).value ≤ exDICE.climate.T_atm_upper.value
          then ⟨104933 / 88200, [0, 0]⟩ else exDICE.climate.T_atm_upper, exDICEa) ∧
    (⟨104933 / 88200, [0, 0]⟩ : AD).value = (AD.const 2 1).value + exDICE.climate.c1
      * ((⟨5875 / 1764, [0, 0]⟩ : AD).value
        - (exDICE.climate.fco22x / exDICE.climate.t2xco2) * (AD.const 2 1).value
        - exDICE.climate.c3 * ((AD.const 2 1).value - (AD.const 2 0).value)) ∧
    (∀ (st : ClimateSettings) (g : Global) (ctl : Control),
      exDICE.climate.T_atm_upper = (DICEClimate.create st g ctl).T_atm_upper →
      exDICE.climate.T_atm_upper.value = st.T_atm_upper ∧
      exDICE.climate.T_atm_upper.gradient = List.replicate ctl.variables_num 0)) :=
  ⟨exForce_one _ (by decide) (by decide) (by decide), exT_ocean_zero _ (by decide),
   exT_atm_raw,
   T_atm_recurrence_cap exExt (fun r u => eval exExt (fun _ => 2) r u) 1 (AD.const 2 1)
     ⟨5875 / 1764, [0, 0]⟩ (AD.const 2 0) ⟨104933 / 88200, [0, 0]⟩ exDICE exDICEa exDICEa
     (exForce_one _ (by decide) (by decide) (by decide)) (exT_ocean_zero _ (by decide))
     exT_atm_raw⟩

end Dice

namespace Dice

/-! ## The cap on `T_atm` along an evaluation -/

theorem keepsCap_pure {α : Type} (a : α) : KeepsCap (M.pure a) := by
  intro d b d' hinv h
  simp only [M.pure, Except.ok.injEq, Prod.mk.injEq] at h
  rw [← h.2]
  exact ⟨hinv, rfl⟩

theorem keepsCap_lift {α : Type} (r : Except Error α) : KeepsCap (M.lift r) := by
  intro d b d' hinv h
  rw [(lift_eq_ok r d d' b h).2]
  exact ⟨hinv, rfl⟩

theorem keepsCap_bind {α β : Type} {m : M α} {f : α → M β} (hm : KeepsCap m)
    (hf : ∀ a, KeepsCap (f a)) : KeepsCap (M.bind m f) := by
  intro d b d2 hinv h
  obtain ⟨a, d1, h1, h2⟩ := bind_eq_ok m f d d2 b h
  obtain ⟨hinv1, hu1⟩ := hm d a d1 hinv h1
  obtain ⟨hinv2, hu2⟩ := hf a d1 b d2 hinv1 h2
  exact ⟨hinv2, by rw [hu2, hu1]⟩

theorem force_keepsCap (x : Ext) (k : Nat → M AD) (hk : ∀ u, KeepsCap (k u)) (t : Nat) :
    KeepsCap (force x k t) := by
  intro d a d' hinv h
  simp only [force] at h
  exact keepsCap_bind (hk t) (fun _ => keepsCap_lift _) d a d' hinv h

theorem recurrence_keepsCap (x : Ext) (hx : x.KeepsCap) (acc : Var → Nat → M AD)
    (hacc : ∀ r u, KeepsCap (acc r u)) (q : Var) (t : Nat) (last : AD) :
    KeepsCap (recurrence x acc q t last) := by
  intro d a d' hinv h
  cases q <;> simp only [recurrence] at h
  · exact keepsCap_bind (hacc _ _) (fun _ =>
      keepsCap_bind (hx _ (hacc _) _) (fun _ => keepsCap_lift _)) d a d' hinv h
  · exact keepsCap_bind (hacc _ _) (fun _ => keepsCap_lift _) d a d' hinv h
  · exact keepsCap_bind (hacc _ _) (fun _ =>
      keepsCap_bind (hacc _ _) (fun _ => keepsCap_lift _)) d a d' hinv h
  · exact keepsCap_bind (hacc _ _) (fun _ => keepsCap_lift _) d a d' hinv h
  · exact keepsCap_bind (force_keepsCap x _ (hacc _) _)
      (fun _ => keepsCap_bind (hacc _ _) (fun _ => keepsCap_lift _)) d a d' hinv h

/-- What the lambda of `T_atm` returns does not exceed the cap. -/
theorem recurrence_T_atm_le (x : Ext) (acc : Var → Nat → M AD) (t : Nat) (last raw : AD)
    (d d2 : DICE) (h : recurrence x acc .T_atm t last d = .ok (raw, d2)) :
    raw.value ≤ d.climate.T_atm_upper.value := by
  simp only [recurrence] at h
  obtain ⟨f, d1, _, h⟩ := bind_eq_ok _ _ _ _ _ h
  obtain ⟨toc, d3, _, h⟩ := bind_eq_ok _ _ _ _ _ h
  obtain ⟨h, _⟩ := lift_eq_ok _ _ _ _ h
  obtain ⟨s1, _, h⟩ := except_bind_eq_ok _ _ _ h
  obtain ⟨df, _, h⟩ := except_bind_eq_ok _ _ _ h
  obtain ⟨s2, _, h⟩ := except_bind_eq_ok _ _ _ h
  obtain ⟨T_atm_t, _, h⟩ := except_bind_eq_ok _ _ _ h
  split at h
  · simp only [pure, Except.pure, Except.ok.injEq] at h
    rw [← h]
  · rename_i hgt
    simp only [pure, Except.pure, Except.ok.injEq] at h
    rw [← h]
    exact not_lt.mp hgt

theorem series_store_cached (s : Series) (t u : Nat) (v w : AD)
    (h : (s.store t v).cached u = some w) : (u = t ∧ w = v) ∨ s.cached u = some w := by
  unfold Series.cached Series.store at *
  simp only [List.getElem?_set] at h
  by_cases htu : t = u
  · subst htu
    left
    by_cases hlt : t < s.cache.length
    · simp only [↓reduceIte, hlt, Option.some.injEq] at h
      exact ⟨rfl, h.symm⟩
    · simp [hlt] at h
  · right
    simpa [htu] using h

theorem climate_setSeries_series (c : DICEClimate) (q r : Var) (s : Series) :
    (c.setSeries q s).series r = if r = q then s else c.series r := by
  cases q <;> cases r <;> rfl

theorem climate_setSeries_upper (c : DICEClimate) (q : Var) (s : Series) :
    (c.setSeries q s).T_atm_upper = c.T_atm_upper := by
  cases q <;> rfl

/-- Storing a clamped value keeps the cap; a value stored for `T_atm` is the
unclamped one and has to respect the cap itself. -/
theorem storeClamped_keepsCap (q : Var) (t : Nat) (raw a : AD) (d d' : DICE)
    (hinv : CapInv d) (hraw : q = .T_atm → raw.value ≤ d.climate.T_atm_upper.value)
    (h : storeClamped q t raw d = .ok (a, d')) :
    (CapInv d' ∧ d'.climate.T_atm_upper = d.climate.T_atm_upper) ∧ (q = .T_atm → a = raw) := by
  simp only [storeClamped, Except.ok.injEq, Prod.mk.injEq] at h
  obtain ⟨ha, hd⟩ := h
  subst hd
  obtain ⟨hid, hcap⟩ := hinv
  by_cases hq : q = .T_atm
  · subst hq
    have hav : a = raw := by rw [← ha, hid]; rfl
    refine ⟨⟨⟨?_, ?_⟩, climate_setSeries_upper _ _ _⟩, fun _ => hav⟩
    · simp only [climate_setSeries_series, ↓reduceIte, Series.store]
      exact hid
    · intro u v hu hc
      simp only [climate_setSeries_series, ↓reduceIte, climate_setSeries_upper] at hc ⊢
      rcases series_store_cached _ _ _ _ _ hc with ⟨_, hv⟩ | hold
      · rw [hv, hid]
        exact hraw rfl
      · exact hcap u v hu hold
  · have hne : ¬ Var.T_atm = q := fun h => hq h.symm
    refine ⟨⟨⟨?_, ?_⟩, climate_setSeries_upper _ _ _⟩, fun h => absurd h hq⟩
    · simp only [climate_setSeries_series, hne, ↓reduceIte]
      exact hid
    · intro u v hu hc
      simp only [climate_setSeries_series, hne, ↓reduceIte, climate_setSeries_upper] at hc ⊢
      exact hcap u v hu hc

theorem eval_keepsCap (x : Ext) (hx : x.KeepsCap) :
    ∀ (n : Nat) (b : Budget), b.total = n → ∀ q t d a d', CapInv d →
      eval x b q t d = .ok (a, d') →
      (CapInv d' ∧ d'.climate.T_atm_upper = d.climate.T_atm_upper) ∧
      (q = .T_atm → 1 ≤ t → a.value ≤ d.climate.T_atm_upper.value) := by
  intro n
  induction n using Nat.strong_induction_on with
  | _ n ih =>
    intro b hb q t d a d' hinv h
    rw [eval] at h
    by_cases hq : b q = 0
    · simp [hq] at h
    · simp only [hq, ↓reduceDIte] at h
      by_cases hlen : (d.climate.series q).cache.length ≤ t
      · simp [hlen] at h
      · simp only [hlen, ↓reduceIte] at h
        by_cases ht : t = 0
        · simp only [ht, ↓reduceIte, Except.ok.injEq, Prod.mk.injEq] at h
          rw [← h.2]
          exact ⟨⟨hinv, rfl⟩, fun _ h1 => by omega⟩
        · simp only [ht, ↓reduceIte] at h
          cases hc : (d.climate.series q).cached t with
          | some v =>
            simp only [hc, Except.ok.injEq, Prod.mk.injEq] at h
            rw [← h.2, ← h.1]
            refine ⟨⟨hinv, rfl⟩, fun hqT h1 => ?_⟩
            subst hqT
            exact hinv.2 t v h1 hc
          | none =>
            simp only [hc] at h
            have hlt := spend_total_lt b q hq
            rw [hb] at hlt
            have ihb : ∀ r u, KeepsCap (eval x (b.spend q) r u) :=
              fun r u d0 a0 d0' hi h0 => (ih _ hlt (b.spend q) rfl r u d0 a0 d0' hi h0).1
            obtain ⟨last, d1, h1, h⟩ := bind_eq_ok _ _ _ _ _ h
            obtain ⟨raw, d2, h2, h3⟩ := bind_eq_ok _ _ _ _ _ h
            obtain ⟨hinv1, hu1⟩ := ihb q (t - 1) d last d1 hinv h1
            obtain ⟨hinv2, hu2⟩ := recurrence_keepsCap x hx _ ihb q t last d1 raw d2 hinv1 h2
            have hraw : q = .T_atm → raw.value ≤ d2.climate.T_atm_upper.value := by
              intro hqT
              subst hqT
              rw [hu2]
              exact recurrence_T_atm_le x _ t last raw d1 d2 h2
            obtain ⟨⟨hinv3, hu3⟩, hval⟩ := storeClamped_keepsCap q t raw a d2 d' hinv2 hraw h3
            refine ⟨⟨hinv3, by rw [hu3, hu2, hu1]⟩, fun hqT _ => ?_⟩
            rw [hval hqT, ← hu1, ← hu2]
            exact hraw hqT

end Dice

namespace Dice

theorem capInv_reset (d : DICE) (hid : (d.climate.series .T_atm).bound = .identity) :
    CapInv d.reset := by
  have hs : d.reset.climate.series .T_atm = (d.climate.series .T_atm).reset :=
    climate_reset_series _ _
  refine ⟨?_, ?_⟩
  · rw [hs]
    exact hid
  · intro u v _ hc
    rw [hs, series_reset_cached] at hc
    cases hc

/-- Claim C20, refuted on the code. In the configuration with seed
`T_atm0 = 50` and cap `T_atm_upper = 40`, `T_atm(0)` is the seed, 50, above
the cap: the series of `T_atm` has no bound policy and the cap is applied
inside the recurrence only. -/
theorem T_atm_seed_exceeds_cap :
    0 < exDICEhot.global.timestep_num ∧
    T_atm exExt 0 exDICEhot = .ok (AD.const 2 50, exDICEhot) ∧
    exDICEhot.climate.T_atm_upper.value = 40 ∧
    ¬ ((AD.const 2 50).value ≤ exDICEhot.climate.T_atm_upper.value) := by
  refine ⟨by decide, eval_zero exExt (fun _ => 0 + 1) .T_atm exDICEhot (by decide) (by decide),
    rfl, ?_⟩
  have h : exDICEhot.climate.T_atm_upper.value = 40 := rfl
  rw [h]
  simp [AD.const]
  norm_num

/-- Claim C20 as amended. For every `t ≥ 1`, in a state in which the cached
entries of `T_atm` at indices `≥ 1` respect the cap (any state right after
`reset()` is one, for a `T_atm` series as the initializer builds it), the
value `T_atm(t)` returns is `≤ T_atm_upper.value`, and the state it leaves
is again such a state, with the same cap; at `t = 0` the accessor returns
the seed `T_atm0` as it is, whatever the cap. Emissions are assumed to write
to the cache of `T_atm` only through the accessor. -/
theorem T_atm_capped_from_step_one (x : Ext) (hx : x.KeepsCap) (t : Nat) (d d' : DICE)
    (a : AD) (ht : 1 ≤ t) (hinv : CapInv d) (h : T_atm x t d = .ok (a, d')) :
    a.value ≤ d.climate.T_atm_upper.value ∧ CapInv d' ∧
    d'.climate.T_atm_upper = d.climate.T_atm_upper ∧
    (∀ d0 : DICE, (d0.climate.series .T_atm).bound = .identity → CapInv d0.reset) ∧
    (∀ (st : ClimateSettings) (g : Global) (ctl : Control),
      ((DICEClimate.create st g ctl).series .T_atm).bound = .identity) ∧
    (∀ d0 : DICE, 0 < (d0.climate.series .T_atm).cache.length →
      (d0.climate.series .T_atm).bound = .identity →
      T_atm x 0 d0 = .ok ((d0.climate.series .T_atm).seed, d0)) := by
  obtain ⟨⟨hinv', hu⟩, hval⟩ := eval_keepsCap x hx _ _ rfl .T_atm t d a d' hinv h
  refine ⟨hval rfl ht, hinv', hu, capInv_reset, fun _ _ _ => rfl, ?_⟩
  intro d0 hlen hid
  have h0 := eval_zero x (fun _ => 0 + 1) .T_atm d0 (by decide) hlen
  rw [hid] at h0
  exact h0

theorem exExt_keepsCap : exExt.KeepsCap := by
  intro k _ t d a d' hinv h
  simp only [exExt, Except.ok.injEq, Prod.mk.injEq] at h
  rw [← h.2]
  exact ⟨hinv, rfl⟩

/-- Claim C20 as amended, at step 1 of the small configuration. -/
theorem T_atm_capped_from_step_one_witness :
    exExt.KeepsCap ∧ 1 ≤ 1 ∧ CapInv exDICE ∧
    T_atm exExt 1 exDICE = .ok (⟨104933 / 88200, [0, 0]⟩, exDICEb) ∧
    ((⟨104933 / 88200, [0, 0]⟩ : AD).value ≤ exDICE.climate.T_atm_upper.value ∧
    CapInv exDICEb ∧
    exDICEb.climate.T_atm_upper = exDICE.climate.T_atm_upper ∧
    (∀ d0 : DICE, (d0.climate.series .T_atm).bound = .identity → CapInv d0.reset) ∧
    (∀ (st : ClimateSettings) (g : Global) (ctl : Control),
      ((DICEClimate.create st g ctl).series .T_atm).bound = .identity) ∧
    (∀ d0 : DICE, 0 < (d0.climate.series .T_atm).cache.length →
      (d0.climate.series .T_atm).bound = .identity →
      T_atm exExt 0 d0 = .ok ((d0.climate.series .T_atm).seed, d0))) :=
  ⟨exExt_keepsCap, le_refl 1, capInv_reset exDICE rfl, exT_atm_one,
   T_atm_capped_from_step_one exExt exExt_keepsCap 1 exDICE exDICEb _ (le_refl 1)
     (capInv_reset exDICE rfl) exT_atm_one⟩

end Dice

namespace Dice

/-! ## Conservation of carbon -/

theorem ad_divConst_value (a r : AD) (c : ℚ) (h : a.divConst c = .ok r) :
    r.value = a.value / c := by
  unfold AD.divConst at h
  split at h
  · simp at h
  · simp only [Except.ok.injEq] at h
    rw [← h]

theorem recurrence_M_atm_value (x : Ext) (acc : Var → Nat → M AD) (t : Nat) (last r : AD)
    (d d2 : DICE) (h : recurrence x acc .M_atm t last d = .ok (r, d2)) :
    ∃ mu d1 e, acc .M_u (t - 1) d = .ok (mu, d1) ∧ x.E (acc .T_atm) (t - 1) d1 = .ok (e, d2) ∧
      r.value = d.climate.b11 * last.value + d.climate.b21 * mu.value
        + (d.global.timestep_length : ℚ) * e.value / 3.666 := by
  simp only [recurrence] at h
  obtain ⟨mu, d1, h1, h⟩ := bind_eq_ok _ _ _ _ _ h
  obtain ⟨e, d3, h2, h⟩ := bind_eq_ok _ _ _ _ _ h
  obtain ⟨hl, hd⟩ := lift_eq_ok _ _ _ _ h
  subst hd
  obtain ⟨s1, hs1, hl⟩ := except_bind_eq_ok _ _ _ hl
  obtain ⟨s2, hs2, hl⟩ := except_bind_eq_ok _ _ _ hl
  have v1 := ad_add_value _ _ _ hs1
  have v2 := ad_divConst_value _ _ _ hs2
  have v3 := ad_add_value _ _ _ hl
  refine ⟨mu, d1, e, h1, h2, ?_⟩
  rw [v3, v1, v2]
  simp only [AD.scale]

theorem recurrence_M_l_value (x : Ext) (acc : Var → Nat → M AD) (t : Nat) (last r : AD)
    (d d2 : DICE) (h : recurrence x acc .M_l t last d = .ok (r, d2)) :
    ∃ mu, acc .M_u (t - 1) d = .ok (mu, d2) ∧
      r.value = d.climate.b33 * last.value + d.climate.b23 * mu.value := by
  simp only [recurrence] at h
  obtain ⟨mu, d1, h1, h⟩ := bind_eq_ok _ _ _ _ _ h
  obtain ⟨hl, hd⟩ := lift_eq_ok _ _ _ _ h
  subst hd
  have v1 := ad_add_value _ _ _ hl
  refine ⟨mu, h1, ?_⟩
  rw [v1]
  simp only [AD.scale]

theorem recurrence_M_u_value (x : Ext) (acc : Var → Nat → M AD) (t : Nat) (last r : AD)
    (d d2 : DICE) (h : recurrence x acc .M_u t last d = .ok (r, d2)) :
    ∃ ma d1 ml, acc .M_atm (t - 1) d = .ok (ma, d1) ∧ acc .M_l (t - 1) d1 = .ok (ml, d2) ∧
      r.value = d.climate.b12 * ma.value + d.climate.b22 * last.value
        + d.climate.b32 * ml.value := by
  simp only [recurrence] at h
  obtain ⟨ma, d1, h1, h⟩ := bind_eq_ok _ _ _ _ _ h
  obtain ⟨ml, d3, h2, h⟩ := bind_eq_ok _ _ _ _ _ h
  obtain ⟨hl, hd⟩ := lift_eq_ok _ _ _ _ h
  subst hd
  obtain ⟨s1, hs1, hl⟩ := except_bind_eq_ok _ _ _ hl
  have v1 := ad_add_value _ _ _ hs1
  have v3 := ad_add_value _ _ _ hl
  refine ⟨ma, d1, ml, h1, h2, ?_⟩
  rw [v3, v1]
  simp only [AD.scale]

/-- Claim C21. The transition matrix of the carbon cycle conserves mass: for
every state, `b11 + b12 = 1`, `b21 + b22 + b23 = 1` and `b32 + b33 = 1`; and
when in a state `d` the accessors at `t - 1` return `M_atm(t-1) = ma`,
`M_u(t-1) = mu`, `M_l(t-1) = ml` and the emissions `E(t-1) = e`, the unclamped
results `ra`, `ru`, `rl` of the lambdas of `M_atm`, `M_u` and `M_l` at `t`
(each with its own previous value as `last`) satisfy
`ra + ru + rl = ma + mu + ml + e * timestep_length / 3.666` (values). -/
theorem carbon_mass_conserved (x : Ext) (acc : Var → Nat → M AD) (t : Nat)
    (d d1 d2 d3 d4 sa su sl : DICE) (ma mu ml e ra ru rl : AD)
    (hmu : acc .M_u (t - 1) d = .ok (mu, d1))
    (he : x.E (acc .T_atm) (t - 1) d1 = .ok (e, d2))
    (hma : acc .M_atm (t - 1) d = .ok (ma, d3))
    (hml : acc .M_l (t - 1) d3 = .ok (ml, d4))
    (hra : recurrence x acc .M_atm t ma d = .ok (ra, sa))
    (hru : recurrence x acc .M_u t mu d = .ok (ru, su))
    (hrl : recurrence x acc .M_l t ml d = .ok (rl, sl)) :
    d.climate.b11 + d.climate.b12 = 1 ∧
    d.climate.b21 + d.climate.b22 + d.climate.b23 = 1 ∧
    d.climate.b32 + d.climate.b33 = 1 ∧
    ra.value + ru.value + rl.value
      = ma.value + mu.value + ml.value + e.value * (d.global.timestep_length : ℚ) / 3.666 := by
  obtain ⟨mu1, d1a, e1, h1, h2, va⟩ := recurrence_M_atm_value x acc t ma ra d sa hra
  obtain ⟨ma1, d3a, ml1, h3, h4, vu⟩ := recurrence_M_u_value x acc t mu ru d su hru
  obtain ⟨mu2, h5, vl⟩ := recurrence_M_l_value x acc t ml rl d sl hrl
  rw [hmu] at h1 h5
  simp only [Except.ok.injEq, Prod.mk.injEq] at h1 h5
  obtain ⟨rfl, rfl⟩ := h1
  obtain ⟨rfl, _⟩ := h5
  rw [he] at h2
  simp only [Except.ok.injEq, Prod.mk.injEq] at h2
  obtain ⟨rfl, _⟩ := h2
  rw [hma] at h3
  simp only [Except.ok.injEq, Prod.mk.injEq] at h3
  obtain ⟨rfl, rfl⟩ := h3
  rw [hml] at h4
  simp only [Except.ok.injEq, Prod.mk.injEq] at h4
  obtain ⟨rfl, _⟩ := h4
  refine ⟨?_, ?_, ?_, ?_⟩
  · simp only [DICEClimate.b11]; ring
  · simp only [DICEClimate.b22]; ring
  · simp only [DICEClimate.b33]; ring
  · rw [va, vu, vl]
    simp only [DICEClimate.b11, DICEClimate.b22, DICEClimate.b33]
    ring

theorem exM_l_zero (b : Budget) (hb : b .M_l ≠ 0) :
    eval exExt b .M_l 0 exDICE = .ok (AD.const 2 1700, exDICE) := by
  have h := eval_zero exExt b .M_l exDICE hb (by decide)
  have hc : ((exDICE.climate.series .M_l).bound.clamp (exDICE.climate.series .M_l).seed)
      = AD.const 2 1700 := by
    simp [exDICE, DICEClimate.create, DICEClimate.series, exSettings, exControl, Bound.clamp,
      AD.const]
    norm_num
  rw [hc] at h
  exact h

theorem exM_u_rec (b : Budget) (hb1 : b .M_atm ≠ 0) (hb2 : b .M_l ≠ 0) :
    recurrence exExt (fun r u => eval exExt b r u) .M_u 1 (AD.const 2 400) exDICE
      = .ok (⟨2513 / 6, [0, 0]⟩, exDICE) := by
  simp only [recurrence]
  rw [bind_of_ok _ _ _ _ _ (exM_atm_zero b hb1)]
  rw [bind_of_ok _ _ _ _ _ (exM_l_zero b hb2)]
  simp [M.lift, AD.add, AD.scale, AD.const, bind, Except.bind, exDICE,
    DICEClimate.create, DICEClimate.b22, DICEClimate.b21, DICEClimate.b32, exSettings,
    exGlobal, exControl]
  norm_num

theorem exM_l_rec (b : Budget) (hb : b .M_u ≠ 0) :
    recurrence exExt (fun r u => eval exExt b r u) .M_l 1 (AD.const 2 1700) exDICE
      = .ok (⟨10207 / 6, [0, 0]⟩, exDICE) := by
  simp only [recurrence]
  rw [bind_of_ok _ _ _ _ _ (exM_u_zero b hb)]
  simp [M.lift, AD.add, AD.scale, AD.const, bind, Except.bind, exDICE,
    DICEClimate.create, DICEClimate.b33, DICEClimate.b32, exSettings,
    exGlobal, exControl]
  norm_num

/-- Claim C21 at the small configuration, step 1: from `(1000, 400, 1700)`
and emissions `3.666` the lambdas yield `(985, 2513/6, 10207/6)`, in total
`3105 = 3100 + 5`. -/
theorem carbon_mass_conserved_witness :
    eval exExt (fun _ => 1) .M_u (1 - 1) exDICE = .ok (AD.const 2 400, exDICE) ∧
    exExt.E (fun u => eval exExt (fun _ => 1) .T_atm u) (1 - 1) exDICE
      = .ok (AD.const 2 3.666, exDICE) ∧
    eval exExt (fun _ => 1) .M_atm (1 - 1) exDICE = .ok (AD.const 2 1000, exDICE) ∧
    eval exExt (fun _ => 1) .M_l (1 - 1) exDICE = .ok (AD.const 2 1700, exDICE) ∧
    recurrence exExt (fun r u => eval exExt (fun _ => 1) r u) .M_atm 1 (AD.const 2 1000) exDICE
      = .ok (⟨985, [0, 0]⟩, exDICE) ∧
    recurrence exExt (fun r u => eval exExt (fun _ => 1) r u) .M_u 1 (AD.const 2 400) exDICE
      = .ok (⟨2513 / 6, [0, 0]⟩, exDICE) ∧
    recurrence exExt (fun r u => eval exExt (fun _ => 1) r u) .M_l 1 (AD.const 2 1700) exDICE
      = .ok (⟨10207 / 6, [0, 0]⟩, exDICE) ∧
    (exDICE.climate.b11 + exDICE.climate.b12 = 1 ∧
     exDICE.climate.b21 + exDICE.climate.b22 + exDICE.climate.b23 = 1 ∧
     exDICE.climate.b32 + exDICE.climate.b33 = 1 ∧
     (⟨985, [0, 0]⟩ : AD).value + (⟨2513 / 6, [0, 0]⟩ : AD).value
        + (⟨10207 / 6, [0, 0]⟩ : AD).value
      = (AD.const 2 1000).value + (AD.const 2 400).value + (AD.const 2 1700).value
        + (AD.const 2 3.666).value * (exDICE.global.timestep_length : ℚ) / 3.666) :=
  ⟨exM_u_zero _ (by decide), rfl, exM_atm_zero _ (by decide), exM_l_zero _ (by decide),
   exM_atm_rec _ (by decide), exM_u_rec _ (by decide) (by decide), exM_l_rec _ (by decide),
   carbon_mass_conserved exExt (fun r u => eval exExt (fun _ => 1) r u) 1
     exDICE exDICE exDICE exDICE exDICE exDICE exDICE exDICE
     (AD.const 2 1000) (AD.const 2 400) (AD.const 2 1700) (AD.const 2 3.666)
     ⟨985, [0, 0]⟩ ⟨2513 / 6, [0, 0]⟩ ⟨10207 / 6, [0, 0]⟩
     (exM_u_zero _ (by decide)) rfl (exM_atm_zero _ (by decide)) (exM_l_zero _ (by decide))
     (exM_atm_rec _ (by decide)) (exM_u_rec _ (by decide) (by decide))
     (exM_l_rec _ (by decide))⟩

/-! ## The equilibrium of the carbon cycle -/

theorem fix_seed (b : Budget) (q : Var) (hb : b q ≠ 0) :
    eval exExtZero b q 0 exDICEfix
      = .ok ((exDICEfix.climate.series q).bound.clamp (exDICEfix.climate.series q).seed,
          exDICEfix) := by
  cases q <;> exact eval_zero exExtZero b _ exDICEfix hb (by decide)

theorem fixM_atm_zero (b : Budget) (hb : b .M_atm ≠ 0) :
    eval exExtZero b .M_atm 0 exDICEfix = .ok (AD.const 2 600, exDICEfix) := by
  have h := fix_seed b .M_atm hb
  have hc : ((exDICEfix.climate.series .M_atm).bound.clamp
      (exDICEfix.climate.series .M_atm).seed) = AD.const 2 600 := by
    simp [exDICEfix, exDICE, DICEClimate.create, DICEClimate.series, exSettings, exControl,
      Bound.clamp, AD.const]
    norm_num
  rw [hc] at h
  exact h

theorem fixM_u_zero (b : Budget) (hb : b .M_u ≠ 0) :
    eval exExtZero b .M_u 0 exDICEfix = .ok (AD.const 2 300, exDICEfix) := by
  have h := fix_seed b .M_u hb
  have hc : ((exDICEfix.climate.series .M_u).bound.clamp
      (exDICEfix.climate.series .M_u).seed) = AD.const 2 300 := by
    simp [exDICEfix, exDICE, DICEClimate.create, DICEClimate.series, exSettings, exControl,
      Bound.clamp, AD.const]
    norm_num
  rw [hc] at h
  exact h

theorem fixM_l_zero (b : Budget) (hb : b .M_l ≠ 0) :
    eval exExtZero b .M_l 0 exDICEfix = .ok (AD.const 2 1800, exDICEfix) := by
  have h := fix_seed b .M_l hb
  have hc : ((exDICEfix.climate.series .M_l).bound.clamp
      (exDICEfix.climate.series .M_l).seed) = AD.const 2 1800 := by
    simp [exDICEfix, exDICE, DICEClimate.create, DICEClimate.series, exSettings, exControl,
      Bound.clamp, AD.const]
    norm_num
  rw [hc] at h
  exact h

theorem fixM_atm_rec (b : Budget) (hb : b .M_u ≠ 0) :
    recurrence exExtZero (fun r u => eval exExtZero b r u) .M_atm 1 (AD.const 2 600) exDICEfix
      = .ok (⟨600, [0, 0]⟩, exDICEfix) := by
  simp only [recurrence]
  rw [bind_of_ok _ _ _ _ _ (fixM_u_zero b hb)]
  have hE : exExtZero.E (fun u => eval exExtZero b .T_atm u) (1 - 1) exDICEfix
      = .ok (AD.const 2 0, exDICEfix) := rfl
  rw [bind_of_ok _ _ _ _ _ hE]
  simp [M.lift, AD.add, AD.scale, AD.divConst, AD.const, bind, Except.bind, exDICEfix, exDICE,
    DICEClimate.create, DICEClimate.b11, DICEClimate.b21, exSettings, exGlobal, exControl]
  norm_num

theorem fixM_u_rec (b : Budget) (hb1 : b .M_atm ≠ 0) (hb2 : b .M_l ≠ 0) :
    recurrence exExtZero (fun r u => eval exExtZero b r u) .M_u 1 (AD.const 2 300) exDICEfix
      = .ok (⟨300, [0, 0]⟩, exDICEfix) := by
  simp only [recurrence]
  rw [bind_of_ok _ _ _ _ _ (fixM_atm_zero b hb1)]
  rw [bind_of_ok _ _ _ _ _ (fixM_l_zero b hb2)]
  simp [M.lift, AD.add, AD.scale, AD.const, bind, Except.bind, exDICEfix, exDICE,
    DICEClimate.create, DICEClimate.b22, DICEClimate.b21, DICEClimate.b32, exSettings,
    exGlobal, exControl]
  norm_num

theorem fixM_l_rec (b : Budget) (hb : b .M_u ≠ 0) :
    recurrence exExtZero (fun r u => eval exExtZero b r u) .M_l 1 (AD.const 2 1800) exDICEfix
      = .ok (⟨1800, [0, 0]⟩, exDICEfix) := by
  simp only [recurrence]
  rw [bind_of_ok _ _ _ _ _ (fixM_u_zero b hb)]
  simp [M.lift, AD.add, AD.scale, AD.const, bind, Except.bind, exDICEfix, exDICE,
    DICEClimate.create, DICEClimate.b33, DICEClimate.b32, exSettings,
    exGlobal, exControl]
  norm_num

/-- Claim C22. The configured equilibrium is a fixed point of the carbon
cycle: with `M_u_eq ≠ 0` and `M_l_eq ≠ 0`, when in a state `d` the accessors
at `t - 1` return the values `M_atm_eq`, `M_u_eq`, `M_l_eq` and the emissions
`E(t-1)` have value 0, the unclamped results of the lambdas of `M_atm`, `M_u`
and `M_l` at `t` have the values `M_atm_eq`, `M_u_eq` and `M_l_eq` again. -/
theorem equilibrium_fixed_point (x : Ext) (acc : Var → Nat → M AD) (t : Nat)
    (d d1 d2 d3 d4 sa su sl : DICE) (ma mu ml e ra ru rl : AD)
    (hu0 : d.climate.M_u_eq ≠ 0) (hl0 : d.climate.M_l_eq ≠ 0)
    (hmu : acc .M_u (t - 1) d = .ok (mu, d1))
    (he : x.E (acc .T_atm) (t - 1) d1 = .ok (e, d2))
    (hma : acc .M_atm (t - 1) d = .ok (ma, d3))
    (hml : acc .M_l (t - 1) d3 = .ok (ml, d4))
    (hva : ma.value = d.climate.M_atm_eq) (hvu : mu.value = d.climate.M_u_eq)
    (hvl : ml.value = d.climate.M_l_eq) (hve : e.value = 0)
    (hra : recurrence x acc .M_atm t ma d = .ok (ra, sa))
    (hru : recurrence x acc .M_u t mu d = .ok (ru, su))
    (hrl : recurrence x acc .M_l t ml d = .ok (rl, sl)) :
    ra.value = d.climate.M_atm_eq ∧ ru.value = d.climate.M_u_eq ∧
    rl.value = d.climate.M_l_eq := by
  obtain ⟨mu1, d1a, e1, h1, h2, va⟩ := recurrence_M_atm_value x acc t ma ra d sa hra
  obtain ⟨ma1, d3a, ml1, h3, h4, vu⟩ := recurrence_M_u_value x acc t mu ru d su hru
  obtain ⟨mu2, h5, vl⟩ := recurrence_M_l_value x acc t ml rl d sl hrl
  rw [hmu] at h1 h5
  simp only [Except.ok.injEq, Prod.mk.injEq] at h1 h5
  obtain ⟨rfl, rfl⟩ := h1
  obtain ⟨rfl, _⟩ := h5
  rw [he] at h2
  simp only [Except.ok.injEq, Prod.mk.injEq] at h2
  obtain ⟨rfl, _⟩ := h2
  rw [hma] at h3
  simp only [Except.ok.injEq, Prod.mk.injEq] at h3
  obtain ⟨rfl, rfl⟩ := h3
  rw [hml] at h4
  simp only [Except.ok.injEq, Prod.mk.injEq] at h4
  obtain ⟨rfl, _⟩ := h4
  refine ⟨?_, ?_, ?_⟩
  · rw [va, hva, hvu, hve]
    simp only [DICEClimate.b11, DICEClimate.b21]
    field_simp
    ring
  · rw [vu, hva, hvu, hvl]
    simp only [DICEClimate.b22, DICEClimate.b21, DICEClimate.b32]
    field_simp
    ring
  · rw [vl, hvl, hvu]
    simp only [DICEClimate.b33, DICEClimate.b32]
    field_simp

/-- Claim C22 at the configuration started at its equilibrium
`(600, 300, 1800)`, step 1, without emissions. -/
theorem equilibrium_fixed_point_witness :
    exDICEfix.climate.M_u_eq ≠ 0 ∧ exDICEfix.climate.M_l_eq ≠ 0 ∧
    eval exExtZero (fun _ => 1) .M_u (1 - 1) exDICEfix = .ok (AD.const 2 300, exDICEfix) ∧
    exExtZero.E (fun u => eval exExtZero (fun _ => 1) .T_atm u) (1 - 1) exDICEfix
      = .ok (AD.const 2 0, exDICEfix) ∧
    eval exExtZero (fun _ => 1) .M_atm (1 - 1) exDICEfix = .ok (AD.const 2 600, exDICEfix) ∧
    eval exExtZero (fun _ => 1) .M_l (1 - 1) exDICEfix = .ok (AD.const 2 1800, exDICEfix) ∧
    (AD.const 2 600).value = exDICEfix.climate.M_atm_eq ∧
    (AD.const 2 300).value = exDICEfix.climate.M_u_eq ∧
    (AD.const 2 1800).value = exDICEfix.climate.M_l_eq ∧
    (AD.const 2 0).value = 0 ∧
    recurrence exExtZero (fun r u => eval exExtZero (fun _ => 1) r u) .M_atm 1
      (AD.const 2 600) exDICEfix = .ok (⟨600, [0, 0]⟩, exDICEfix) ∧
    recurrence exExtZero (fun r u => eval exExtZero (fun _ => 1) r u) .M_u 1
      (AD.const 2 300) exDICEfix = .ok (⟨300, [0, 0]⟩, exDICEfix) ∧
    recurrence exExtZero (fun r u => eval exExtZero (fun _ => 1) r u) .M_l 1
      (AD.const 2 1800) exDICEfix = .ok (⟨1800, [0, 0]⟩, exDICEfix) ∧
    ((⟨600, [0, 0]⟩ : AD).value = exDICEfix.climate.M_atm_eq ∧
     (⟨300, [0, 0]⟩ : AD).value = exDICEfix.climate.M_u_eq ∧
     (⟨1800, [0, 0]⟩ : AD).value = exDICEfix.climate.M_l_eq) :=
  ⟨by decide, by decide, fixM_u_zero _ (by decide), rfl, fixM_atm_zero _ (by decide),
   fixM_l_zero _ (by decide), rfl, rfl, rfl, rfl,
   fixM_atm_rec _ (by decide), fixM_u_rec _ (by decide) (by decide), fixM_l_rec _ (by decide),
   equilibrium_fixed_point exExtZero (fun r u => eval exExtZero (fun _ => 1) r u) 1
     exDICEfix exDICEfix exDICEfix exDICEfix exDICEfix exDICEfix exDICEfix exDICEfix
     (AD.const 2 600) (AD.const 2 300) (AD.const 2 1800) (AD.const 2 0)
     ⟨600, [0, 0]⟩ ⟨300, [0, 0]⟩ ⟨1800, [0, 0]⟩
     (by decide) (by decide)
     (fixM_u_zero _ (by decide)) rfl (fixM_atm_zero _ (by decide)) (fixM_l_zero _ (by decide))
     rfl rfl rfl rfl
     (fixM_atm_rec _ (by decide)) (fixM_u_rec _ (by decide) (by decide))
     (fixM_l_rec _ (by decide))⟩

end Dice

namespace Dice

/-! ## The objective handed to the backends -/

theorem exDICE_calc_assigned :
    calc_single_utility exExt false (assign [1, 1] exDICE).reset
      = .ok (⟨9, [2, 2]⟩, assign [1, 1] exDICE) := by
  have hr : (assign [1, 1] exDICE).reset = assign [1, 1] exDICE := rfl
  rw [hr]
  simp [calc_single_utility, utility_loop, utility, M.bind, M.pure, M.lift, exExt, exDICE,
    exGlobal, exControl, AD.add, AD.const, AD.variable, AD.scale, AD.addConst, List.range,
    List.range.loop, assign]
  norm_num

/-- Claim C23. Every backend is handed the utility of the evaluation it
runs, negated for the minimizers: when `calc_single_utility()` returns `u` on
the model with the candidate `vars` bound and reset (`um` in the `midaco`
pass, which calls it after `reset()` alone) and the loop for `cca` returns,
the `midaco` pass sets `f = -um.value`, `PagmoProblem::fitness` sets
`f[0] = -u.value`, the `borg` callback sets `objs[0] = -u.value`, and the
callback of `set_max_objective` (nlopt) returns `u.value` itself; with or
without the constraint. -/
theorem objective_is_negated_utility (x : Ext) (debug wc : Bool) (n : Nat) (g0 : ℚ)
    (vars : List ℚ) (d d1 d2 m1 m2 : DICE) (u um : AD) (cca ccam : ℚ)
    (hn : vars.take n = vars)
    (hcalc : calc_single_utility x debug (assign vars d).reset = .ok (u, d1))
    (hcca : cca_loop x d1.global.timestep_num 0 90 d1 = .ok (cca, d2))
    (hmid : calc_single_utility x debug d.reset = .ok (um, m1))
    (hmcca : cca_loop x m1.global.timestep_num 0 90 m1 = .ok (ccam, m2)) :
    midaco_pass x debug wc g0 vars d
      = .ok ((-um.value, if wc then m1.global.fosslim - ccam else g0),
          if wc then m2 else m1) ∧
    pagmo_fitness x debug wc vars d
      = .ok (-u.value :: (if wc then [cca - d1.global.fosslim] else []),
          if wc then d2 else d1) ∧
    borg_callback x debug wc n vars d
      = .ok (([-u.value], if wc then [max 0 (cca - d1.global.fosslim)] else []), d2) ∧
    nlopt_objective x debug n vars d = .ok (u.value, d1) := by
  refine ⟨?_, ?_, ?_, ?_⟩
  · simp only [midaco_pass]
    rw [bind_of_ok _ _ _ _ _ hmid]
    cases wc
    · rfl
    · simp only [↓reduceIte]
      rw [bind_of_ok _ _ _ _ _ hmcca]
      rfl
  · simp only [pagmo_fitness]
    rw [bind_of_ok _ _ _ _ _ hcalc]
    cases wc
    · rfl
    · simp only [↓reduceIte]
      rw [bind_of_ok _ _ _ _ _ hcca]
      rfl
  · simp only [borg_callback, hn]
    rw [bind_of_ok _ _ _ _ _ hcalc, bind_of_ok _ _ _ _ _ hcca]
    cases wc <;> rfl
  · simp only [nlopt_objective, hn]
    rw [bind_of_ok _ _ _ _ _ hcalc]
    rfl

/-- Claim C23 at the small configuration with the candidate `(1, 1)`, of
utility 9, the constraint switched on; the model holds `(1/2, 1/4)`, of
utility `13/2`. -/
theorem objective_is_negated_utility_witness :
    List.take 2 [(1 : ℚ), 1] = [1, 1] ∧
    calc_single_utility exExt false (assign [1, 1] exDICE).reset
      = .ok (⟨9, [2, 2]⟩, assign [1, 1] exDICE) ∧
    cca_loop exExt (assign [1, 1] exDICE).global.timestep_num 0 90 (assign [1, 1] exDICE)
      = .ok (100, assign [1, 1] exDICE) ∧
    calc_single_utility exExt false exDICE.reset = .ok (⟨13 / 2, [2, 2]⟩, exDICE) ∧
    cca_loop exExt exDICE.global.timestep_num 0 90 exDICE = .ok (100, exDICE) ∧
    (midaco_pass exExt false true 0 [1, 1] exDICE
      = .ok ((-(⟨13 / 2, [2, 2]⟩ : AD).value,
            if true then exDICE.global.fosslim - 100 else 0),
          if true then exDICE else exDICE) ∧
    pagmo_fitness exExt false true [1, 1] exDICE
      = .ok (-(⟨9, [2, 2]⟩ : AD).value
            :: (if true then [100 - (assign [1, 1] exDICE).global.fosslim] else []),
          if true then assign [1, 1] exDICE else assign [1, 1] exDICE) ∧
    borg_callback exExt false true 2 [1, 1] exDICE
      = .ok (([-(⟨9, [2, 2]⟩ : AD).value],
            if true then [max 0 (100 - (assign [1, 1] exDICE).global.fosslim)] else []),
          assign [1, 1] exDICE) ∧
    nlopt_objective exExt false 2 [1, 1] exDICE
      = .ok ((⟨9, [2, 2]⟩ : AD).value, assign [1, 1] exDICE)) :=
  ⟨rfl, exDICE_calc_assigned, exDICE_cca [1, 1], exDICE_calc_single_utility,
   exDICE_cca [1 / 2, 1 / 4],
   objective_is_negated_utility exExt false true 2 0 [1, 1] exDICE (assign [1, 1] exDICE)
     (assign [1, 1] exDICE) exDICE exDICE ⟨9, [2, 2]⟩ ⟨13 / 2, [2, 2]⟩ 100 100 rfl
     exDICE_calc_assigned (exDICE_cca [1, 1]) exDICE_calc_single_utility
     (exDICE_cca [1 / 2, 1 / 4])⟩

/-! ## The starting point of the optimization -/

theorem optlrsav_bounds (g : Global) (hdK : 0 ≤ g.dK) (hel : 1 ≤ g.elasmu)
    (hpr : 0 ≤ g.prstp) (hg0 : 0 ≤ g.gamma) (hg1 : g.gamma ≤ 1) :
    0 ≤ g.optlrsav ∧ g.optlrsav ≤ 1 := by
  have hnum : (0 : ℚ) < g.dK + 0.004 := by
    have : (0 : ℚ) < 0.004 := by norm_num
    linarith
  have hle : g.dK + 0.004 ≤ g.dK + 0.004 * g.elasmu + g.prstp := by
    have : (0.004 : ℚ) * 1 ≤ 0.004 * g.elasmu :=
      mul_le_mul_of_nonneg_left hel (by norm_num)
    linarith
  have hden : (0 : ℚ) < g.dK + 0.004 * g.elasmu + g.prstp := lt_of_lt_of_le hnum hle
  have hr0 : 0 ≤ (g.dK + 0.004) / (g.dK + 0.004 * g.elasmu + g.prstp) :=
    div_nonneg (le_of_lt hnum) (le_of_lt hden)
  have hr1 : (g.dK + 0.004) / (g.dK + 0.004 * g.elasmu + g.prstp) ≤ 1 :=
    (div_le_one hden).mpr hle
  unfold Global.optlrsav
  constructor
  · exact mul_nonneg hr0 hg0
  · calc (g.dK + 0.004) / (g.dK + 0.004 * g.elasmu + g.prstp) * g.gamma
        ≤ 1 * g.gamma := mul_le_mul_of_nonneg_right hr1 hg0
      _ = g.gamma := one_mul _
      _ ≤ 1 := hg1

theorem fill_optlrsav_replicate (d : DICE) :
    (fill_optlrsav d).control.s = List.replicate d.control.s.length d.global.optlrsav := by
  simp only [fill_optlrsav, List.map_const']

theorem run_first_optimize (x : Ext) (debug : Bool)
    (optimize : IterationNode → List ℚ → M Unit) (node : IterationNode)
    (rest : List IterationNode) (r k : Nat) (d : DICE)
    (hone : d.economies.length = 1) (hrep : node.repeatCount = r + 1) :
    run x debug optimize (some (node :: rest)) k d
      = (M.bind (optimize node ((fill_optlrsav d).control.s.take
            ((d.global.timestep_num + 2 ^ 64 - k) % 2 ^ 64))) fun _ =>
         M.bind (fun d1 => calc_single_utility x debug d1.reset) fun u =>
         M.bind (run_repeat x debug optimize node
            ((d.global.timestep_num + 2 ^ 64 - k) % 2 ^ 64) r) fun us =>
         M.bind (run_iterations x debug optimize
            ((d.global.timestep_num + 2 ^ 64 - k) % 2 ^ 64) rest) fun vs =>
         M.pure ((u.value :: us) ++ vs)) (fill_optlrsav d) := by
  simp only [run, hone, one_ne_zero, ↓reduceIte, run_iterations, hrep, run_repeat]
  simp only [M.bind, M.pure]
  cases optimize node (List.take ((d.global.timestep_num + 2 ^ 64 - k) % 2 ^ 64)
      (fill_optlrsav d).control.s) (fill_optlrsav d) with
  | error e => rfl
  | ok p =>
    obtain ⟨_, d1⟩ := p
    simp only []
    cases calc_single_utility x debug d1.reset with
    | error e => rfl
    | ok p2 =>
      obtain ⟨u, d2⟩ := p2
      simp only []
      cases run_repeat x debug optimize node
          ((d.global.timestep_num + 2 ^ 64 - k) % 2 ^ 64) r d2 with
      | error e => rfl
      | ok p3 =>
        obtain ⟨us, d3⟩ := p3
        rfl

/-- Claim C24. With `dK ≥ 0`, `elasmu ≥ 1`, `prstp ≥ 0` and `0 ≤ gamma ≤ 1`,
`optlrsav = (dK + 0.004) / (dK + 0.004 * elasmu + prstp) * gamma` lies in
`[0, 1]`; and `DICE::run` with one economy and configured iterations (the
first node repeating at least once) sets every entry of `control.s` to
`optlrsav` and enters the first `optimize` with an initial vector whose
entries are all `optlrsav`: every entry of `control.s` and of the starting
point lies inside the box `[0, 1]` of the optimizer. -/
theorem optlrsav_start_in_box (x : Ext) (debug : Bool)
    (optimize : IterationNode → List ℚ → M Unit) (node : IterationNode)
    (rest : List IterationNode) (r k : Nat) (d : DICE)
    (hdK : 0 ≤ d.global.dK) (hel : 1 ≤ d.global.elasmu) (hpr : 0 ≤ d.global.prstp)
    (hg0 : 0 ≤ d.global.gamma) (hg1 : d.global.gamma ≤ 1)
    (hone : d.economies.length = 1) (hrep : node.repeatCount = r + 1) :
    d.global.optlrsav
      = (d.global.dK + 0.004) / (d.global.dK + 0.004 * d.global.elasmu + d.global.prstp)
        * d.global.gamma ∧
    0 ≤ d.global.optlrsav ∧ d.global.optlrsav ≤ 1 ∧
    (fill_optlrsav d).control.s = List.replicate d.control.s.length d.global.optlrsav ∧
    run x debug optimize (some (node :: rest)) k d
      = (M.bind (optimize node (List.replicate
            (min ((d.global.timestep_num + 2 ^ 64 - k) % 2 ^ 64) d.control.s.length)
            d.global.optlrsav)) fun _ =>
         M.bind (fun d1 => calc_single_utility x debug d1.reset) fun u =>
         M.bind (run_repeat x debug optimize node
            ((d.global.timestep_num + 2 ^ 64 - k) % 2 ^ 64) r) fun us =>
         M.bind (run_iterations x debug optimize
            ((d.global.timestep_num + 2 ^ 64 - k) % 2 ^ 64) rest) fun vs =>
         M.pure ((u.value :: us) ++ vs)) (fill_optlrsav d) ∧
    (∀ v ∈ (fill_optlrsav d).control.s, 0 ≤ v ∧ v ≤ 1) ∧
    (∀ v ∈ List.replicate
        (min ((d.global.timestep_num + 2 ^ 64 - k) % 2 ^ 64) d.control.s.length)
        d.global.optlrsav, 0 ≤ v ∧ v ≤ 1) := by
  have hb := optlrsav_bounds d.global hdK hel hpr hg0 hg1
  refine ⟨rfl, hb.1, hb.2, fill_optlrsav_replicate d, ?_, ?_, ?_⟩
  · rw [run_first_optimize x debug optimize node rest r k d hone hrep,
      fill_optlrsav_replicate, List.take_replicate]
  · intro v hv
    rw [fill_optlrsav_replicate] at hv
    rw [(List.mem_replicate.mp hv).2]
    exact hb
  · intro v hv
    rw [(List.mem_replicate.mp hv).2]
    exact hb

theorem exGlobal_in_range :
    0 ≤ exDICE.global.dK ∧ 1 ≤ exDICE.global.elasmu ∧ 0 ≤ exDICE.global.prstp ∧
    0 ≤ exDICE.global.gamma ∧ exDICE.global.gamma ≤ 1 := by
  simp only [exDICE, exGlobal]
  norm_num

/-- Claim C24 at the small configuration, where `optlrsav = 156/605`. -/
theorem optlrsav_start_in_box_witness :
    0 ≤ exDICE.global.dK ∧ 1 ≤ exDICE.global.elasmu ∧ 0 ≤ exDICE.global.prstp ∧
    0 ≤ exDICE.global.gamma ∧ exDICE.global.gamma ≤ 1 ∧
    exDICE.economies.length = 1 ∧ (⟨"nlopt", 1⟩ : IterationNode).repeatCount = 0 + 1 ∧
    (exDICE.global.optlrsav
      = (exDICE.global.dK + 0.004)
          / (exDICE.global.dK + 0.004 * exDICE.global.elasmu + exDICE.global.prstp)
        * exDICE.global.gamma ∧
    0 ≤ exDICE.global.optlrsav ∧ exDICE.global.optlrsav ≤ 1 ∧
    (fill_optlrsav exDICE).control.s
      = List.replicate exDICE.control.s.length exDICE.global.optlrsav ∧
    run exExt false (fun _ _ => M.pure ()) (some (⟨"nlopt", 1⟩ :: [])) 0 exDICE
      = (M.bind ((fun _ _ => M.pure ()) (⟨"nlopt", 1⟩ : IterationNode) (List.replicate
            (min ((exDICE.global.timestep_num + 2 ^ 64 - 0) % 2 ^ 64) exDICE.control.s.length)
            exDICE.global.optlrsav)) fun _ =>
         M.bind (fun d1 => calc_single_utility exExt false d1.reset) fun u =>
         M.bind (run_repeat exExt false (fun _ _ => M.pure ()) ⟨"nlopt", 1⟩
            ((exDICE.global.timestep_num + 2 ^ 64 - 0) % 2 ^ 64) 0) fun us =>
         M.bind (run_iterations exExt false (fun _ _ => M.pure ())
            ((exDICE.global.timestep_num + 2 ^ 64 - 0) % 2 ^ 64) []) fun vs =>
         M.pure ((u.value :: us) ++ vs)) (fill_optlrsav exDICE) ∧
    (∀ v ∈ (fill_optlrsav exDICE).control.s, 0 ≤ v ∧ v ≤ 1) ∧
    (∀ v ∈ List.replicate
        (min ((exDICE.global.timestep_num + 2 ^ 64 - 0) % 2 ^ 64) exDICE.control.s.length)
        exDICE.global.optlrsav, 0 ≤ v ∧ v ≤ 1)) :=
  ⟨exGlobal_in_range.1, exGlobal_in_range.2.1, exGlobal_in_range.2.2.1,
   exGlobal_in_range.2.2.2.1, exGlobal_in_range.2.2.2.2, rfl, rfl,
   optlrsav_start_in_box exExt false (fun _ _ => M.pure ()) ⟨"nlopt", 1⟩ [] 0 0 exDICE
     exGlobal_in_range.1 exGlobal_in_range.2.1 exGlobal_in_range.2.2.1
     exGlobal_in_range.2.2.2.1 exGlobal_in_range.2.2.2.2 rfl rfl⟩

end Dice
